import Mathlib

/-!
# EdgeUnified: driver life cycle, scheduling, persistence and registry

A shallow embedding of `src/src/EdgeUnified.h` and `src/src/EdgeUnified.cpp`.

* The data members of `EdgeDriverBase` (and the `data` member of `EdgeDriver<T>`) form the
  structure `EdgeDriverBase σ`, where `σ` stands for the EdgeData type `T`.
* The `std::function` members (`_cbStart`, `_cbProcess`, `_cbEnd`, `_cbError`, `_serializer`,
  `_deserializer`) are user code. They are collected in `Callbacks σ`; a bound callback is a
  function on the state of its own driver, an empty `std::function` is `none`.
* `millis()` is an input: every operation that reads the clock receives the reading `now`.
* The file system and ArduinoJson are external libraries; they are modelled by `FS` and
  `ArduinoJson`.
* Every call of a callback, of `save`/`restore` and of the helpers they use appends an `Event`
  to the log of the `World`, so that "is invoked", "exactly once" and "before" are statements
  about that log.
* The registry (class `EdgeUnified`) holds references to drivers. A reference is the address of
  the driver in the `heap` of a `Sketch`; the member functions of the registry are the
  functions `Edge.attach`, `Edge.detach`, `Edge.process`, ... named after the instance `Edge`
  that the source exports. Every call the registry makes on a driver and every event of that
  driver is appended to the `trace` of the `Sketch`, and so is every mount and unmount of the
  store by `Edge.restore` and `Edge.save`.
* The custom web pages and the host of the AutoConnect library are external; they are modelled
  by `AutoConnectAux` and `AutoConnect`. A `Program` is a `Sketch` together with the hosts by
  address and the number of page objects that can still be allocated; `Edge.join`,
  `Edge.portal` and `Edge.release` work on it, and `Edge.step` is one call of any public member
  function of the registry.
* The handlers of the MQTT example that store and present the update period are
  `auxMQTTStart_period` and `auxMQTTSetting_period`.
* `EdgeDriver<T>::bind` stores `std::bind(handler)` in `_cbStart`, `_cbProcess` and `_cbEnd`,
  which is never empty and throws `std::bad_function_call` when the handler is empty.
  `Callbacks` has no value for such a member, so the members of a bound driver are `Members`,
  and `EdgeDriver.start`, `EdgeDriver.process`, `EdgeDriver.end_`, `Edge.end_bound` and
  `Edge.process_bound` are the member functions with an `Outcome` that tells whether the call
  returned. On members that are empty or hold a handler they agree with the functions on
  `Callbacks` (`start_ofCallbacks`, `process_ofCallbacks`, `end_ofCallbacks`,
  `registry_ofCallbacks`).
-/

namespace EdgeUnified

/-! ## Machine integers -/

/-- Modulus of `unsigned long` on the ESP8266 and ESP32 targets that `EdgeUnified.h` selects. -/
def ULONG_MOD : Nat := 2 ^ 32

/-- Modulus of `uint8_t`, the type of `_persistance`. -/
def UINT8_MOD : Nat := 2 ^ 8

/-- Smallest value of `long`, the type of the `interval` argument of `start`. -/
def LONG_MIN : Int := -(2 ^ 31)

/-- Largest value of `long`. -/
def LONG_MAX : Int := 2 ^ 31 - 1

/-- Content of a file, one number per byte. -/
abbrev Bytes := List Nat

/-! ## Constants of `EdgeUnified.h` -/

/-- `ED_EDGEDATA_IMMEDIATE_FILEEXTENSION` (EdgeUnified.h:55). -/
def ED_EDGEDATA_IMMEDIATE_FILEEXTENSION : String := ".dat"

/-- `ED_EDGEDATA_OFFERED_FILEEXTENSION` (EdgeUnified.h:60). -/
def ED_EDGEDATA_OFFERED_FILEEXTENSION : String := ".json"

/-- `PERSISTANCE::ED_PERSISTENT_AUTORESTORE` (EdgeUnified.h:114). -/
def ED_PERSISTENT_AUTORESTORE : Nat := 0x01

/-- `PERSISTANCE::ED_PERSISTENT_AUTOSAVE` (EdgeUnified.h:115). -/
def ED_PERSISTENT_AUTOSAVE : Nat := 0x10

/-! ## External libraries -/

/-- A scalar stored in a JSON object. -/
inductive JsonVariant where
  | null
  | bool (b : Bool)
  | int (n : Int)
  | str (s : String)
  deriving DecidableEq, Repr

/-- The key-value document handed to a serializer or a deserializer. -/
abbrev JsonObject := List (String × JsonVariant)

/-- Modelled from the spec: the ArduinoJson library, which is not part of the repository. The spec
(section 6) describes it as a structured document that is encoded to and decoded from a stream.
`deserializeJson capacity input` returns whether decoding failed and the document left in the
buffer; `memoryUsage` is `doc.memoryUsage()`; `serializeJson capacity json` is the text written
for a document built in a buffer of the given capacity. -/
structure ArduinoJson where
  deserializeJson : Nat → Bytes → Bool × JsonObject
  memoryUsage : JsonObject → Nat
  serializeJson : Nat → JsonObject → Bytes

/-- Modelled from the spec: the persistence store (`AUTOCONNECT_APPLIED_FILECLASS`), which is not
part of the repository. The spec (section 6) gives it `open(name, mode) -> stream-or-failure` and
`close(stream)`, and a mount/unmount pair. `files` maps a name to its content, `locked` lists the
names that cannot be opened for writing, `beginOk` tells whether `begin` succeeds. -/
structure FS where
  mounted : Bool
  beginOk : Bool
  files : List (String × Bytes)
  locked : List String
  deriving DecidableEq, Repr

/-- `fs.open(fn, "r")`: the content of the stream, or `none` when the open fails. -/
def FS.openRead (fs : FS) (fn : String) : Option Bytes :=
  if fs.mounted then fs.files.lookup fn else none

/-- `fs.open(fn, "w")` succeeds. -/
def FS.canOpenWrite (fs : FS) (fn : String) : Bool :=
  fs.mounted && !(fs.locked.contains fn)

/-- The store after the stream `fn`, opened with `"w"`, received `content` and was closed. -/
def FS.put (fs : FS) (fn : String) (content : Bytes) : FS :=
  { fs with files := (fn, content) :: fs.files.filter (fun e => e.1 != fn) }

/-! ## Data model -/

/-- The data members of `EdgeDriverBase` (EdgeUnified.h:164-182) and the member `data` of
`EdgeDriver<T>` (EdgeUnified.h:223). -/
structure EdgeDriverBase (σ : Type) where
  _enable : Bool
  _interval : Nat
  _tm : Nat
  _persistance : Nat
  _jsonBufferSize : Nat
  _edgeDataType : String
  data : σ

/-- The function objects of a driver (EdgeUnified.h:170-176) and the memory representation of
the EdgeData type `T` used by `_dataReader` and `_dataWritter` (EdgeUnified.h:226-227):
`sizeofT` is `sizeof(T)`, `toBytes` the object representation of a value and `ofBytes` the value
held by a representation. A function object is `none` when it is empty and `some f` when its
call runs `f`. The third case, a member to which `bind` gave `std::bind` of an empty handler
and whose call throws, is not a value of this structure: `Members` and the functions of
`EdgeDriver` cover it. -/
structure Callbacks (σ : Type) where
  _cbStart : Option (EdgeDriverBase σ → EdgeDriverBase σ)
  _cbProcess : Option (EdgeDriverBase σ → EdgeDriverBase σ)
  _cbEnd : Option (EdgeDriverBase σ → EdgeDriverBase σ)
  _cbError : Option (Int → EdgeDriverBase σ → EdgeDriverBase σ)
  _serializer : Option (EdgeDriverBase σ → JsonObject → JsonObject)
  _deserializer : Option (JsonObject → EdgeDriverBase σ → EdgeDriverBase σ)
  sizeofT : Nat
  toBytes : σ → Bytes
  ofBytes : Bytes → σ

/-- What the program does that an observer can see: calls of the user callbacks, entries into
`restore` and `save` (with the `fileName` argument, `none` for `nullptr`), and the calls these
make. -/
inductive Event where
  | cbStart
  | cbProcess
  | cbEnd
  | cbError (error : Int)
  | restore (fileName : Option String)
  | save (fileName : Option String)
  | openFile (fn : String) (mode : String) (ok : Bool)
  | deserializer
  | dataReader
  | serializer
  | dataWritter
  deriving DecidableEq, Repr

/-- The event is an entry into `restore`. -/
def Event.isRestore : Event → Bool
  | Event.restore _ => true
  | _ => false

/-- The event is an entry into `save`. -/
def Event.isSave : Event → Bool
  | Event.save _ => true
  | _ => false

/-- The event is a call made inside `restore` or `save`: opening the stream, the serializer or
deserializer, the raw reader or writer. -/
def Event.isTransfer : Event → Bool
  | Event.openFile _ _ _ => true
  | Event.deserializer => true
  | Event.dataReader => true
  | Event.serializer => true
  | Event.dataWritter => true
  | _ => false

/-- One driver, the default file system `AUTOCONNECT_APPLIED_FILESYSTEM`, and the log. -/
structure World (σ : Type) where
  drv : EdgeDriverBase σ
  fs : FS
  log : List Event

namespace EdgeDriverBase

variable {σ : Type}

/-- The scheduling state of a driver: enable flag, interval, last tick and persistence flags. -/
def sched (d : EdgeDriverBase σ) : Bool × Nat × Nat × Nat :=
  (d._enable, d._interval, d._tm, d._persistance)

/-- Constructor `EdgeDriverBase()` (EdgeUnified.h:124); the type name and the initial EdgeData
are given by the instantiation `EdgeDriver<T>`. -/
def ctor (typeName : String) (data : σ) : EdgeDriverBase σ :=
  { _enable := true, _interval := 0, _tm := 0, _persistance := 0x00, _jsonBufferSize := 0,
    _edgeDataType := typeName, data := data }

/-- `enable` (EdgeUnified.h:138). -/
def enable (onOff : Bool) (d : EdgeDriverBase σ) : EdgeDriverBase σ :=
  { d with _enable := onOff }

/-- `getTypeName` (EdgeUnified.h:217, 162). -/
def getTypeName (d : EdgeDriverBase σ) : String :=
  d._edgeDataType

/-- `getEdgeInterval` (EdgeUnified.h:146). -/
def getEdgeInterval (d : EdgeDriverBase σ) : Nat :=
  d._interval

/-- `setEdgeInterval` (EdgeUnified.h:147); `now` is the value `millis()` returns. -/
def setEdgeInterval (now : Nat) (interval : Nat) (d : EdgeDriverBase σ) : EdgeDriverBase σ :=
  { d with _interval := interval, _tm := now }

/-- `clearEdgeInterval` (EdgeUnified.h:145). -/
def clearEdgeInterval (now : Nat) (d : EdgeDriverBase σ) : EdgeDriverBase σ :=
  setEdgeInterval now 0 d

/-- `isAutoRestore` (EdgeUnified.h:152). -/
def isAutoRestore (d : EdgeDriverBase σ) : Bool :=
  (d._persistance &&& ED_PERSISTENT_AUTORESTORE) != 0

/-- `isAutoSave` (EdgeUnified.h:153). -/
def isAutoSave (d : EdgeDriverBase σ) : Bool :=
  (d._persistance &&& ED_PERSISTENT_AUTOSAVE) != 0

/-- `autoRestore` (EdgeUnified.cpp:19-26). -/
def autoRestore (onOff : Bool) (d : EdgeDriverBase σ) : EdgeDriverBase σ :=
  if onOff then
    { d with _persistance := (d._persistance ||| ED_PERSISTENT_AUTORESTORE) % UINT8_MOD }
  else
    { d with _persistance := (d._persistance &&& (0xf ^^^ ED_PERSISTENT_AUTORESTORE)) % UINT8_MOD }

/-- `autoSave` (EdgeUnified.cpp:35-40). -/
def autoSave (onOff : Bool) (d : EdgeDriverBase σ) : EdgeDriverBase σ :=
  if onOff then
    { d with _persistance := (d._persistance ||| ED_PERSISTENT_AUTOSAVE) % UINT8_MOD }
  else
    { d with _persistance := (d._persistance &&& (0xf ^^^ ED_PERSISTENT_AUTOSAVE)) % UINT8_MOD }

/-- `_elapse` (EdgeUnified.cpp:219-225). `millis() - _tm` is a subtraction of `unsigned long`
values, hence modulo `ULONG_MOD`; both reads of `millis()` in one call return `now`. -/
def _elapse (now : Nat) (d : EdgeDriverBase σ) : Bool × EdgeDriverBase σ :=
  if (now + ULONG_MOD - d._tm) % ULONG_MOD > d._interval then
    (true, { d with _tm := now })
  else
    (false, d)

/-- `_dataReader` of `EdgeDriver<T>` (EdgeUnified.h:226): `file.read` copies at most `sizeof(T)`
bytes of the stream over the representation of `data` and returns how many it copied. -/
def _dataReader (c : Callbacks σ) (file : Bytes) (d : EdgeDriverBase σ) : Nat × EdgeDriverBase σ :=
  let got := file.take c.sizeofT
  (got.length, { d with data := c.ofBytes (got ++ (c.toBytes d.data).drop got.length) })

/-- `_dataWritter` of `EdgeDriver<T>` (EdgeUnified.h:227): the `sizeof(T)` bytes written. -/
def _dataWritter (c : Callbacks σ) (d : EdgeDriverBase σ) : Bytes :=
  (c.toBytes d.data).take c.sizeofT

/-- File name used by `restore` (EdgeUnified.cpp:114-121). -/
def restoreFileName (c : Callbacks σ) (d : EdgeDriverBase σ) (fileName : Option String) : String :=
  match fileName with
  | none =>
    "/" ++ d.getTypeName ++
      (if c._deserializer.isSome then ED_EDGEDATA_OFFERED_FILEEXTENSION
       else ED_EDGEDATA_IMMEDIATE_FILEEXTENSION)
  | some fn => if fn.data.head? != some '/' then "/" ++ fn else fn

/-- File name used by `save` (EdgeUnified.cpp:168-175). -/
def saveFileName (c : Callbacks σ) (d : EdgeDriverBase σ) (fileName : Option String) : String :=
  match fileName with
  | none =>
    "/" ++ d.getTypeName ++
      (if c._serializer.isSome then ED_EDGEDATA_OFFERED_FILEEXTENSION
       else ED_EDGEDATA_IMMEDIATE_FILEEXTENSION)
  | some fn => if fn.data.head? != some '/' then "/" ++ fn else fn

/-- `restore` (EdgeUnified.cpp:113-155), for ArduinoJson 6. Returns `size` and the new world. -/
def restore (aj : ArduinoJson) (c : Callbacks σ) (fileName : Option String) (w : World σ) :
    Nat × World σ :=
  let fn := restoreFileName c w.drv fileName
  let log0 := w.log ++ [Event.restore fileName]
  match w.fs.openRead fn with
  | some inFile =>
    let log1 := log0 ++ [Event.openFile fn "r" true]
    match c._deserializer with
    | some de =>
      let r := aj.deserializeJson w.drv._jsonBufferSize inFile
      let size := aj.memoryUsage r.2
      if !r.1 then
        (size, { w with drv := de r.2 w.drv, log := log1 ++ [Event.deserializer] })
      else
        (size, { w with log := log1 })
    | none =>
      let r := _dataReader c inFile w.drv
      (r.1, { w with drv := r.2, log := log1 ++ [Event.dataReader] })
  | none => (0, { w with log := log0 ++ [Event.openFile fn "r" false] })

/-- `save` (EdgeUnified.cpp:167-197). Returns `size` and the new world. -/
def save (aj : ArduinoJson) (c : Callbacks σ) (fileName : Option String) (w : World σ) :
    Nat × World σ :=
  let fn := saveFileName c w.drv fileName
  let log0 := w.log ++ [Event.save fileName]
  if w.fs.canOpenWrite fn then
    let log1 := log0 ++ [Event.openFile fn "w" true]
    match c._serializer with
    | some ser =>
      let out := aj.serializeJson w.drv._jsonBufferSize (ser w.drv [])
      (out.length, { w with fs := w.fs.put fn out, log := log1 ++ [Event.serializer] })
    | none =>
      let out := _dataWritter c w.drv
      (out.length, { w with fs := w.fs.put fn out, log := log1 ++ [Event.dataWritter] })
  else
    (0, { w with log := log0 ++ [Event.openFile fn "w" false] })

/-- `end` (EdgeUnified.cpp:49-56); `save()` is called with its default arguments. -/
def end_ (aj : ArduinoJson) (c : Callbacks σ) (w : World σ) : World σ :=
  let w1 : World σ :=
    match c._cbEnd with
    | some cb => { w with drv := cb w.drv, log := w.log ++ [Event.cbEnd] }
    | none => w
  let w2 : World σ := if w1.drv.isAutoSave then (save aj c none w1).2 else w1
  { w2 with drv := w2.drv.enable false }

/-- `error` (EdgeUnified.cpp:66-70). -/
def error (c : Callbacks σ) (error : Int) (w : World σ) : World σ :=
  let w1 : World σ :=
    match c._cbError with
    | some cb => { w with drv := cb error w.drv, log := w.log ++ [Event.cbError error] }
    | none => w
  { w1 with drv := w1.drv.enable false }

/-- `process` (EdgeUnified.cpp:78-81). The condition is evaluated left to right and stops at the
first false operand, so `_elapse` runs only for an enabled driver with a process callback. -/
def process (c : Callbacks σ) (now : Nat) (w : World σ) : World σ :=
  if w.drv._enable then
    match c._cbProcess with
    | some cb =>
      let r := w.drv._elapse now
      if r.1 then { w with drv := cb r.2, log := w.log ++ [Event.cbProcess] }
      else { w with drv := r.2 }
    | none => w
  else w

/-- `start` (EdgeUnified.cpp:90-101). `interval` is a `long`; `setEdgeInterval` receives it
converted to `unsigned long`. `restore()` is called with its default arguments. -/
def start (aj : ArduinoJson) (c : Callbacks σ) (now : Nat) (interval : Int) (w : World σ) :
    World σ :=
  let w0 : World σ := { w with drv := w.drv.enable true }
  let w1 : World σ := if w0.drv.isAutoRestore then (restore aj c none w0).2 else w0
  let w2 : World σ :=
    if interval ≥ 0 then
      { w1 with drv := w1.drv.setEdgeInterval now (interval % (ULONG_MOD : Int)).toNat }
    else w1
  match c._cbStart with
  | some cb => { w2 with drv := cb w2.drv, log := w2.log ++ [Event.cbStart] }
  | none => w2

end EdgeDriverBase

/-! ## A concrete driver, used to instantiate the theorems -/

open EdgeDriverBase

/-- ArduinoJson stand-in used to instantiate the theorems: a document is the one-byte file
holding the value of key "n". -/
def demoJson : ArduinoJson :=
  { deserializeJson := fun _ input =>
      match input with
      | [n] => (false, [("n", JsonVariant.int n)])
      | _ => (true, [])
    memoryUsage := fun j => 16 * j.length
    serializeJson := fun _ j =>
      match j.lookup "n" with
      | some (JsonVariant.int n) => [n.toNat]
      | _ => [] }

/-- Driver bindings used to instantiate the theorems: the EdgeData is a counter. The start
callback adds 100, the process callback adds 1, the end callback adds 10000 and the error
callback stores the error code. -/
def demoCallbacks : Callbacks Nat :=
  { _cbStart := some (fun d => { d with data := d.data + 100 })
    _cbProcess := some (fun d => { d with data := d.data + 1 })
    _cbEnd := some (fun d => { d with data := d.data + 10000 })
    _cbError := some (fun e d => { d with data := e.toNat })
    _serializer := some (fun d j => ("n", JsonVariant.int d.data) :: j)
    _deserializer := some (fun j d =>
      match j.lookup "n" with
      | some (JsonVariant.int n) => { d with data := n.toNat }
      | _ => d)
    sizeofT := 1
    toBytes := fun n => [n]
    ofBytes := fun b => b.headD 0 }

/-- A mounted store holding one saved document for the type name "T". -/
def demoFS : FS :=
  { mounted := true, beginOk := true, files := [("/T.json", [7])], locked := [] }

/-- A world with a freshly constructed driver of type name "T". -/
def demoWorld : World Nat :=
  { drv := ctor "T" 0, fs := demoFS, log := [] }

/-- The driver of the interval scenario: enabled, interval 500, last tick 0. -/
def demoWorld500 : World Nat :=
  { demoWorld with drv := { demoWorld.drv with _interval := 500 } }

/-- A driver whose last tick lies 100 clock units before the clock wraps: enabled, interval
100, last tick 2^32 - 100. -/
def demoWorldWrap : World Nat :=
  { demoWorld with drv := { demoWorld.drv with _interval := 100, _tm := 4294967196 } }

/-- A world after `autoRestore(true)` on a freshly constructed driver, with a stored document
that sets the counter to 7. -/
def demoWorldRestore : World Nat :=
  { demoWorld with drv := autoRestore true demoWorld.drv }

/-- A world after `autoSave(true)` on a freshly constructed driver. -/
def demoWorldSave : World Nat :=
  { demoWorld with drv := autoSave true demoWorld.drv }

/-- ArduinoJson stand-in whose failed decoding leaves the members decoded so far in the
document: a well-formed file is the single byte holding the value of key "n"; a longer file
fails after its first member was stored. -/
def demoJsonPartial : ArduinoJson :=
  { deserializeJson := fun _ input =>
      match input with
      | [] => (true, [])
      | [n] => (false, [("n", JsonVariant.int n)])
      | n :: _ => (true, [("n", JsonVariant.int n)])
    memoryUsage := fun j => 16 * j.length
    serializeJson := fun _ j =>
      match j.lookup "n" with
      | some (JsonVariant.int n) => [n.toNat]
      | _ => [] }

/-- A world whose stored document for the type name "T" is malformed. -/
def demoWorldMalformed : World Nat :=
  { demoWorld with fs := { demoFS with files := [("/T.json", [7, 255])] } }

/-- A world whose store refuses to open "/T.json" for writing. -/
def demoWorldLocked : World Nat :=
  { demoWorld with fs := { demoFS with locked := ["/T.json"] } }

/-- Driver bindings without serializer and deserializer: the EdgeData is one byte. -/
def demoRawCallbacks : Callbacks Nat :=
  { _cbStart := none, _cbProcess := none, _cbEnd := none, _cbError := none,
    _serializer := none, _deserializer := none,
    sizeofT := 1, toBytes := fun n => [n], ofBytes := fun b => b.headD 0 }

/-- A world whose driver holds the EdgeData 42. -/
def demoWorld42 : World Nat :=
  { demoWorld with drv := { demoWorld.drv with data := 42 } }

/-! ## The MQTT example: EdgeData, serializer and deserializer -/

/-- Modelled from the spec: assignment `json[key] = value` of ArduinoJson, which is not part of
the repository. The spec (section 6) describes the document as a mapping from string keys to
scalar values: the value of an existing key is replaced, a new key is added. -/
def JsonObject.set (o : JsonObject) (key : String) (v : JsonVariant) : JsonObject :=
  if o.any (fun e => e.1 == key) then o.map (fun e => if e.1 == key then (key, v) else e)
  else o ++ [(key, v)]

/-- Modelled from the spec: `json[key].as<String>()` of ArduinoJson, which is not part of the
repository: the string stored under the key; other values are rendered as text and a missing
key as "null". -/
def JsonObject.asString (o : JsonObject) (key : String) : String :=
  match o.lookup key with
  | some (JsonVariant.str s) => s
  | some (JsonVariant.int n) => toString n
  | some (JsonVariant.bool b) => toString b
  | _ => "null"

/-- Modelled from the spec: `json[key].as<unsigned long>()` of ArduinoJson, which is not part of
the repository: the number stored under the key when it is an `unsigned long`, 0 otherwise. -/
def JsonObject.asULong (o : JsonObject) (key : String) : Nat :=
  match o.lookup key with
  | some (JsonVariant.int n) => if 0 ≤ n ∧ n < (ULONG_MOD : Int) then n.toNat else 0
  | _ => 0

/-- The EdgeData of the MQTT example, `MQTT_t` (MyMqtt.h:22-36). -/
structure MQTT_t where
  server : String
  apikey : String
  channelid : String
  writekey : String
  clientid : String
  username : String
  password : String
  hostname : String
  publishInterval : Nat
  retryInterval : Nat
  nextPeriod : Nat
  retry : Int
  inPublish : Bool
  deriving DecidableEq, Repr

/-- `mqttSerialize` (MyMqtt.cpp:493-503); `mqtt` is the driver the serializer is bound to. -/
def mqttSerialize (mqtt : EdgeDriverBase MQTT_t) (edgeData : JsonObject) : JsonObject :=
  let e1 := JsonObject.set edgeData "server" (JsonVariant.str mqtt.data.server)
  let e2 := JsonObject.set e1 "apikey" (JsonVariant.str mqtt.data.apikey)
  let e3 := JsonObject.set e2 "channelid" (JsonVariant.str mqtt.data.channelid)
  let e4 := JsonObject.set e3 "writekey" (JsonVariant.str mqtt.data.writekey)
  let e5 := JsonObject.set e4 "clientid" (JsonVariant.str mqtt.data.clientid)
  let e6 := JsonObject.set e5 "username" (JsonVariant.str mqtt.data.username)
  let e7 := JsonObject.set e6 "password" (JsonVariant.str mqtt.data.password)
  let e8 := JsonObject.set e7 "hostname" (JsonVariant.str mqtt.data.hostname)
  JsonObject.set e8 "publishInterval" (JsonVariant.int mqtt.data.publishInterval)

/-- `mqttDeserialize` (MyMqtt.cpp:506-516). -/
def mqttDeserialize (edgeData : JsonObject) (mqtt : EdgeDriverBase MQTT_t) :
    EdgeDriverBase MQTT_t :=
  { mqtt with data :=
    { mqtt.data with
      server := JsonObject.asString edgeData "server"
      apikey := JsonObject.asString edgeData "apikey"
      channelid := JsonObject.asString edgeData "channelid"
      writekey := JsonObject.asString edgeData "writekey"
      clientid := JsonObject.asString edgeData "clientid"
      username := JsonObject.asString edgeData "username"
      password := JsonObject.asString edgeData "password"
      hostname := JsonObject.asString edgeData "hostname"
      publishInterval := JsonObject.asULong edgeData "publishInterval" } }

/-- The fields of `MQTT_t` that the serializer and deserializer handle. -/
def MQTT_t.persisted (m : MQTT_t) :
    String × String × String × String × String × String × String × String × Nat :=
  (m.server, m.apikey, m.channelid, m.writekey, m.clientid, m.username, m.password,
    m.hostname, m.publishInterval)

/-! ## A stand-in codec and the MQTT driver, used to instantiate the theorems -/

/-- Text written by the stand-in codec for a string: its length, then its characters. -/
def demoEncodeString (s : String) : Bytes :=
  s.length :: s.data.map Char.toNat

/-- Text written by the stand-in codec for a value: a tag, then the value. -/
def demoEncodeVariant : JsonVariant → Bytes
  | JsonVariant.null => [0]
  | JsonVariant.bool b => [1, if b then 1 else 0]
  | JsonVariant.int n => [2, if n < 0 then 1 else 0, n.natAbs]
  | JsonVariant.str s => 3 :: demoEncodeString s

/-- Text written by the stand-in codec for a document: the number of members, then each key
and value. -/
def demoEncode (j : JsonObject) : Bytes :=
  j.length :: j.flatMap (fun e => demoEncodeString e.1 ++ demoEncodeVariant e.2)

/-- Reads a string written by `demoEncodeString`. -/
def demoDecodeString : Bytes → Option (String × Bytes)
  | [] => none
  | n :: rest =>
    if n ≤ rest.length then some (String.mk ((rest.take n).map Char.ofNat), rest.drop n)
    else none

/-- Reads a value written by `demoEncodeVariant`. -/
def demoDecodeVariant : Bytes → Option (JsonVariant × Bytes)
  | 0 :: rest => some (JsonVariant.null, rest)
  | 1 :: b :: rest => some (JsonVariant.bool (b != 0), rest)
  | 2 :: s :: n :: rest => some (JsonVariant.int (if s = 0 then (n : Int) else -(n : Int)), rest)
  | 3 :: rest => (demoDecodeString rest).map (fun r => (JsonVariant.str r.1, r.2))
  | _ => none

/-- Reads the given number of members; fails on missing or trailing text. -/
def demoDecodeMembers : Nat → Bytes → Option JsonObject
  | 0, [] => some []
  | 0, _ :: _ => none
  | n + 1, input =>
    match demoDecodeString input with
    | none => none
    | some (key, r1) =>
      match demoDecodeVariant r1 with
      | none => none
      | some (v, r2) => (demoDecodeMembers n r2).map (fun rest => (key, v) :: rest)

/-- ArduinoJson stand-in with a real encoding: decoding fails on malformed text and leaves an
empty document. -/
def demoCodec : ArduinoJson :=
  { deserializeJson := fun _ input =>
      match input with
      | [] => (true, [])
      | n :: rest =>
        match demoDecodeMembers n rest with
        | some j => (false, j)
        | none => (true, [])
    memoryUsage := fun j => 16 * j.length
    serializeJson := fun _ j => demoEncode j }

/-- Driver bindings of the MQTT example: the serializer and deserializer of MyMqtt.cpp; the
raw representation is not used. -/
def mqttCallbacks : Callbacks MQTT_t :=
  { _cbStart := none, _cbProcess := none, _cbEnd := none, _cbError := none,
    _serializer := some mqttSerialize, _deserializer := some mqttDeserialize,
    sizeofT := 0, toBytes := fun _ => [], ofBytes := fun _ =>
      { server := "", apikey := "", channelid := "", writekey := "", clientid := "",
        username := "", password := "", hostname := "", publishInterval := 0,
        retryInterval := 0, nextPeriod := 0, retry := 0, inPublish := false } }

/-- An MQTT setting as entered on the settings page. -/
def demoMqttData : MQTT_t :=
  { server := "mq.io", apikey := "K1", channelid := "42", writekey := "W", clientid := "c",
    username := "u", password := "p", hostname := "esp", publishInterval := 30000,
    retryInterval := 5000, nextPeriod := 0, retry := 0, inPublish := false }

/-- A world with the MQTT driver, its JSON buffer of `ED_SERIALIZE_BUFFER_SIZE` bytes, and an
empty mounted store. -/
def demoMqttWorld : World MQTT_t :=
  { drv := { (ctor "MQTT_t" demoMqttData) with _jsonBufferSize := 256 },
    fs := { mounted := true, beginOk := true, files := [], locked := [] }, log := [] }

/-- A world with the MQTT driver after its settings were overwritten. -/
def demoMqttBlank : EdgeDriverBase MQTT_t :=
  { demoMqttWorld.drv with
    data :=
      { server := "", apikey := "", channelid := "", writekey := "", clientid := "",
        username := "", password := "", hostname := "", publishInterval := 0,
        retryInterval := 5000, nextPeriod := 0, retry := 0, inPublish := false } }

/-! ## The registry `EdgeUnified` -/

/-- A member function of a driver, as the registry calls it. -/
inductive Method where
  | start (interval : Int)
  | process
  | end_
  | error (error : Int)
  | restore
  | save
  deriving DecidableEq, Repr

/-- What happens while the sketch runs: the registry calls a member function of the driver at
an address, or that driver emits an event during the call, or the registry mounts the store
(`fs.begin`, with its outcome) or unmounts it (`fs.end`). -/
inductive Entry where
  | call (driver : Nat) (m : Method)
  | event (driver : Nat) (e : Event)
  | mount (ok : Bool)
  | unmount
  deriving DecidableEq, Repr

/-- The entry is a call of a member function. -/
def Entry.isCall : Entry → Bool
  | Entry.call _ _ => true
  | _ => false

/-- The driver on which `process` is called, for an entry that is such a call. -/
def Entry.calledProcess : Entry → Option Nat
  | Entry.call driver Method.process => some driver
  | _ => none

/-- The driver whose process callback runs, for an entry that is such an event. -/
def Entry.firedProcess : Entry → Option Nat
  | Entry.event driver Event.cbProcess => some driver
  | _ => none

/-- The data members of class `EdgeUnified` (EdgeUnified.h:267-270). An element of `_drivers`
is a reference to a driver, that is, the address of the driver; `α` stands for
`AutoConnectAux*` and `π` for `AutoConnect*`. -/
structure Edge (α π : Type) where
  _drivers : List Nat
  _auxQueue : List α
  _portal : Option π

/-- The state of a sketch: the drivers by address, the default file system, what happened so
far, and the registry. -/
structure Sketch (σ α π : Type) where
  heap : Nat → EdgeDriverBase σ
  fs : FS
  trace : List Entry
  edge : Edge α π

/-- The call `driver.m()` of a member function `f` of the driver at address `driver`: it runs
on that driver and the file system, and its events are appended to the trace. -/
def Sketch.call {σ α π : Type} (s : Sketch σ α π) (driver : Nat) (m : Method)
    (f : World σ → World σ) : Sketch σ α π :=
  let w := f { drv := s.heap driver, fs := s.fs, log := [] }
  { s with
    heap := fun a => if a = driver then w.drv else s.heap a
    fs := w.fs
    trace := s.trace ++ Entry.call driver m :: w.log.map (Entry.event driver) }

/-- The loop `for (EdgeDriverBase& driver : drivers) driver.m();` over a list of references. -/
def Sketch.callAll {σ α π : Type} (m : Nat → Method) (f : Nat → World σ → World σ)
    (drivers : List Nat) (s : Sketch σ α π) : Sketch σ α π :=
  drivers.foldl (fun acc driver => acc.call driver (m driver) (f driver)) s

/-- `std::remove_if` followed by `erase` of the tail (EdgeUnified.cpp:273-275): the elements
that do not satisfy the predicate, in their order. -/
def remove_if {β : Type} (p : β → Bool) : List β → List β
  | [] => []
  | x :: xs => if p x then remove_if p xs else x :: remove_if p xs

/-- `EdgeUnified::attach(EdgeDriverBase&, const long)` (EdgeUnified.cpp:249-254). `cbs` gives
the function objects bound to the driver at each address. -/
def Edge.attach {σ α π : Type} (aj : ArduinoJson) (cbs : Nat → Callbacks σ) (now : Nat)
    (driver : Nat) (interval : Int) (s : Sketch σ α π) : Sketch σ α π :=
  let s1 : Sketch σ α π :=
    { s with edge := { s.edge with _drivers := s.edge._drivers ++ [driver] } }
  s1.call driver (Method.start interval) (EdgeDriverBase.start aj (cbs driver) now interval)

/-- `EdgeUnified::attach(std::vector<...>)` (EdgeUnified.cpp:261-265): each driver is attached
with the default interval -1. -/
def Edge.attach_many {σ α π : Type} (aj : ArduinoJson) (cbs : Nat → Callbacks σ) (now : Nat)
    (drivers : List Nat) (s : Sketch σ α π) : Sketch σ α π :=
  drivers.foldl (fun acc driver => Edge.attach aj cbs now driver (-1) acc) s

/-- `EdgeUnified::detach` (EdgeUnified.cpp:272-276): the predicate compares addresses. -/
def Edge.detach {σ α π : Type} (driver : Nat) (s : Sketch σ α π) : Sketch σ α π :=
  { s with edge :=
    { s.edge with _drivers := remove_if (fun _driver => driver == _driver) s.edge._drivers } }

/-- `EdgeUnified::abort` (EdgeUnified.cpp:388-391). -/
def Edge.abort {σ α π : Type} (cbs : Nat → Callbacks σ) (error : Int) (s : Sketch σ α π) :
    Sketch σ α π :=
  Sketch.callAll (fun _ => Method.error error)
    (fun driver => EdgeDriverBase.error (cbs driver) error) s.edge._drivers s

/-- `EdgeUnified::end` (EdgeUnified.cpp:397-400). -/
def Edge.end_ {σ α π : Type} (aj : ArduinoJson) (cbs : Nat → Callbacks σ) (s : Sketch σ α π) :
    Sketch σ α π :=
  Sketch.callAll (fun _ => Method.end_)
    (fun driver => EdgeDriverBase.end_ aj (cbs driver)) s.edge._drivers s

/-- `EdgeUnified::process(void)` (EdgeUnified.cpp:437-441); every `millis()` read during the
loop returns `now`. -/
def Edge.process {σ α π : Type} (cbs : Nat → Callbacks σ) (now : Nat) (s : Sketch σ α π) :
    Sketch σ α π :=
  Sketch.callAll (fun _ => Method.process)
    (fun driver => EdgeDriverBase.process (cbs driver) now) s.edge._drivers s

/-- The driver is enabled, has a process callback and its interval has elapsed at `now`: the
condition under which `EdgeDriverBase::process` calls the callback. -/
def fires {σ : Type} (c : Callbacks σ) (now : Nat) (d : EdgeDriverBase σ) : Bool :=
  d._enable && c._cbProcess.isSome &&
    decide ((now + ULONG_MOD - d._tm) % ULONG_MOD > d._interval)

/-! ## Concrete sketches, used to instantiate the theorems -/

/-- A sketch with three drivers of equal content at the addresses 0, 1 and 2, none of them
attached. -/
def demoSketch : Sketch Nat String Nat :=
  { heap := fun _ => ctor "T" 0, fs := demoFS, trace := [],
    edge := { _drivers := [], _auxQueue := [], _portal := none } }

/-- The bindings of the drivers of `demoSketch`. -/
def demoCbs : Nat → Callbacks Nat :=
  fun _ => demoCallbacks

/-- A sketch whose driver list holds the addresses 0, 1 and 0 again; the drivers at 0 and 1
have the same content. -/
def demoSketchABA : Sketch Nat String Nat :=
  { demoSketch with edge := { demoSketch.edge with _drivers := [0, 1, 0] } }

/-- A sketch with the drivers at 0, 1 and 2 registered; the driver at 1 is disabled. -/
def demoSketch3 : Sketch Nat String Nat :=
  { heap := fun a => if a = 1 then (ctor "T" 0).enable false else ctor "T" 0,
    fs := demoFS, trace := [],
    edge := { _drivers := [0, 1, 2], _auxQueue := ["/page"], _portal := none } }

/-- A sketch whose registered driver at address 0 has the auto-save flag set; its bindings
`demoCallbacks` include an end callback. -/
def demoSketchSave : Sketch Nat String Nat :=
  { heap := fun _ => autoSave true (ctor "T" 0), fs := demoFS, trace := [],
    edge := { _drivers := [0], _auxQueue := [], _portal := none } }

/-! ## The registry: `abort` -/

/-- A sketch with the drivers at 0 and 1 registered; the driver at 0 is enabled, the one at 1
is disabled. -/
def demoSketch2 : Sketch Nat String Nat :=
  { heap := fun a => if a = 1 then (ctor "T" 0).enable false else ctor "T" 0,
    fs := demoFS, trace := [],
    edge := { _drivers := [0, 1], _auxQueue := [], _portal := none } }

/-! ## The MQTT example: the update period -/

/-- The update period `auxMQTTStart` stores for the checked radio button of the "period"
element (MyMqtt.cpp:326-337): `checkedPeriod` counts the buttons from 1. -/
def auxMQTTStart_period (checkedPeriod : Int) (data : MQTT_t) : MQTT_t :=
  let interval : Nat :=
    if checkedPeriod = 1 then 30
    else if checkedPeriod = 2 then 60
    else if checkedPeriod = 3 then 180
    else 0
  { data with publishInterval := (interval * 1000) % ULONG_MOD }

/-- The radio button `auxMQTTSetting` marks as checked (MyMqtt.cpp:298); the `checked` member of
the radio element is an 8-bit number. -/
def auxMQTTSetting_period (data : MQTT_t) : Nat :=
  (data.publishInterval / (30 * 1000)) % UINT8_MOD

/-! ## The registry: `restore` and `save` with the mount of the store -/

/-- Modelled from the spec: `fs.begin(...)` of the persistence store, which is not part of the
repository: the mount of the spec (section 4.2); it succeeds when `beginOk` holds and then
leaves the store mounted. Returns the outcome and the store. -/
def FS.begin (fs : FS) : Bool × FS :=
  (fs.beginOk, { fs with mounted := fs.mounted || fs.beginOk })

/-- Modelled from the spec: `fs.end()` of the persistence store, which is not part of the
repository: the unmount of the spec (section 4.2). -/
def FS.end_ (fs : FS) : FS :=
  { fs with mounted := false }

/-- The driver and key of an entry into `restore`, for an entry that is such an event. -/
def Entry.restoreKey : Entry → Option (Nat × Option String)
  | Entry.event driver (Event.restore fileName) => some (driver, fileName)
  | _ => none

/-- The driver and key of an entry into `save`, for an entry that is such an event. -/
def Entry.saveKey : Entry → Option (Nat × Option String)
  | Entry.event driver (Event.save fileName) => some (driver, fileName)
  | _ => none

/-- The entry is a mount or an unmount of the store. -/
def Entry.isMountOp : Entry → Bool
  | Entry.mount _ => true
  | Entry.unmount => true
  | _ => false

/-- The mount at the head of `EdgeUnified::restore` and `EdgeUnified::save`
(EdgeUnified.cpp:467-475 and 492-500); `AutoConnectFS::_isMounted` is the `mounted` flag of the
store. Returns false, for the early `return`, when the mount failed. -/
def Edge.autoMountBegin {σ α π : Type} (autoMount : Bool) (s : Sketch σ α π) :
    Bool × Sketch σ α π :=
  if autoMount then
    let mounted := s.fs.mounted
    if !mounted then
      if !(s.fs.begin).1 then
        (false, { s with fs := (s.fs.begin).2, trace := s.trace ++ [Entry.mount false] })
      else
        (true, { s with fs := (s.fs.begin).2, trace := s.trace ++ [Entry.mount true] })
    else (true, s)
  else (true, s)

/-- The unmount at the tail of `EdgeUnified::restore` and `EdgeUnified::save`
(EdgeUnified.cpp:480-481 and 505-506). -/
def Edge.autoMountEnd {σ α π : Type} (autoMount : Bool) (s : Sketch σ α π) : Sketch σ α π :=
  if autoMount then { s with fs := s.fs.end_, trace := s.trace ++ [Entry.unmount] } else s

/-- `EdgeUnified::restore` (EdgeUnified.cpp:465-482) on the default file system. -/
def Edge.restore {σ α π : Type} (aj : ArduinoJson) (cbs : Nat → Callbacks σ)
    (autoMount : Bool) (s : Sketch σ α π) : Sketch σ α π :=
  let r := Edge.autoMountBegin autoMount s
  if r.1 then
    Edge.autoMountEnd autoMount
      (Sketch.callAll (fun _ => Method.restore)
        (fun driver w => (EdgeDriverBase.restore aj (cbs driver) none w).2)
        r.2.edge._drivers r.2)
  else r.2

/-- `EdgeUnified::save` (EdgeUnified.cpp:491-507) on the default file system. -/
def Edge.save {σ α π : Type} (aj : ArduinoJson) (cbs : Nat → Callbacks σ)
    (autoMount : Bool) (s : Sketch σ α π) : Sketch σ α π :=
  let r := Edge.autoMountBegin autoMount s
  if r.1 then
    Edge.autoMountEnd autoMount
      (Sketch.callAll (fun _ => Method.save)
        (fun driver w => (EdgeDriverBase.save aj (cbs driver) none w).2)
        r.2.edge._drivers r.2)
  else r.2

/-- The common shape of `EdgeUnified::restore` and `EdgeUnified::save`: the mount, the loop
over the drivers, the unmount. -/
def Edge.batch {σ α π : Type} (m : Nat → Method) (f : Nat → World σ → World σ)
    (autoMount : Bool) (s : Sketch σ α π) : Sketch σ α π :=
  let r := Edge.autoMountBegin autoMount s
  if r.1 then Edge.autoMountEnd autoMount (Sketch.callAll m f r.2.edge._drivers r.2)
  else r.2

/-- A sketch with the drivers at 0 and 1 registered, whose store is not mounted and cannot be
mounted. -/
def demoSketchNoMount : Sketch Nat String Nat :=
  { demoSketch2 with fs := { demoFS with mounted := false, beginOk := false } }

/-- A sketch with the drivers at 0 and 1 registered, whose store is not mounted and can be
mounted. -/
def demoSketchUnmounted : Sketch Nat String Nat :=
  { demoSketch2 with fs := { demoFS with mounted := false, beginOk := true } }

/-! ## The registry: pages, the pending queue and the host -/

/-- `ED_AUXJSONPROTOCOL_FILE` (EdgeUnified.h:75). -/
def ED_AUXJSONPROTOCOL_FILE : String := "file:"

/-- `tolower` of the C library in the "C" locale: the upper-case letters A to Z are mapped to
lower case, every other value is returned as it is. -/
def tolower (c : Int) : Int :=
  if 65 ≤ c ∧ c ≤ 90 then c + 32 else c

/-- The character a `const char*` into the source reads at an index: the characters of the
source, then the terminator 0; `none` for an index past the terminator, which is outside the
string. A character stands for its code; the characters of the protocol are ASCII, so a source
that matches it has one byte for each of its first five characters. -/
def charAt (json : String) (i : Nat) : Option Int :=
  match json.data.get? i with
  | some c => some (c.toNat : Int)
  | none => if i = json.data.length then some 0 else none

/-- The loop `while (!diff && *jsonProtocol) diff = tolower((int)*jsonIn++) -
(int)*jsonProtocol++;` (EdgeUnified.cpp:328-329): `proto` is what is left of the protocol,
`jsonIn` the index into the source. Returns `diff` and `jsonIn` after the loop, or `none` when
the loop reads outside the source. -/
def protocolScan (json : String) : List Char → Nat → Int → Option (Int × Nat)
  | [], jsonIn, diff => some (diff, jsonIn)
  | p :: proto, jsonIn, diff =>
    if diff ≠ 0 then some (diff, jsonIn)
    else
      match charAt json jsonIn with
      | none => none
      | some c => protocolScan json proto (jsonIn + 1) (tolower c - (p.toNat : Int))

/-- The name `join` opens on the file system for an in-memory source
(EdgeUnified.cpp:325-331): the source from `jsonIn` on when the scan ends with `diff` 0, and
`none` when the source is not a file reference. -/
def jsonFileName (json : String) : Option String :=
  match protocolScan json ED_AUXJSONPROTOCOL_FILE.data 0 0 with
  | some (diff, jsonIn) => if diff = 0 then some (String.mk (json.data.drop jsonIn)) else none
  | none => none

/-- `EdgeAux` (EdgeUnified.h:90-101): `json` is the in-memory source, `json_p` the source in
flash, `auxHandler` the request handler, identified by a number; an empty handler is `none`. -/
structure EdgeAux where
  json : Option String
  json_p : Option String
  auxHandler : Option Nat
  deriving DecidableEq, Repr

/-- Modelled from the spec: the page object `AutoConnectAux` of the AutoConnect library, which
is not part of the repository: the page loaded from a description (the UI Binding Descriptor
of the spec, section 3), with the uri the description gives it, the text it was loaded from
and the request handler registered with `on`. -/
structure AutoConnectAux where
  uri : String
  text : String
  handler : Option Nat
  deriving DecidableEq, Repr

/-- Modelled from the spec: the UI host `AutoConnect`, which is not part of the repository.
The spec (section 6) gives it `bind(descriptor)` and `replace-or-remove(identifier)`: the
pages joined to the host, in the order they were joined. -/
structure AutoConnect where
  pages : List AutoConnectAux
  deriving DecidableEq, Repr

/-- `AutoConnect::aux(uri)`: the page joined under the uri, if any. -/
def AutoConnect.aux (host : AutoConnect) (uri : String) : Option AutoConnectAux :=
  host.pages.find? (fun a => a.uri == uri)

/-- `AutoConnect::detach(uri)`: whether a page was joined under the uri, and the host without
it. -/
def AutoConnect.detach (host : AutoConnect) (uri : String) : Bool × AutoConnect :=
  (host.pages.any (fun a => a.uri == uri),
    { pages := host.pages.eraseP (fun a => a.uri == uri) })

/-- `AutoConnect::join(aux)`: the page is joined last. -/
def AutoConnect.join (host : AutoConnect) (aux : AutoConnectAux) : AutoConnect :=
  { pages := host.pages ++ [aux] }

/-- The state of a sketch with its user interface: the sketch with the registry, whose queue
holds pages and whose `_portal` is the address of a host; the hosts by address; and the number
of `AutoConnectAux` objects that `new` can still allocate. -/
structure Program (σ : Type) where
  sketch : Sketch σ AutoConnectAux Nat
  hosts : Nat → AutoConnect
  auxFree : Nat

/-- The text of a stored description. -/
def textOfBytes (content : Bytes) : String :=
  String.mk (content.map Char.ofNat)

/-- The input source `join` determines for a page (EdgeUnified.cpp:315-337, 343-348): `none`
where the loop continues with the next page, because the page has no source or its file
reference cannot be opened or is empty; otherwise the text that `load` receives: the content
of the file, the in-memory source, or the source in flash. -/
def Edge.jsonInput (fs : FS) (page : EdgeAux) : Option String :=
  if page.json.isNone && page.json_p.isNone then none
  else
    match page.json with
    | some json =>
      match jsonFileName json with
      | some name =>
        match fs.openRead name with
        | some content => if content.length = 0 then none else some (textOfBytes content)
        | none => none
      | none => some json
    | none => page.json_p

/-- One round of the loop of `EdgeUnified::join(const std::vector<EdgeAux>&)`
(EdgeUnified.cpp:314-377). `load` is `AutoConnectAux::load`: the uri of the page when the
description is well-formed, `none` when loading fails. -/
def Edge.joinPage {σ : Type} (load : String → Option String) (p : Program σ)
    (page : EdgeAux) : Program σ :=
  match Edge.jsonInput p.sketch.fs page with
  | none => p
  | some text =>
    match p.auxFree with
    | 0 => p
    | n + 1 =>
      match load text with
      | some uri =>
        match page.auxHandler with
        | some handler =>
          let aux : AutoConnectAux := { uri := uri, text := text, handler := some handler }
          match p.sketch.edge._portal with
          | some portal =>
            match (p.hosts portal).aux uri with
            | some hasLoaded =>
              { p with
                hosts := fun a =>
                  if a = portal then ((p.hosts portal).detach hasLoaded.uri).2.join aux
                  else p.hosts a
                auxFree := n + 1 }
            | none =>
              { p with
                hosts := fun a => if a = portal then (p.hosts portal).join aux else p.hosts a
                auxFree := n }
          | none =>
            { p with
              sketch := { p.sketch with
                edge := { p.sketch.edge with _auxQueue := p.sketch.edge._auxQueue ++ [aux] } }
              auxFree := n }
        | none => { p with auxFree := n }
      | none => p

/-- `EdgeUnified::join(const std::vector<EdgeAux>&)` (EdgeUnified.cpp:313-378). -/
def Edge.join {σ : Type} (load : String → Option String) (pages : List EdgeAux)
    (p : Program σ) : Program σ :=
  pages.foldl (Edge.joinPage load) p

/-- `EdgeUnified::join(PGM_P, AuxHandlerFunctionT)` (EdgeUnified.cpp:286-289). -/
def Edge.join_json {σ : Type} (load : String → Option String) (json : Option String)
    (auxHandler : Option Nat) (p : Program σ) : Program σ :=
  Edge.join load [{ json := json, json_p := none, auxHandler := auxHandler }] p

/-- `EdgeUnified::join(const __FlashStringHelper*, AuxHandlerFunctionT)`
(EdgeUnified.cpp:301-304). -/
def Edge.join_flash {σ : Type} (load : String → Option String) (json : Option String)
    (auxHandler : Option Nat) (p : Program σ) : Program σ :=
  Edge.join load [{ json := none, json_p := json, auxHandler := auxHandler }] p

/-- `EdgeUnified::portal` (EdgeUnified.cpp:407-416); `portal` is the address of the host. -/
def Edge.portal {σ : Type} (portal : Nat) (p : Program σ) : Program σ :=
  let p1 : Program σ :=
    if p.sketch.edge._portal.isNone then
      { p with sketch := { p.sketch with edge := { p.sketch.edge with _portal := some portal } } }
    else p
  if p1.sketch.edge._auxQueue.length ≠ 0 then
    match p1.sketch.edge._portal with
    | some host =>
      { p1 with
        hosts := fun a =>
          if a = host then p1.sketch.edge._auxQueue.foldl AutoConnect.join (p1.hosts host)
          else p1.hosts a
        sketch := { p1.sketch with edge := { p1.sketch.edge with _auxQueue := [] } } }
    | none => p1
  else p1

/-- `EdgeUnified::process(AutoConnect&)` (EdgeUnified.cpp:427-431). -/
def Edge.process_portal {σ : Type} (cbs : Nat → Callbacks σ) (now : Nat) (portal : Nat)
    (p : Program σ) : Program σ :=
  let p1 := Edge.portal portal p
  { p1 with sketch := Edge.process cbs now p1.sketch }

/-- `EdgeUnified::release` (EdgeUnified.cpp:449-455). -/
def Edge.release {σ : Type} (uri : String) (p : Program σ) : Bool × Program σ :=
  match p.sketch.edge._portal with
  | none => (false, p)
  | some portal =>
    (((p.hosts portal).detach uri).1,
      { p with
        hosts := fun a => if a = portal then ((p.hosts portal).detach uri).2 else p.hosts a })

/-- Page loader used to instantiate the theorems: a description is well-formed when it
starts with a brace, and its uri is the text after the brace. -/
def demoLoad (text : String) : Option String :=
  match text.data with
  | '\x7b' :: rest => some (String.mk rest)
  | _ => none

/-- A program with no driver registered, no host bound, two hosts without pages at the
addresses 1 and 2, and room for eight pages. -/
def demoProgram : Program Nat :=
  { sketch :=
      { heap := fun _ => ctor "T" 0, fs := demoFS, trace := [],
        edge := { _drivers := [], _auxQueue := [], _portal := none } },
    hosts := fun _ => { pages := [] }, auxFree := 8 }

/-- The pages joined to `demoProgram` before a host is bound: one in-memory source and one
source in flash, both well-formed and each with a handler. -/
def demoPages : List EdgeAux :=
  [{ json := some "\x7b/a", json_p := none, auxHandler := some 1 },
   { json := none, json_p := some "\x7b/b", auxHandler := some 2 }]

/-- A well-formed page without a handler. -/
def demoPageNoHandler : EdgeAux :=
  { json := some "\x7b/c", json_p := none, auxHandler := none }

/-! ## The registry: sequences of calls -/

/-- A call of a public member function of the registry (EdgeUnified.h:249-263), with its
arguments and, where the function reads the clock, the value `millis()` returns. The two
`join` overloads for one page are `join` of a list of one page; `server` only reads the
host. -/
inductive Op where
  | abort (error : Int)
  | attach (driver : Nat) (interval : Int) (now : Nat)
  | attach_many (drivers : List Nat) (now : Nat)
  | detach (driver : Nat)
  | end_
  | join (pages : List EdgeAux)
  | portal (portal : Nat)
  | process_portal (portal : Nat) (now : Nat)
  | process (now : Nat)
  | release (uri : String)
  | restore (autoMount : Bool)
  | save (autoMount : Bool)
  | server

/-- The program after a call of a member function of the registry. -/
def Edge.step {σ : Type} (aj : ArduinoJson) (load : String → Option String)
    (cbs : Nat → Callbacks σ) (p : Program σ) : Op → Program σ
  | Op.abort error => { p with sketch := Edge.abort cbs error p.sketch }
  | Op.attach driver interval now =>
    { p with sketch := Edge.attach aj cbs now driver interval p.sketch }
  | Op.attach_many drivers now =>
    { p with sketch := Edge.attach_many aj cbs now drivers p.sketch }
  | Op.detach driver => { p with sketch := Edge.detach driver p.sketch }
  | Op.end_ => { p with sketch := Edge.end_ aj cbs p.sketch }
  | Op.join pages => Edge.join load pages p
  | Op.portal portal => Edge.portal portal p
  | Op.process_portal portal now => Edge.process_portal cbs now portal p
  | Op.process now => { p with sketch := Edge.process cbs now p.sketch }
  | Op.release uri => (Edge.release uri p).2
  | Op.restore autoMount => { p with sketch := Edge.restore aj cbs autoMount p.sketch }
  | Op.save autoMount => { p with sketch := Edge.save aj cbs autoMount p.sketch }
  | Op.server => p

/-! ## Drivers built by `bind`: members that throw -/

/-- A value of type `EdgeDriverHandlerT`, that is `std::function<void(void)>`
(EdgeUnified.h:120), as a sketch passes it to the constructor or to `bind`: `none` when it is
empty, as `nullptr` is. A handler acts on the state of its own driver. -/
abbrev EdgeDriverHandlerT (σ : Type) := Option (EdgeDriverBase σ → EdgeDriverBase σ)

/-- What a member `_cbStart`, `_cbProcess` or `_cbEnd` holds (EdgeUnified.h:170-172 and
207-211): nothing, as initialised with `nullptr`, or the object `std::bind(handler)` that `bind`
stores. A member that holds `std::bind(handler)` is not empty, whatever the handler is; its
call calls the handler. -/
inductive Target (σ : Type) where
  | nullptr
  | bind (handler : EdgeDriverHandlerT σ)

/-- The members `_cbStart`, `_cbProcess` and `_cbEnd` of a driver (EdgeUnified.h:170-172). -/
structure Members (σ : Type) where
  _cbStart : Target σ
  _cbProcess : Target σ
  _cbEnd : Target σ

/-- How a call ends: it returns, or `std::bad_function_call` is thrown out of it (where
exceptions are disabled the program is aborted instead); in both cases with the state
reached. -/
inductive Outcome (β : Type) where
  | returned (state : β)
  | bad_function_call (state : β)

/-- The state a call ends with. -/
def Outcome.state {β : Type} : Outcome β → β
  | Outcome.returned state => state
  | Outcome.bad_function_call state => state

/-- The call ended by `std::bad_function_call`. -/
def Outcome.throws {β : Type} : Outcome β → Bool
  | Outcome.returned _ => false
  | Outcome.bad_function_call _ => true

/-- The test `if (_cb)` of a member: it is true for every member that is not empty. -/
def Target.isSet {σ : Type} : Target σ → Bool
  | Target.nullptr => false
  | Target.bind _ => true

/-- The call `_cb()` of a member, logged as `ev`: the object `std::bind(handler)` calls the
handler, and the call of an empty `std::function` throws `std::bad_function_call`. The call of
an empty member throws as well; the member functions test the member first. -/
def Target.call {σ : Type} (t : Target σ) (ev : Event) (w : World σ) : Outcome (World σ) :=
  match t with
  | Target.bind (some handler) =>
    Outcome.returned { w with drv := handler w.drv, log := w.log ++ [ev] }
  | Target.bind none => Outcome.bad_function_call w
  | Target.nullptr => Outcome.bad_function_call w

/-- The members of a driver built by the constructor `EdgeDriver()` (EdgeUnified.h:199), on
which `bind` was not called. -/
def EdgeDriver.unbound {σ : Type} : Members σ :=
  { _cbStart := Target.nullptr, _cbProcess := Target.nullptr, _cbEnd := Target.nullptr }

/-- `EdgeDriver<T>::bind` (EdgeUnified.h:207-211), which the constructor
`EdgeDriver(start, process, end)` calls (EdgeUnified.h:200-203). -/
def EdgeDriver.bind {σ : Type} (start process end_ : EdgeDriverHandlerT σ) : Members σ :=
  { _cbStart := Target.bind start, _cbProcess := Target.bind process,
    _cbEnd := Target.bind end_ }

/-- `EdgeDriverBase::start` (EdgeUnified.cpp:90-101) on a driver with the members `m`; `c`
gives what `bind` does not set: the error callback, the serializer and deserializer and the
layout of the EdgeData. -/
def EdgeDriver.start {σ : Type} (aj : ArduinoJson) (c : Callbacks σ) (m : Members σ)
    (now : Nat) (interval : Int) (w : World σ) : Outcome (World σ) :=
  let w0 : World σ := { w with drv := w.drv.enable true }
  let w1 : World σ := if w0.drv.isAutoRestore then (restore aj c none w0).2 else w0
  let w2 : World σ :=
    if interval ≥ 0 then
      { w1 with drv := w1.drv.setEdgeInterval now (interval % (ULONG_MOD : Int)).toNat }
    else w1
  if m._cbStart.isSet then m._cbStart.call Event.cbStart w2
  else Outcome.returned w2

/-- `EdgeDriverBase::process` (EdgeUnified.cpp:78-81) on a driver with the members `m`. -/
def EdgeDriver.process {σ : Type} (m : Members σ) (now : Nat) (w : World σ) :
    Outcome (World σ) :=
  if w.drv._enable then
    if m._cbProcess.isSet then
      let r := w.drv._elapse now
      if r.1 then m._cbProcess.call Event.cbProcess { w with drv := r.2 }
      else Outcome.returned { w with drv := r.2 }
    else Outcome.returned w
  else Outcome.returned w

/-- `EdgeDriverBase::end` (EdgeUnified.cpp:49-56) on a driver with the members `m`: an
exception thrown by the end callback leaves the function before `save` and before the driver
is disabled. -/
def EdgeDriver.end_ {σ : Type} (aj : ArduinoJson) (c : Callbacks σ) (m : Members σ)
    (w : World σ) : Outcome (World σ) :=
  let r : Outcome (World σ) :=
    if m._cbEnd.isSet then m._cbEnd.call Event.cbEnd w else Outcome.returned w
  match r with
  | Outcome.returned w1 =>
    let w2 : World σ := if w1.drv.isAutoSave then (save aj c none w1).2 else w1
    Outcome.returned { w2 with drv := w2.drv.enable false }
  | Outcome.bad_function_call w1 => Outcome.bad_function_call w1

/-- The call `driver.m()` of a member function that can be left by an exception: what the
call did up to there is kept. -/
def Sketch.callThrowing {σ α π : Type} (s : Sketch σ α π) (driver : Nat) (m : Method)
    (f : World σ → Outcome (World σ)) : Outcome (Sketch σ α π) :=
  let r := f { drv := s.heap driver, fs := s.fs, log := [] }
  let s1 : Sketch σ α π :=
    { s with
      heap := fun a => if a = driver then r.state.drv else s.heap a
      fs := r.state.fs
      trace := s.trace ++ Entry.call driver m :: r.state.log.map (Entry.event driver) }
  match r with
  | Outcome.returned _ => Outcome.returned s1
  | Outcome.bad_function_call _ => Outcome.bad_function_call s1

/-- The loop `for (EdgeDriverBase& driver : drivers) driver.m();` when `m` can be left by an
exception: the exception leaves the loop, and the drivers behind are not called. -/
def Sketch.callAllThrowing {σ α π : Type} (m : Nat → Method)
    (f : Nat → World σ → Outcome (World σ)) : List Nat → Sketch σ α π → Outcome (Sketch σ α π)
  | [], s => Outcome.returned s
  | driver :: drivers, s =>
    match s.callThrowing driver (m driver) (f driver) with
    | Outcome.returned s1 => Sketch.callAllThrowing m f drivers s1
    | Outcome.bad_function_call s1 => Outcome.bad_function_call s1

/-- `EdgeUnified::end` (EdgeUnified.cpp:397-400) on drivers with the members `ms`. -/
def Edge.end_bound {σ α π : Type} (aj : ArduinoJson) (cbs : Nat → Callbacks σ)
    (ms : Nat → Members σ) (s : Sketch σ α π) : Outcome (Sketch σ α π) :=
  Sketch.callAllThrowing (fun _ => Method.end_)
    (fun driver => EdgeDriver.end_ aj (cbs driver) (ms driver)) s.edge._drivers s

/-- `EdgeUnified::process(void)` (EdgeUnified.cpp:437-441) on drivers with the members `ms`;
every `millis()` read during the loop returns `now`. -/
def Edge.process_bound {σ α π : Type} (ms : Nat → Members σ) (now : Nat)
    (s : Sketch σ α π) : Outcome (Sketch σ α π) :=
  Sketch.callAllThrowing (fun _ => Method.process)
    (fun driver => EdgeDriver.process (ms driver) now) s.edge._drivers s

/-- The members that stand for the function objects of `c`: an empty one is `nullptr`, one
that calls `f` is `std::bind` of the handler `f`. -/
def Members.ofCallbacks {σ : Type} (c : Callbacks σ) : Members σ :=
  { _cbStart := match c._cbStart with
      | some f => Target.bind (some f)
      | none => Target.nullptr
    _cbProcess := match c._cbProcess with
      | some f => Target.bind (some f)
      | none => Target.nullptr
    _cbEnd := match c._cbEnd with
      | some f => Target.bind (some f)
      | none => Target.nullptr }

/-- The members after `bind(nullptr, process, end)` with the process and end handlers of
`demoCallbacks`: no start handler. -/
def demoMembersNoStart : Members Nat :=
  EdgeDriver.bind none demoCallbacks._cbProcess demoCallbacks._cbEnd

/-- The members after `bind(start, nullptr, end)` with the start and end handlers of
`demoCallbacks`: no process handler. -/
def demoMembersNoProcess : Members Nat :=
  EdgeDriver.bind demoCallbacks._cbStart none demoCallbacks._cbEnd

/-- The members after `bind(start, process, nullptr)` with the start and process handlers of
`demoCallbacks`: no end handler. -/
def demoMembersNoEnd : Members Nat :=
  EdgeDriver.bind demoCallbacks._cbStart demoCallbacks._cbProcess none

/-- The members after `bind(start, process, end)` with the three handlers of
`demoCallbacks`. -/
def demoMembersAll : Members Nat :=
  EdgeDriver.bind demoCallbacks._cbStart demoCallbacks._cbProcess demoCallbacks._cbEnd

/-! ## Sketches with bound drivers, used to instantiate the theorems -/

/-- A sketch with the drivers at 0 and 1 registered, both as constructed: enabled, interval 0,
last tick 0. -/
def demoSketchPair : Sketch Nat String Nat :=
  { demoSketch with edge := { demoSketch.edge with _drivers := [0, 1] } }

/-- The members of the drivers of `demoSketchPair` when the driver at 0 was built without a
process handler. -/
def demoPairNoProcess : Nat → Members Nat :=
  fun a => if a = 0 then demoMembersNoProcess else demoMembersAll

/-- The members of the drivers of `demoSketchPair` when the driver at 0 was built without an
end handler. -/
def demoPairNoEnd : Nat → Members Nat :=
  fun a => if a = 0 then demoMembersNoEnd else demoMembersAll

/-- A sketch with the driver of the interval scenario registered at 0: enabled, interval 500,
last tick 0. -/
def demoSketch500 : Sketch Nat String Nat :=
  { demoSketch with
    heap := fun _ => demoWorld500.drv
    edge := { demoSketch.edge with _drivers := [0] } }

/-! ## A store with page descriptions, used to instantiate the theorems -/

/-- A mounted store with the page description "/page.json", whose text is a brace followed by
"/f", and the empty file "/empty.json". -/
def demoPageFS : FS :=
  { mounted := true, beginOk := true,
    files := [("/page.json", [123, 47, 102]), ("/empty.json", [])], locked := [] }

/-- The program `demoProgram` on the store `demoPageFS`. -/
def demoPageProgram : Program Nat :=
  { demoProgram with sketch := { demoProgram.sketch with fs := demoPageFS } }

/-! ## The registry: start callbacks in the trace -/

/-- Bytes a member takes in the document of the stand-in with a fixed capacity: one slot of 16
bytes, the copy of the key and, for a string, the copy of the value, each copy with its
terminator. -/
def demoMemberSize (e : String × JsonVariant) : Nat :=
  16 + (e.1.length + 1) +
    (match e.2 with
      | JsonVariant.str s => s.length + 1
      | _ => 0)

/-- The members a buffer of the given capacity holds when they are added one after the other:
a member that does not fit in what is left is not stored. -/
def demoFit : Nat → JsonObject → JsonObject
  | _, [] => []
  | capacity, e :: rest =>
    if demoMemberSize e ≤ capacity then e :: demoFit (capacity - demoMemberSize e) rest
    else demoFit capacity rest

/-- ArduinoJson stand-in with the encoding of `demoCodec` and a document of fixed capacity, as
`DynamicJsonDocument doc(_jsonBufferSize)` is: the text written holds the members that fit in
the buffer, and decoding fails, leaving the members that fit, when the document does not fit
in the buffer. -/
def demoCodecBounded : ArduinoJson :=
  { deserializeJson := fun capacity input =>
      match demoCodec.deserializeJson capacity input with
      | (false, j) => if (j.map demoMemberSize).sum ≤ capacity then (false, j)
        else (true, demoFit capacity j)
      | (true, j) => (true, j)
    memoryUsage := fun j => (j.map demoMemberSize).sum
    serializeJson := fun capacity j => demoEncode (demoFit capacity j) }

/-- A world with the MQTT driver, its JSON buffer of `ED_SERIALIZE_BUFFER_SIZE` bytes, the
settings of `demoMqttData` with the server name "mqtt3.thingspeak.com", and an empty mounted
store. -/
def demoMqttLong : World MQTT_t :=
  { demoMqttWorld with
    drv := { demoMqttWorld.drv with
      data := { demoMqttData with server := "mqtt3.thingspeak.com" } } }

/-! ## Theorems: the periodic gate of `process` -/

/-- When `_elapse` returns false it leaves the driver as it is. -/
theorem elapse_snd_of_not_due {σ : Type} (now : Nat) (d : EdgeDriverBase σ)
    (h : (d._elapse now).1 = false) : (d._elapse now).2 = d := by
  unfold _elapse at h ⊢
  split
  · rename_i hgt; simp [hgt] at h
  · rfl

/-- `_elapse` returns true exactly when the elapsed time modulo 2^32 exceeds the interval. -/
theorem elapse_fst_iff {σ : Type} (now : Nat) (d : EdgeDriverBase σ) :
    (d._elapse now).1 = true ↔ (now + ULONG_MOD - d._tm) % ULONG_MOD > d._interval := by
  unfold _elapse
  split <;> simp_all

/-- When `_elapse` returns true it has set the last tick to `now`. -/
theorem elapse_snd_of_due {σ : Type} (now : Nat) (d : EdgeDriverBase σ)
    (h : (d._elapse now).1 = true) : (d._elapse now).2 = { d with _tm := now } := by
  unfold _elapse at h ⊢
  split
  · rfl
  · rename_i hgt; simp [hgt] at h

/-- When the driver is enabled, has a process callback and is due, `process` calls the callback
on the state whose last tick is `now`, and logs the call. -/
theorem process_fires {σ : Type} (c : Callbacks σ) (cb : EdgeDriverBase σ → EdgeDriverBase σ)
    (now : Nat) (w : World σ) (hen : w.drv._enable = true) (hcb : c._cbProcess = some cb)
    (hdue : (now + ULONG_MOD - w.drv._tm) % ULONG_MOD > w.drv._interval) :
    process c now w =
      { w with drv := cb { w.drv with _tm := now }, log := w.log ++ [Event.cbProcess] } := by
  have h1 : (w.drv._elapse now).1 = true := (elapse_fst_iff now w.drv).2 hdue
  simp [process, hen, hcb, h1, elapse_snd_of_due now w.drv h1]

/-- When the driver is disabled, has no process callback or is not due, `process` changes
nothing. -/
theorem process_noop {σ : Type} (c : Callbacks σ) (now : Nat) (w : World σ)
    (h : w.drv._enable = false ∨ c._cbProcess = none ∨
      (now + ULONG_MOD - w.drv._tm) % ULONG_MOD ≤ w.drv._interval) :
    process c now w = w := by
  unfold process
  split
  · split
    · have h1 : (w.drv._elapse now).1 = false := by
        rcases h with h | h | h
        · simp_all
        · simp_all
        · by_contra hne
          have : (w.drv._elapse now).1 = true := by simpa using hne
          have := (elapse_fst_iff now w.drv).1 this
          omega
      simp [h1, elapse_snd_of_not_due now w.drv h1]
    · rfl
  · rfl

/-- C1 (code evaluated at the failing input): a driver with interval 500 and last tick 0,
enabled and with a process callback. At clock value 499 `process` does not call the callback; at
clock value 500, where the elapsed time equals the interval, it does not call it either and
the last tick stays 0; the first clock value at which the callback is called is 501, and then the
last tick becomes 501. `_elapse` compares with `>`. -/
theorem C1_process_interval_500_not_fired_at_500 :
    demoWorld500.drv._enable = true ∧ demoWorld500.drv._interval = 500 ∧
    demoWorld500.drv._tm = 0 ∧ demoCallbacks._cbProcess.isSome = true ∧
    (process demoCallbacks 499 demoWorld500).log = [] ∧
    (process demoCallbacks 500 demoWorld500).log = [] ∧
    (process demoCallbacks 500 demoWorld500).drv._tm = 0 ∧
    (process demoCallbacks 500 demoWorld500).drv.data = 0 ∧
    (process demoCallbacks 501 demoWorld500).log = [Event.cbProcess] ∧
    (process demoCallbacks 501 demoWorld500).drv._tm = 501 ∧
    (process demoCallbacks 501 demoWorld500).drv.data = 1 := by
  decide

/-- C2 (code evaluated at the failing input): an enabled driver with a process callback whose
interval was cleared at clock value 1000. `process` at clock value 1000 does not call the
callback, and of two `process` calls at clock value 1001 only the first calls it. -/
theorem C2_interval_zero_is_gated :
    (clearEdgeInterval 1000 demoWorld.drv)._enable = true ∧
    (clearEdgeInterval 1000 demoWorld.drv)._interval = 0 ∧
    (process demoCallbacks 1000
      { demoWorld with drv := clearEdgeInterval 1000 demoWorld.drv }).log = [] ∧
    (process demoCallbacks 1001
      { demoWorld with drv := clearEdgeInterval 1000 demoWorld.drv }).log = [Event.cbProcess] ∧
    (process demoCallbacks 1001 (process demoCallbacks 1001
      { demoWorld with drv := clearEdgeInterval 1000 demoWorld.drv })).log = [Event.cbProcess] ∧
    (process demoCallbacks 1001 (process demoCallbacks 1001
      { demoWorld with drv := clearEdgeInterval 1000 demoWorld.drv })).drv.data = 1 := by
  decide

/-- C3: the elapsed time `_elapse` compares with the interval is the difference
`now - last_tick` modulo 2^32. After the clock has wrapped (`now < last_tick`), an enabled driver
with a process callback is left untouched by `process` while `now - last_tick + 2^32` is less
than the interval, and has its callback called, with the last tick set to `now`, when
`now - last_tick + 2^32` is greater than the interval. -/
theorem C3_process_wraparound {σ : Type} (c : Callbacks σ)
    (cb : EdgeDriverBase σ → EdgeDriverBase σ) (now : Nat) (w : World σ)
    (hen : w.drv._enable = true) (hcb : c._cbProcess = some cb)
    (htm : w.drv._tm < ULONG_MOD) (hwrap : now < w.drv._tm) :
    ((w.drv._elapse now).1 = true ↔
      ((now : Int) - (w.drv._tm : Int)) % (2 : Int) ^ 32 > (w.drv._interval : Int)) ∧
    ((now : Int) - (w.drv._tm : Int) + 2 ^ 32 < (w.drv._interval : Int) →
      process c now w = w) ∧
    ((now : Int) - (w.drv._tm : Int) + 2 ^ 32 > (w.drv._interval : Int) →
      process c now w =
        { w with drv := cb { w.drv with _tm := now }, log := w.log ++ [Event.cbProcess] }) := by
  have hM : ULONG_MOD = 4294967296 := by norm_num [ULONG_MOD]
  have hel : (now + ULONG_MOD - w.drv._tm) % ULONG_MOD = now + ULONG_MOD - w.drv._tm := by
    apply Nat.mod_eq_of_lt
    omega
  refine ⟨?_, ?_, ?_⟩
  · rw [elapse_fst_iff, hel, hM]
    have : ((now : Int) - (w.drv._tm : Int)) % (2 : Int) ^ 32
        = (now : Int) - (w.drv._tm : Int) + 4294967296 := by
      norm_num
      omega
    rw [this]
    omega
  · intro h
    apply process_noop
    right; right
    rw [hel, hM]
    omega
  · intro h
    apply process_fires c cb now w hen hcb
    rw [hel, hM]
    omega

/-- C3 instance: last tick 2^32 - 100, interval 100, clock value 50 after the wrap (elapsed
150): the callback is called and the last tick becomes 50. -/
theorem C3_process_wraparound_witness :
    ((50 : Int) - (demoWorldWrap.drv._tm : Int) + 2 ^ 32 > (demoWorldWrap.drv._interval : Int)) ∧
    (process demoCallbacks 50 demoWorldWrap).log = [Event.cbProcess] ∧
    (process demoCallbacks 50 demoWorldWrap).drv._tm = 50 := by
  have hgt : ((50 : Nat) : Int) - (demoWorldWrap.drv._tm : Int) + 2 ^ 32
      > (demoWorldWrap.drv._interval : Int) := by decide
  have h := (C3_process_wraparound demoCallbacks (fun d => { d with data := d.data + 1 }) 50
    demoWorldWrap rfl rfl (by decide) (by decide)).2.2 hgt
  refine ⟨hgt, ?_, ?_⟩
  · rw [h]; rfl
  · rw [h]

/-- `restore` logs its entry and then only transfer events. -/
theorem restore_log {σ : Type} (aj : ArduinoJson) (c : Callbacks σ) (k : Option String)
    (w : World σ) :
    ∃ evs, (restore aj c k w).2.log = w.log ++ Event.restore k :: evs ∧
      ∀ ev ∈ evs, ev.isTransfer = true := by
  cases hopen : w.fs.openRead (restoreFileName c w.drv k) with
  | none =>
    exact ⟨[Event.openFile (restoreFileName c w.drv k) "r" false], by simp [restore, hopen],
      by simp [Event.isTransfer]⟩
  | some inFile =>
    cases hde : c._deserializer with
    | none =>
      exact ⟨[Event.openFile (restoreFileName c w.drv k) "r" true, Event.dataReader],
        by simp [restore, hopen, hde], by simp [Event.isTransfer]⟩
    | some de =>
      by_cases herr : (aj.deserializeJson w.drv._jsonBufferSize inFile).1 = true
      · exact ⟨[Event.openFile (restoreFileName c w.drv k) "r" true],
          by simp [restore, hopen, hde, herr], by simp [Event.isTransfer]⟩
      · exact ⟨[Event.openFile (restoreFileName c w.drv k) "r" true, Event.deserializer],
          by simp [restore, hopen, hde, herr], by simp [Event.isTransfer]⟩

/-- `restore` leaves the store as it is. -/
theorem restore_fs {σ : Type} (aj : ArduinoJson) (c : Callbacks σ) (k : Option String)
    (w : World σ) : (restore aj c k w).2.fs = w.fs := by
  cases hopen : w.fs.openRead (restoreFileName c w.drv k) with
  | none => simp [restore, hopen]
  | some inFile =>
    cases hde : c._deserializer with
    | none => simp [restore, hopen, hde]
    | some de =>
      by_cases herr : (aj.deserializeJson w.drv._jsonBufferSize inFile).1 = true <;>
        simp [restore, hopen, hde, herr]

/-- `restore` keeps the scheduling state when the deserializer does. -/
theorem restore_sched {σ : Type} (aj : ArduinoJson) (c : Callbacks σ) (k : Option String)
    (w : World σ)
    (hde : ∀ de, c._deserializer = some de → ∀ j d, (de j d).sched = d.sched) :
    (restore aj c k w).2.drv.sched = w.drv.sched := by
  cases hopen : w.fs.openRead (restoreFileName c w.drv k) with
  | none => simp [restore, hopen]
  | some inFile =>
    cases hd : c._deserializer with
    | none => simp [restore, hopen, hd, _dataReader, sched]
    | some de =>
      by_cases herr : (aj.deserializeJson w.drv._jsonBufferSize inFile).1 = true
      · simp [restore, hopen, hd, herr]
      · simp [restore, hopen, hd, herr, hde de hd]

/-- `save` logs its entry and then only transfer events. -/
theorem save_log {σ : Type} (aj : ArduinoJson) (c : Callbacks σ) (k : Option String)
    (w : World σ) :
    ∃ evs, (save aj c k w).2.log = w.log ++ Event.save k :: evs ∧
      ∀ ev ∈ evs, ev.isTransfer = true := by
  by_cases hopen : w.fs.canOpenWrite (saveFileName c w.drv k) = true
  · cases hs : c._serializer with
    | none =>
      exact ⟨[Event.openFile (saveFileName c w.drv k) "w" true, Event.dataWritter],
        by simp [save, hopen, hs], by simp [Event.isTransfer]⟩
    | some ser =>
      exact ⟨[Event.openFile (saveFileName c w.drv k) "w" true, Event.serializer],
        by simp [save, hopen, hs], by simp [Event.isTransfer]⟩
  · exact ⟨[Event.openFile (saveFileName c w.drv k) "w" false], by simp [save, hopen],
      by simp [Event.isTransfer]⟩

/-- `save` does not change the driver. -/
theorem save_drv {σ : Type} (aj : ArduinoJson) (c : Callbacks σ) (k : Option String)
    (w : World σ) : (save aj c k w).2.drv = w.drv := by
  by_cases hopen : w.fs.canOpenWrite (saveFileName c w.drv k) = true
  · cases hs : c._serializer <;> simp [save, hopen, hs]
  · simp [save, hopen]

/-- Transfer events are not entries into `restore`. -/
theorem filter_isRestore_of_transfer (evs : List Event)
    (h : ∀ ev ∈ evs, ev.isTransfer = true) : evs.filter Event.isRestore = [] := by
  rw [List.filter_eq_nil_iff]
  intro ev hev
  have := h ev hev
  cases ev <;> simp_all [Event.isTransfer, Event.isRestore]

/-- Transfer events are not entries into `save`. -/
theorem filter_isSave_of_transfer (evs : List Event)
    (h : ∀ ev ∈ evs, ev.isTransfer = true) : evs.filter Event.isSave = [] := by
  rw [List.filter_eq_nil_iff]
  intro ev hev
  have := h ev hev
  cases ev <;> simp_all [Event.isTransfer, Event.isSave]

/-- An event that is not a transfer does not occur among transfer events. -/
theorem count_of_transfer (evs : List Event) (e : Event) (he : e.isTransfer = false)
    (h : ∀ ev ∈ evs, ev.isTransfer = true) : evs.count e = 0 := by
  rw [List.count_eq_zero]
  intro hmem
  have := h e hmem
  simp [he] at this

/-! ## Theorems: `start`, `end` and `error` -/

/-- C5: after `start(i)`, with a start callback and a deserializer that do not touch the
scheduling state and `i` a `long`, the driver is enabled; if `i >= 0` the interval is `i` and the
last tick is the clock value `now`; if `i < 0` the interval and the last tick are what they were
before the call. -/
theorem C5_start_scheduling {σ : Type} (aj : ArduinoJson) (c : Callbacks σ) (now : Nat)
    (i : Int) (w : World σ) (hi : i ≤ LONG_MAX)
    (hstart : ∀ cb, c._cbStart = some cb → ∀ d, (cb d).sched = d.sched)
    (hde : ∀ de, c._deserializer = some de → ∀ j d, (de j d).sched = d.sched) :
    (start aj c now i w).drv._enable = true ∧
    (0 ≤ i → ((start aj c now i w).drv._interval : Int) = i ∧
      (start aj c now i w).drv._tm = now) ∧
    (i < 0 → (start aj c now i w).drv._interval = w.drv._interval ∧
      (start aj c now i w).drv._tm = w.drv._tm) := by
  -- the world after `_enable = true` and the optional `restore()`
  have h1 : ∀ w1 : World σ,
      w1 = (if (w.drv.enable true).isAutoRestore then
        (restore aj c none { w with drv := w.drv.enable true }).2
        else { w with drv := w.drv.enable true }) →
      w1.drv.sched = (w.drv.enable true).sched := by
    intro w1 hw1
    subst hw1
    split
    · exact restore_sched aj c none _ hde
    · rfl
  -- the start callback keeps the scheduling state
  have h2 : ∀ w2 : World σ,
      (match c._cbStart with
        | some cb => ({ w2 with drv := cb w2.drv, log := w2.log ++ [Event.cbStart] } : World σ)
        | none => w2).drv.sched = w2.drv.sched := by
    intro w2
    cases hcb : c._cbStart with
    | none => rfl
    | some cb => exact hstart cb hcb w2.drv
  have hconv : 0 ≤ i → ((i % (ULONG_MOD : Int)).toNat : Int) = i := by
    intro h0
    have hM : (ULONG_MOD : Int) = 4294967296 := by norm_num [ULONG_MOD]
    have hL : LONG_MAX = 2147483647 := by norm_num [LONG_MAX]
    rw [hM]
    rw [hL] at hi
    rw [Int.toNat_of_nonneg (by omega)]
    omega
  have key := h1 _ rfl
  by_cases h0 : 0 ≤ i
  · have hs := h2 { (if (w.drv.enable true).isAutoRestore then
        (restore aj c none { w with drv := w.drv.enable true }).2
        else { w with drv := w.drv.enable true }) with
        drv := (if (w.drv.enable true).isAutoRestore then
          (restore aj c none { w with drv := w.drv.enable true }).2
          else { w with drv := w.drv.enable true }).drv.setEdgeInterval now
            (i % (ULONG_MOD : Int)).toNat }
    have hst : (start aj c now i w).drv.sched =
        ((if (w.drv.enable true).isAutoRestore then
          (restore aj c none { w with drv := w.drv.enable true }).2
          else { w with drv := w.drv.enable true }).drv.setEdgeInterval now
            (i % (ULONG_MOD : Int)).toNat).sched := by
      rw [← hs]
      simp only [start, ge_iff_le, h0, if_true]
    simp only [sched, setEdgeInterval, enable, Prod.mk.injEq] at hst key
    obtain ⟨e1, e2, e3, _⟩ := hst
    refine ⟨?_, ?_, ?_⟩
    · rw [e1]; exact key.1
    · intro _
      exact ⟨by rw [e2]; exact hconv h0, e3⟩
    · intro hneg; omega
  · have hs := h2 (if (w.drv.enable true).isAutoRestore then
        (restore aj c none { w with drv := w.drv.enable true }).2
        else { w with drv := w.drv.enable true })
    have hst : (start aj c now i w).drv.sched = (w.drv.enable true).sched := by
      rw [← key, ← hs]
      simp only [start, ge_iff_le, h0, if_false]
    simp only [sched, enable, Prod.mk.injEq] at hst
    obtain ⟨e1, e2, e3, _⟩ := hst
    refine ⟨e1, ?_, ?_⟩
    · intro h; exact absurd h h0
    · intro _; exact ⟨e2, e3⟩

/-- C5 instance: `start(250)` at clock value 42 on a driver with auto-restore set and a stored
document: the driver is enabled, its interval is 250 and its last tick 42. -/
theorem C5_start_scheduling_witness :
    (250 : Int) ≤ LONG_MAX ∧
    (start demoJson demoCallbacks 42 250 demoWorldRestore).drv._enable = true ∧
    ((start demoJson demoCallbacks 42 250 demoWorldRestore).drv._interval : Int) = 250 ∧
    (start demoJson demoCallbacks 42 250 demoWorldRestore).drv._tm = 42 :=
  have h := C5_start_scheduling demoJson demoCallbacks 42 250 demoWorldRestore (by decide)
    (by
      intro cb h d
      simp only [demoCallbacks, Option.some.injEq] at h
      subst h
      rfl)
    (by
      intro de h j d
      simp only [demoCallbacks, Option.some.injEq] at h
      subst h
      simp only []
      split <;> rfl)
  ⟨by decide, h.1, (h.2.1 (by decide)).1, (h.2.1 (by decide)).2⟩

/-- With function objects that are empty or call a handler, `start` enters `restore` with the
default key once if the auto-restore flag is set and not at all otherwise, and calls the start
callback once if it is bound and not at all otherwise. Everything `restore` does is logged
before the call of the start callback, and the state handed to the start callback holds the
EdgeData left by `restore`. -/
theorem start_restore_then_cbStart {σ : Type} (aj : ArduinoJson) (c : Callbacks σ)
    (now : Nat) (i : Int) (w : World σ) :
    ∃ pre, (start aj c now i w).log =
        w.log ++ pre ++ (if c._cbStart.isSome then [Event.cbStart] else []) ∧
      pre.count Event.cbStart = 0 ∧
      pre.filter Event.isRestore = (if w.drv.isAutoRestore then [Event.restore none] else []) ∧
      (w.drv.isAutoRestore = true →
        w.log ++ pre = (restore aj c none { w with drv := w.drv.enable true }).2.log) ∧
      (∀ cb, c._cbStart = some cb → ∃ d : EdgeDriverBase σ,
        (start aj c now i w).drv = cb d ∧
        d.data = (if w.drv.isAutoRestore then
          (restore aj c none { w with drv := w.drv.enable true }).2.drv.data else w.drv.data)) ∧
      (c._cbStart = none → (start aj c now i w).drv.data =
        (if w.drv.isAutoRestore then
          (restore aj c none { w with drv := w.drv.enable true }).2.drv.data else w.drv.data)) := by
  obtain ⟨er, her, htr⟩ := restore_log aj c none { w with drv := w.drv.enable true }
  have hflag : (w.drv.enable true).isAutoRestore = w.drv.isAutoRestore := rfl
  by_cases hr : w.drv.isAutoRestore = true
  · refine ⟨Event.restore none :: er, ?_, ?_, ?_, ?_, ?_, ?_⟩
    · cases hcb : c._cbStart <;> by_cases h0 : 0 ≤ i <;>
        simp [start, hcb, h0, hflag, hr, her]
    · rw [List.count_cons]
      simp [count_of_transfer er Event.cbStart rfl htr]
    · simp [hr, List.filter_cons, Event.isRestore, filter_isRestore_of_transfer er htr]
    · intro _; rw [her]
    · intro cb hcb
      by_cases h0 : 0 ≤ i
      · exact ⟨_, by simp only [start, hcb, ge_iff_le, h0, hflag, hr, if_true]; rfl,
          by simp [hr, setEdgeInterval]⟩
      · exact ⟨_, by simp only [start, hcb, ge_iff_le, h0, hflag, hr, if_true, if_false]; rfl,
          by simp [hr]⟩
    · intro hcb
      by_cases h0 : 0 ≤ i <;> simp [start, hcb, h0, hflag, hr, setEdgeInterval]
  · have hr' : w.drv.isAutoRestore = false := by simpa using hr
    refine ⟨[], ?_, ?_, ?_, ?_, ?_, ?_⟩
    · cases hcb : c._cbStart <;> by_cases h0 : 0 ≤ i <;>
        simp [start, hcb, h0, hflag, hr']
    · rfl
    · simp [hr']
    · intro h; exact absurd h hr
    · intro cb hcb
      by_cases h0 : 0 ≤ i
      · exact ⟨_, by simp only [start, hcb, ge_iff_le, h0, hflag, hr', if_true]; rfl,
          by simp [hr', setEdgeInterval, enable]⟩
      · exact ⟨_, by simp only [start, hcb, ge_iff_le, h0, hflag, hr', if_false]; rfl,
          by simp [hr', enable]⟩
    · intro hcb
      have hd : (w.drv.enable true).data = w.drv.data := rfl
      by_cases h0 : 0 ≤ i <;> simp [start, hcb, h0, hflag, hr', setEdgeInterval, hd]

/-- Instance: auto-restore set, a stored document holding 7, a start callback that adds 100. The
events of `restore` come first, the start callback is called last, on a state whose EdgeData is
the restored 7. -/
theorem start_restore_then_cbStart_demo :
    demoWorldRestore.drv.isAutoRestore = true ∧
    ∃ pre, (start demoJson demoCallbacks 42 (-1) demoWorldRestore).log =
        demoWorldRestore.log ++ pre ++ [Event.cbStart] ∧
      demoWorldRestore.log ++ pre =
        [Event.restore none, Event.openFile "/T.json" "r" true, Event.deserializer] ∧
      ∃ d : EdgeDriverBase Nat,
        (start demoJson demoCallbacks 42 (-1) demoWorldRestore).drv =
          { d with data := d.data + 100 } ∧ d.data = 7 := by
  obtain ⟨pre, h1, _, _, h4, h5, _⟩ :=
    start_restore_then_cbStart demoJson demoCallbacks 42 (-1) demoWorldRestore
  have hr : demoWorldRestore.drv.isAutoRestore = true := by decide
  refine ⟨hr, pre, h1, ?_, ?_⟩
  · rw [h4 hr]; decide
  · obtain ⟨d, hd1, hd2⟩ := h5 _ rfl
    refine ⟨d, hd1, ?_⟩
    rw [hd2, if_pos hr]
    decide

/-- The events of one `end` call, in terms of the auto-save flag after the end callback. -/
theorem end_events {σ : Type} (aj : ArduinoJson) (c : Callbacks σ) (w : World σ)
    (hEnd : ∀ cb, c._cbEnd = some cb → ∀ d, (cb d).sched = d.sched) :
    ∃ sv, (end_ aj c w).log =
        w.log ++ (if c._cbEnd.isSome then [Event.cbEnd] else []) ++ sv ∧
      sv.count Event.cbEnd = 0 ∧
      sv.filter Event.isSave = (if w.drv.isAutoSave then [Event.save none] else []) := by
  -- the world after the optional end callback
  have hw1 : ∃ w1 : World σ,
      (match c._cbEnd with
        | some cb => ({ w with drv := cb w.drv, log := w.log ++ [Event.cbEnd] } : World σ)
        | none => w) = w1 ∧
      w1.log = w.log ++ (if c._cbEnd.isSome then [Event.cbEnd] else []) ∧
      w1.drv.isAutoSave = w.drv.isAutoSave := by
    cases hcb : c._cbEnd with
    | none => exact ⟨w, rfl, by simp, rfl⟩
    | some cb =>
      refine ⟨_, rfl, by simp, ?_⟩
      have := hEnd cb hcb w.drv
      simp only [sched, Prod.mk.injEq] at this
      simp only [isAutoSave, this.2.2.2]
  obtain ⟨w1, e1, l1, f1⟩ := hw1
  obtain ⟨es, hes, hts⟩ := save_log aj c none w1
  by_cases hs : w.drv.isAutoSave = true
  · refine ⟨Event.save none :: es, ?_, ?_, ?_⟩
    · simp only [end_, e1, f1, hs, if_true, hes, l1, List.append_assoc]
    · rw [List.count_cons]
      simp [count_of_transfer es Event.cbEnd rfl hts]
    · simp [hs, List.filter_cons, Event.isSave, filter_isSave_of_transfer es hts]
  · have hs' : w.drv.isAutoSave = false := by simpa using hs
    refine ⟨[], ?_, rfl, by simp [hs']⟩
    simp [end_, e1, f1, hs', l1]

/-- The scheduling state after `end`: disabled, the rest as before. -/
theorem end_sched {σ : Type} (aj : ArduinoJson) (c : Callbacks σ) (w : World σ)
    (hEnd : ∀ cb, c._cbEnd = some cb → ∀ d, (cb d).sched = d.sched) :
    (end_ aj c w).drv.sched = (false, w.drv._interval, w.drv._tm, w.drv._persistance) := by
  have hw1 : ∃ w1 : World σ,
      (match c._cbEnd with
        | some cb => ({ w with drv := cb w.drv, log := w.log ++ [Event.cbEnd] } : World σ)
        | none => w) = w1 ∧ w1.drv.sched = w.drv.sched := by
    cases hcb : c._cbEnd with
    | none => exact ⟨w, rfl, rfl⟩
    | some cb => exact ⟨_, rfl, hEnd cb hcb w.drv⟩
  obtain ⟨w1, e1, s1⟩ := hw1
  simp only [sched, Prod.mk.injEq] at s1
  by_cases hs : w1.drv.isAutoSave = true
  · simp only [end_, e1, hs, if_true, enable, sched, save_drv, s1]
  · have hs' : w1.drv.isAutoSave = false := by simpa using hs
    simp [end_, e1, hs', enable, sched, s1]

/-- With function objects that are empty or call a handler and an end callback that does not
touch the scheduling state, `end` calls the end callback once if it is bound, then enters `save`
with the default key once if the auto-save flag is set and not at all otherwise, and leaves the
driver disabled with interval, last tick and persistence flags as before. A second `end` leaves
the same scheduling state as the first and logs events of the same shape again. -/
theorem end_idempotent {σ : Type} (aj : ArduinoJson) (c : Callbacks σ) (w : World σ)
    (hEnd : ∀ cb, c._cbEnd = some cb → ∀ d, (cb d).sched = d.sched) :
    (∃ sv, (end_ aj c w).log =
        w.log ++ (if c._cbEnd.isSome then [Event.cbEnd] else []) ++ sv ∧
      sv.count Event.cbEnd = 0 ∧
      sv.filter Event.isSave = (if w.drv.isAutoSave then [Event.save none] else [])) ∧
    (end_ aj c w).drv.sched = (false, w.drv._interval, w.drv._tm, w.drv._persistance) ∧
    (end_ aj c (end_ aj c w)).drv.sched = (end_ aj c w).drv.sched ∧
    (∃ sv, (end_ aj c (end_ aj c w)).log =
        (end_ aj c w).log ++ (if c._cbEnd.isSome then [Event.cbEnd] else []) ++ sv ∧
      sv.count Event.cbEnd = 0 ∧
      sv.filter Event.isSave = (if w.drv.isAutoSave then [Event.save none] else [])) := by
  have h1 := end_sched aj c w hEnd
  have h2 := end_sched aj c (end_ aj c w) hEnd
  have hp : (end_ aj c w).drv.isAutoSave = w.drv.isAutoSave := by
    simp only [sched, Prod.mk.injEq] at h1
    simp only [isAutoSave, h1.2.2.2]
  refine ⟨end_events aj c w hEnd, h1, ?_, ?_⟩
  · rw [h2, h1]
    simp only [sched, Prod.mk.injEq] at h1
    simp only [h1.2.1, h1.2.2.1, h1.2.2.2]
  · have := end_events aj c (end_ aj c w) hEnd
    rw [hp] at this
    exact this

/-- Instance: auto-save set and an end callback bound. Each `end` logs the end callback and then
the save; the driver is disabled after the first call and the second call keeps the scheduling
state. -/
theorem end_idempotent_demo :
    (end_ demoJson demoCallbacks demoWorldSave).log =
      [Event.cbEnd, Event.save none, Event.openFile "/T.json" "w" true, Event.serializer] ∧
    (end_ demoJson demoCallbacks demoWorldSave).drv.sched = (false, 0, 0, 16) ∧
    (end_ demoJson demoCallbacks (end_ demoJson demoCallbacks demoWorldSave)).drv.sched =
      (end_ demoJson demoCallbacks demoWorldSave).drv.sched :=
  have h := end_idempotent demoJson demoCallbacks demoWorldSave
    (by
      intro cb h d
      simp only [demoCallbacks, Option.some.injEq] at h
      subst h
      rfl)
  ⟨by decide, h.2.1, h.2.2.1⟩

/-- Masking with a single bit gives that bit. -/
theorem land_two_pow (x n : Nat) : x &&& 2 ^ n = if x.testBit n then 2 ^ n else 0 := by
  apply Nat.eq_of_testBit_eq
  intro i
  rw [Nat.testBit_and, Nat.testBit_two_pow]
  by_cases h : n = i
  · subst h
    by_cases hx : x.testBit n <;> simp [hx, Nat.testBit_two_pow_self]
  · by_cases hx : x.testBit n <;> simp [hx, h, Nat.testBit_two_pow]

/-- `isAutoSave` reads bit 4 of `_persistance`. -/
theorem isAutoSave_eq_testBit {σ : Type} (d : EdgeDriverBase σ) :
    d.isAutoSave = d._persistance.testBit 4 := by
  have h := land_two_pow d._persistance 4
  simp only [isAutoSave, ED_PERSISTENT_AUTOSAVE]
  rw [show (16 : Nat) = 2 ^ 4 by norm_num, h]
  by_cases hx : d._persistance.testBit 4 <;> simp [hx]

/-- `isAutoRestore` reads bit 0 of `_persistance`. -/
theorem isAutoRestore_eq_testBit {σ : Type} (d : EdgeDriverBase σ) :
    d.isAutoRestore = d._persistance.testBit 0 := by
  have h := land_two_pow d._persistance 0
  simp only [isAutoRestore, ED_PERSISTENT_AUTORESTORE]
  rw [show (1 : Nat) = 2 ^ 0 by norm_num, h]
  by_cases hx : d._persistance.testBit 0 <;> simp [hx]

/-- Bit `i` of the `uint8_t` value after `autoSave(onOff)`. -/
theorem autoSave_testBit {σ : Type} (onOff : Bool) (d : EdgeDriverBase σ) (i : Nat)
    (hi : i < 8) :
    (autoSave onOff d)._persistance.testBit i =
      if onOff then (d._persistance.testBit i || Nat.testBit 16 i)
      else (d._persistance.testBit i && Nat.testBit 31 i) := by
  have m1 : (0xf ^^^ ED_PERSISTENT_AUTOSAVE) = 31 := by decide
  cases onOff
  · simp only [autoSave, UINT8_MOD, m1, Nat.testBit_mod_two_pow, Nat.testBit_and, hi,
      decide_True, Bool.true_and, Bool.false_eq_true, if_false]
  · simp only [autoSave, UINT8_MOD, ED_PERSISTENT_AUTOSAVE, Nat.testBit_mod_two_pow,
      Nat.testBit_or, hi, decide_True, Bool.true_and, if_true]

/-- Bit `i` of the `uint8_t` value after `autoRestore(onOff)`. -/
theorem autoRestore_testBit {σ : Type} (onOff : Bool) (d : EdgeDriverBase σ) (i : Nat)
    (hi : i < 8) :
    (autoRestore onOff d)._persistance.testBit i =
      if onOff then (d._persistance.testBit i || Nat.testBit 1 i)
      else (d._persistance.testBit i && Nat.testBit 14 i) := by
  have m1 : (0xf ^^^ ED_PERSISTENT_AUTORESTORE) = 14 := by decide
  cases onOff
  · simp only [autoRestore, UINT8_MOD, m1, Nat.testBit_mod_two_pow, Nat.testBit_and, hi,
      decide_True, Bool.true_and, Bool.false_eq_true, if_false]
  · simp only [autoRestore, UINT8_MOD, ED_PERSISTENT_AUTORESTORE, Nat.testBit_mod_two_pow,
      Nat.testBit_or, hi, decide_True, Bool.true_and, if_true]

/-- The flags after `autoSave(onOff)`: switching on sets the auto-save flag, switching off
leaves it as it was; the auto-restore flag is kept. -/
theorem autoSave_flags {σ : Type} (onOff : Bool) (d : EdgeDriverBase σ) :
    (autoSave onOff d).isAutoSave = (onOff || d.isAutoSave) ∧
    (autoSave onOff d).isAutoRestore = d.isAutoRestore := by
  have t1 : Nat.testBit 31 4 = true := by decide
  have t2 : Nat.testBit 31 0 = true := by decide
  have t3 : Nat.testBit 16 4 = true := by decide
  have t4 : Nat.testBit 16 0 = false := by decide
  rw [isAutoSave_eq_testBit, isAutoRestore_eq_testBit, isAutoSave_eq_testBit,
    isAutoRestore_eq_testBit, autoSave_testBit onOff d 4 (by decide),
    autoSave_testBit onOff d 0 (by decide), t1, t2, t3, t4]
  cases onOff <;> simp

/-- The flags after `autoRestore(onOff)`: the auto-restore flag becomes `onOff`; switching on
keeps the auto-save flag, switching off clears it. -/
theorem autoRestore_flags {σ : Type} (onOff : Bool) (d : EdgeDriverBase σ) :
    (autoRestore onOff d).isAutoRestore = onOff ∧
    (autoRestore onOff d).isAutoSave = (onOff && d.isAutoSave) := by
  have t1 : Nat.testBit 14 4 = false := by decide
  have t2 : Nat.testBit 14 0 = false := by decide
  have t3 : Nat.testBit 1 4 = false := by decide
  have t4 : Nat.testBit 1 0 = true := by decide
  rw [isAutoSave_eq_testBit, isAutoRestore_eq_testBit, isAutoSave_eq_testBit,
    autoRestore_testBit onOff d 4 (by decide), autoRestore_testBit onOff d 0 (by decide),
    t1, t2, t3, t4]
  cases onOff <;> simp

/-- C9 (code evaluated at the failing input): for every driver state `autoSave(false)` leaves
the auto-save flag as it was, so after `autoSave(true)` followed by `autoSave(false)`
`isAutoSave()` still returns true; on the concrete driver a following `end` enters `save` and
writes the file. -/
theorem C9_autoSave_false_keeps_flag_set :
    (∀ (σ : Type) (d : EdgeDriverBase σ), (autoSave true d).isAutoSave = true ∧
      (autoSave false d).isAutoSave = d.isAutoSave ∧
      (autoSave false (autoSave true d)).isAutoSave = true) ∧
    (autoSave false (autoSave true demoWorld.drv))._persistance = 0x10 ∧
    (end_ demoJson demoCallbacks
      { demoWorld with drv := autoSave false (autoSave true demoWorld.drv) }).log =
      [Event.cbEnd, Event.save none, Event.openFile "/T.json" "w" true, Event.serializer] ∧
    (end_ demoJson demoCallbacks
      { demoWorld with drv := autoSave false (autoSave true demoWorld.drv) }).fs.files =
      [("/T.json", [10000])] := by
  refine ⟨?_, by decide, by decide, by decide⟩
  intro σ d
  refine ⟨?_, ?_, ?_⟩
  · simp [(autoSave_flags true d).1]
  · simp [(autoSave_flags false d).1]
  · simp [(autoSave_flags false (autoSave true d)).1, (autoSave_flags true d).1]

/-- C10 (code evaluated at the failing input): for every driver state `autoRestore(false)`
clears the auto-save flag together with the auto-restore flag, so `isAutoSave()` goes from true
to false; the other three cases keep the other flag: `autoRestore(true)` keeps the auto-save
flag and `autoSave(b)` keeps the auto-restore flag. -/
theorem C10_autoRestore_false_clears_autoSave :
    (∀ (σ : Type) (d : EdgeDriverBase σ), (autoRestore false d).isAutoSave = false ∧
      (autoRestore false (autoSave true d)).isAutoSave = false ∧
      (autoSave true d).isAutoSave = true) ∧
    (∀ (σ : Type) (b : Bool) (d : EdgeDriverBase σ), (autoRestore b d).isAutoRestore = b ∧
      (autoSave b d).isAutoRestore = d.isAutoRestore ∧
      (autoRestore true d).isAutoSave = d.isAutoSave) ∧
    (autoSave true demoWorld.drv)._persistance = 0x10 ∧
    (autoRestore false (autoSave true demoWorld.drv))._persistance = 0x00 := by
  refine ⟨?_, ?_, by decide, by decide⟩
  · intro σ d
    refine ⟨?_, ?_, ?_⟩
    · simp [(autoRestore_flags false d).2]
    · simp [(autoRestore_flags false (autoSave true d)).2]
    · simp [(autoSave_flags true d).1]
  · intro σ b d
    refine ⟨(autoRestore_flags b d).1, (autoSave_flags b d).2, ?_⟩
    simp [(autoRestore_flags true d).2]

/-! ## Theorems: persistence keys and failures of `restore` and `save` -/

/-- C11: with no name the key is "/" followed by the type name and ".json" when a deserializer
(for `restore`) or a serializer (for `save`) is registered, ".dat" otherwise; a name that starts
with "/" is the key itself; any other name is prefixed with "/". That key is the name `restore`
and `save` open, and the name under which `save` stores what it wrote. -/
theorem C11_persistence_key {σ : Type} (aj : ArduinoJson) (c : Callbacks σ) (w : World σ) :
    restoreFileName c w.drv none =
      "/" ++ w.drv._edgeDataType ++ (if c._deserializer.isSome then ".json" else ".dat") ∧
    saveFileName c w.drv none =
      "/" ++ w.drv._edgeDataType ++ (if c._serializer.isSome then ".json" else ".dat") ∧
    (∀ name : String, name.data.head? = some '/' →
      restoreFileName c w.drv (some name) = name ∧ saveFileName c w.drv (some name) = name) ∧
    (∀ name : String, name.data.head? ≠ some '/' →
      restoreFileName c w.drv (some name) = "/" ++ name ∧
      saveFileName c w.drv (some name) = "/" ++ name) ∧
    (∀ k, ∃ ok rest, (restore aj c k w).2.log =
      w.log ++ Event.restore k :: Event.openFile (restoreFileName c w.drv k) "r" ok :: rest) ∧
    (∀ k, ∃ ok rest, (save aj c k w).2.log =
      w.log ++ Event.save k :: Event.openFile (saveFileName c w.drv k) "w" ok :: rest) ∧
    (∀ k, w.fs.canOpenWrite (saveFileName c w.drv k) = true →
      ∃ out, (save aj c k w).2.fs = w.fs.put (saveFileName c w.drv k) out) := by
  refine ⟨rfl, rfl, ?_, ?_, ?_, ?_, ?_⟩
  · intro name h
    simp [restoreFileName, saveFileName, h]
  · intro name h
    simp [restoreFileName, saveFileName, h]
  · intro k
    cases hopen : w.fs.openRead (restoreFileName c w.drv k) with
    | none => exact ⟨false, [], by simp [restore, hopen]⟩
    | some inFile =>
      cases hde : c._deserializer with
      | none => exact ⟨true, [Event.dataReader], by simp [restore, hopen, hde]⟩
      | some de =>
        by_cases herr : (aj.deserializeJson w.drv._jsonBufferSize inFile).1 = true
        · exact ⟨true, [], by simp [restore, hopen, hde, herr]⟩
        · exact ⟨true, [Event.deserializer], by simp [restore, hopen, hde, herr]⟩
  · intro k
    by_cases hopen : w.fs.canOpenWrite (saveFileName c w.drv k) = true
    · cases hs : c._serializer with
      | none => exact ⟨true, [Event.dataWritter], by simp [save, hopen, hs]⟩
      | some ser => exact ⟨true, [Event.serializer], by simp [save, hopen, hs]⟩
    · exact ⟨false, [], by simp [save, hopen]⟩
  · intro k hopen
    cases hs : c._serializer with
    | none => exact ⟨_dataWritter c w.drv, by simp [save, hopen, hs]⟩
    | some ser =>
      exact ⟨aj.serializeJson w.drv._jsonBufferSize (ser w.drv []), by simp [save, hopen, hs]⟩

/-- C11 instance: the concrete driver of type name "T" has a serializer and a deserializer, so
its default key is "/T.json"; the name "/cfg.json" is used as it is and the name "cfg" becomes
"/cfg". -/
theorem C11_persistence_key_witness :
    restoreFileName demoCallbacks demoWorld.drv none = "/T.json" ∧
    saveFileName demoCallbacks demoWorld.drv none = "/T.json" ∧
    restoreFileName demoCallbacks demoWorld.drv (some "/cfg.json") = "/cfg.json" ∧
    saveFileName demoCallbacks demoWorld.drv (some "cfg") = "/cfg" :=
  have h := C11_persistence_key demoJson demoCallbacks demoWorld
  ⟨h.1.trans (by decide), h.2.1.trans (by decide), (h.2.2.1 "/cfg.json" (by decide)).1,
    ((h.2.2.2.1 "cfg" (by decide)).2).trans (by decide)⟩

/-- C12: when the store fails to open the stream, `restore` returns 0, calls neither the
deserializer nor the raw reader and leaves driver and store as they are; `save` returns 0 and
leaves the store as it is. A key that names no file cannot be opened for reading. -/
theorem C12_open_failure {σ : Type} (aj : ArduinoJson) (c : Callbacks σ) (k : Option String)
    (w : World σ) :
    (w.fs.files.lookup (restoreFileName c w.drv k) = none →
      w.fs.openRead (restoreFileName c w.drv k) = none) ∧
    (w.fs.openRead (restoreFileName c w.drv k) = none →
      (restore aj c k w).1 = 0 ∧ (restore aj c k w).2.drv = w.drv ∧
      (restore aj c k w).2.fs = w.fs ∧
      (restore aj c k w).2.log = w.log ++
        [Event.restore k, Event.openFile (restoreFileName c w.drv k) "r" false]) ∧
    (w.fs.canOpenWrite (saveFileName c w.drv k) = false →
      (save aj c k w).1 = 0 ∧ (save aj c k w).2.drv = w.drv ∧
      (save aj c k w).2.fs = w.fs ∧
      (save aj c k w).2.log = w.log ++
        [Event.save k, Event.openFile (saveFileName c w.drv k) "w" false]) := by
  refine ⟨?_, ?_, ?_⟩
  · intro h
    simp [FS.openRead, h]
  · intro h
    simp [restore, h]
  · intro h
    simp [save, h]

/-- C12 instance: the key "/absent" names no file, and "/T.json" is locked against writing. -/
theorem C12_open_failure_witness :
    (restore demoJson demoCallbacks (some "absent") demoWorld).1 = 0 ∧
    (restore demoJson demoCallbacks (some "absent") demoWorld).2.drv = demoWorld.drv ∧
    (save demoJson demoCallbacks none demoWorldLocked).1 = 0 ∧
    (save demoJson demoCallbacks none demoWorldLocked).2.fs = demoWorldLocked.fs :=
  have h := C12_open_failure demoJson demoCallbacks (some "absent") demoWorld
  have h' := C12_open_failure demoJson demoCallbacks none demoWorldLocked
  have hr := h.2.1 (h.1 (by decide))
  have hs := h'.2.2 (by decide)
  ⟨hr.1, hr.2.1, hs.1, hs.2.2.1⟩

/-- What `restore` does when the stream opens and decoding fails: the deserializer is not
called and the driver is unchanged, and the value returned is the memory usage of the document
left by the failed decoding. -/
theorem restore_decode_failure {σ : Type} (aj : ArduinoJson) (c : Callbacks σ)
    (k : Option String) (w : World σ) (inFile : Bytes)
    (de : JsonObject → EdgeDriverBase σ → EdgeDriverBase σ)
    (hopen : w.fs.openRead (restoreFileName c w.drv k) = some inFile)
    (hde : c._deserializer = some de)
    (herr : (aj.deserializeJson w.drv._jsonBufferSize inFile).1 = true) :
    (restore aj c k w).1 =
      aj.memoryUsage (aj.deserializeJson w.drv._jsonBufferSize inFile).2 ∧
    (restore aj c k w).2.drv = w.drv ∧
    (restore aj c k w).2.log = w.log ++
      [Event.restore k, Event.openFile (restoreFileName c w.drv k) "r" true] := by
  simp [restore, hopen, hde, herr]

/-- C13 (code evaluated at the failing input): the stored document is malformed and its
decoding fails after one member was stored in the buffer. `restore` does not call the
deserializer and leaves the EdgeData as it is, but it returns 16, the memory usage of the
document, not 0. -/
theorem C13_restore_decode_failure_returns_memory_usage :
    demoWorldMalformed.fs.openRead "/T.json" = some [7, 255] ∧
    (demoJsonPartial.deserializeJson 0 [7, 255]).1 = true ∧
    (restore demoJsonPartial demoCallbacks none demoWorldMalformed).1 = 16 ∧
    (restore demoJsonPartial demoCallbacks none demoWorldMalformed).2.drv.data = 0 ∧
    (restore demoJsonPartial demoCallbacks none demoWorldMalformed).2.log =
      [Event.restore none, Event.openFile "/T.json" "r" true] := by
  decide

/-! ## Theorems: round trips of `save` and `restore` -/

/-- Reading back what was just stored under a name. -/
theorem openRead_put (fs : FS) (fn : String) (out : Bytes) (hm : fs.mounted = true) :
    (fs.put fn out).openRead fn = some out := by
  simp [FS.openRead, FS.put, hm, List.lookup]

/-- A store that opens a stream for writing is mounted. -/
theorem mounted_of_canOpenWrite (fs : FS) (fn : String) (h : fs.canOpenWrite fn = true) :
    fs.mounted = true := by
  simp [FS.canOpenWrite] at h
  exact h.1

/-- C15: for a driver with neither serializer nor deserializer, whose EdgeData has a
representation of `sizeof(T)` bytes that determines its value, `save` stores exactly that
representation and returns `sizeof(T)`; a `restore` on the same key afterwards, whatever the
driver state became in between, returns `sizeof(T)` and leaves the EdgeData equal, byte for
byte, to the EdgeData at the time of `save`. -/
theorem C15_raw_round_trip {σ : Type} (aj : ArduinoJson) (c : Callbacks σ)
    (k : Option String) (w : World σ) (d' : EdgeDriverBase σ)
    (hser : c._serializer = none) (hde : c._deserializer = none)
    (hlen : ∀ x, (c.toBytes x).length = c.sizeofT)
    (hrep : ∀ x, c.ofBytes (c.toBytes x) = x)
    (hopen : w.fs.canOpenWrite (saveFileName c w.drv k) = true)
    (htype : d'._edgeDataType = w.drv._edgeDataType) :
    (save aj c k w).1 = c.sizeofT ∧
    (save aj c k w).2.fs.openRead (saveFileName c w.drv k) = some (c.toBytes w.drv.data) ∧
    (restore aj c k { (save aj c k w).2 with drv := d' }).1 = c.sizeofT ∧
    (restore aj c k { (save aj c k w).2 with drv := d' }).2.drv.data = w.drv.data ∧
    c.toBytes (restore aj c k { (save aj c k w).2 with drv := d' }).2.drv.data =
      c.toBytes w.drv.data := by
  have hm := mounted_of_canOpenWrite _ _ hopen
  have hw : _dataWritter c w.drv = c.toBytes w.drv.data := by
    simp [_dataWritter, ← hlen w.drv.data]
  have hfs : (save aj c k w).2.fs = w.fs.put (saveFileName c w.drv k) (c.toBytes w.drv.data) := by
    simp [save, hopen, hser, hw]
  have hkey : restoreFileName c d' k = saveFileName c w.drv k := by
    cases k <;> simp [restoreFileName, saveFileName, hser, hde, getTypeName, htype]
  have hread : (save aj c k w).2.fs.openRead (restoreFileName c d' k) =
      some (c.toBytes w.drv.data) := by
    rw [hfs, hkey]
    exact openRead_put _ _ _ hm
  have htake : (c.toBytes w.drv.data).take c.sizeofT = c.toBytes w.drv.data := by
    simp [← hlen w.drv.data]
  have hdrop : ∀ x, (c.toBytes x).drop c.sizeofT = [] := by
    intro x
    exact List.drop_eq_nil_of_le (by rw [hlen])
  have hdata : (restore aj c k { (save aj c k w).2 with drv := d' }).2.drv.data =
      w.drv.data := by
    simp [restore, hread, hde, _dataReader, htake, hlen, hdrop, hrep]
  refine ⟨?_, ?_, ?_, hdata, by rw [hdata]⟩
  · simp [save, hopen, hser, hw, hlen]
  · rw [← hkey]; exact hread
  · simp [restore, hread, hde, _dataReader, htake, hlen]

/-- C15 instance: the EdgeData 42 is saved as the one byte 42 under "/T.dat"; after the EdgeData
was changed to 99, `restore` returns 1 and the EdgeData is 42 again. -/
theorem C15_raw_round_trip_witness :
    (save demoJson demoRawCallbacks none demoWorld42).1 = 1 ∧
    (save demoJson demoRawCallbacks none demoWorld42).2.fs.openRead "/T.dat" = some [42] ∧
    (restore demoJson demoRawCallbacks none
      { (save demoJson demoRawCallbacks none demoWorld42).2 with
        drv := { demoWorld42.drv with data := 99 } }).1 = 1 ∧
    (restore demoJson demoRawCallbacks none
      { (save demoJson demoRawCallbacks none demoWorld42).2 with
        drv := { demoWorld42.drv with data := 99 } }).2.drv.data = 42 :=
  have h := C15_raw_round_trip demoJson demoRawCallbacks none demoWorld42
    { demoWorld42.drv with data := 99 } rfl rfl (fun _ => rfl) (fun _ => rfl) (by decide) rfl
  ⟨h.1, h.2.1, h.2.2.1, h.2.2.2.1⟩

/-- The document `mqttSerialize` builds from an empty object. -/
theorem mqttSerialize_nil (mqtt : EdgeDriverBase MQTT_t) :
    mqttSerialize mqtt [] =
      [("server", JsonVariant.str mqtt.data.server),
       ("apikey", JsonVariant.str mqtt.data.apikey),
       ("channelid", JsonVariant.str mqtt.data.channelid),
       ("writekey", JsonVariant.str mqtt.data.writekey),
       ("clientid", JsonVariant.str mqtt.data.clientid),
       ("username", JsonVariant.str mqtt.data.username),
       ("password", JsonVariant.str mqtt.data.password),
       ("hostname", JsonVariant.str mqtt.data.hostname),
       ("publishInterval", JsonVariant.int mqtt.data.publishInterval)] := by
  simp [mqttSerialize, JsonObject.set]

/-- The deserializer of the MQTT example reads back what its serializer wrote. -/
theorem mqtt_pair (d e : EdgeDriverBase MQTT_t) (h : d.data.publishInterval < ULONG_MOD) :
    (mqttDeserialize (mqttSerialize d []) e).data.persisted = d.data.persisted := by
  have hM : (ULONG_MOD : Int) = 4294967296 := by norm_num [ULONG_MOD]
  rw [mqttSerialize_nil]
  simp [mqttDeserialize, MQTT_t.persisted, JsonObject.asString, JsonObject.asULong,
    List.lookup, hM]
  omega

/-- Save followed by restore through a serializer and deserializer: when the library decodes
the text it wrote for the document back into that document, both calls return a non-zero size
and the deserializer runs on the document the serializer built. -/
theorem structured_round_trip {σ P : Type} (aj : ArduinoJson) (c : Callbacks σ)
    (ser : EdgeDriverBase σ → JsonObject → JsonObject)
    (de : JsonObject → EdgeDriverBase σ → EdgeDriverBase σ) (proj : σ → P)
    (k : Option String) (w : World σ) (d' : EdgeDriverBase σ)
    (hser : c._serializer = some ser) (hde : c._deserializer = some de)
    (hpair : ∀ e, proj (de (ser w.drv []) e).data = proj w.drv.data)
    (hcodec : aj.deserializeJson d'._jsonBufferSize
      (aj.serializeJson w.drv._jsonBufferSize (ser w.drv [])) = (false, ser w.drv []))
    (hout : aj.serializeJson w.drv._jsonBufferSize (ser w.drv []) ≠ [])
    (hmem : aj.memoryUsage (ser w.drv []) ≠ 0)
    (hopen : w.fs.canOpenWrite (saveFileName c w.drv k) = true)
    (htype : d'._edgeDataType = w.drv._edgeDataType) :
    (save aj c k w).1 ≠ 0 ∧
    (restore aj c k { (save aj c k w).2 with drv := d' }).1 ≠ 0 ∧
    proj (restore aj c k { (save aj c k w).2 with drv := d' }).2.drv.data =
      proj w.drv.data := by
  have hm := mounted_of_canOpenWrite _ _ hopen
  have hfs : (save aj c k w).2.fs = w.fs.put (saveFileName c w.drv k)
      (aj.serializeJson w.drv._jsonBufferSize (ser w.drv [])) := by
    simp [save, hopen, hser]
  have hkey : restoreFileName c d' k = saveFileName c w.drv k := by
    cases k <;> simp [restoreFileName, saveFileName, hser, hde, getTypeName, htype]
  have hread : (save aj c k w).2.fs.openRead (restoreFileName c d' k) =
      some (aj.serializeJson w.drv._jsonBufferSize (ser w.drv [])) := by
    rw [hfs, hkey]
    exact openRead_put _ _ _ hm
  refine ⟨?_, ?_, ?_⟩
  · simpa [save, hopen, hser] using hout
  · simpa [restore, hread, hde, hcodec] using hmem
  · simpa [restore, hread, hde, hcodec] using hpair d'

/-- C14 (counterexample): the MQTT driver with its buffer of 256 bytes, on a library whose
document has that fixed capacity. With the server name "mqtt3.thingspeak.com" the document the
serializer builds does not fit: `save` and then `restore` on the same key both open the stream
and return a non-zero size, and `publishInterval`, 30000 at the time of `save`, is 0
afterwards. With the server name "mq.io" the document fits and the same calls give the server
name and the publish interval back. -/
theorem C14_counterexample_document_exceeds_buffer :
    mqttCallbacks._serializer = some mqttSerialize ∧
    mqttCallbacks._deserializer = some mqttDeserialize ∧
    demoMqttLong.drv._jsonBufferSize = 256 ∧
    demoMqttLong.drv.data.publishInterval = 30000 ∧
    (save demoCodecBounded mqttCallbacks none demoMqttLong).1 ≠ 0 ∧
    (restore demoCodecBounded mqttCallbacks none
      (save demoCodecBounded mqttCallbacks none demoMqttLong).2).1 ≠ 0 ∧
    (restore demoCodecBounded mqttCallbacks none
      (save demoCodecBounded mqttCallbacks none demoMqttLong).2).2.log =
      [Event.save none, Event.openFile "/MQTT_t.json" "w" true, Event.serializer,
        Event.restore none, Event.openFile "/MQTT_t.json" "r" true, Event.deserializer] ∧
    (restore demoCodecBounded mqttCallbacks none
      (save demoCodecBounded mqttCallbacks none demoMqttLong).2).2.drv.data.publishInterval =
      0 ∧
    (restore demoCodecBounded mqttCallbacks none
      (save demoCodecBounded mqttCallbacks none demoMqttLong).2).2.drv.data.server =
      "mqtt3.thingspeak.com" ∧
    demoMqttWorld.drv.data.server = "mq.io" ∧
    demoMqttWorld.drv.data.publishInterval = 30000 ∧
    (restore demoCodecBounded mqttCallbacks none
      (save demoCodecBounded mqttCallbacks none demoMqttWorld).2).2.drv.data.server =
      "mq.io" ∧
    (restore demoCodecBounded mqttCallbacks none
      (save demoCodecBounded mqttCallbacks none demoMqttWorld).2).2.drv.data.publishInterval =
      30000 := by
  refine ⟨rfl, rfl, ?_⟩
  set_option maxRecDepth 8000 in decide

/-- C14 (amended): for a driver with a serializer and a deserializer that reads back the
persisted fields the serializer wrote, on a store that opens the key for writing, and for a
payload whose document fits the JSON buffer of the driver, in that the library writes a text
for it that is not empty, decodes that text back into the same document and reports a non-zero
memory usage for it: `save` followed by `restore` on the same key returns non-zero sizes and
leaves the persisted fields, whatever the driver state became in between, equal to their values
at the time of `save`. For the serializer and deserializer of the MQTT example this gives back
server, apikey, channelid, writekey, clientid, username, password, hostname and publishInterval
under the same conditions on the document. -/
theorem C14_structured_round_trip :
    (∀ (σ P : Type) (aj : ArduinoJson) (c : Callbacks σ)
      (ser : EdgeDriverBase σ → JsonObject → JsonObject)
      (de : JsonObject → EdgeDriverBase σ → EdgeDriverBase σ) (proj : σ → P)
      (k : Option String) (w : World σ) (d' : EdgeDriverBase σ),
      c._serializer = some ser → c._deserializer = some de →
      (∀ e, proj (de (ser w.drv []) e).data = proj w.drv.data) →
      aj.deserializeJson d'._jsonBufferSize
        (aj.serializeJson w.drv._jsonBufferSize (ser w.drv [])) = (false, ser w.drv []) →
      aj.serializeJson w.drv._jsonBufferSize (ser w.drv []) ≠ [] →
      aj.memoryUsage (ser w.drv []) ≠ 0 →
      w.fs.canOpenWrite (saveFileName c w.drv k) = true →
      d'._edgeDataType = w.drv._edgeDataType →
      (save aj c k w).1 ≠ 0 ∧
      (restore aj c k { (save aj c k w).2 with drv := d' }).1 ≠ 0 ∧
      proj (restore aj c k { (save aj c k w).2 with drv := d' }).2.drv.data =
        proj w.drv.data) ∧
    (∀ (aj : ArduinoJson) (c : Callbacks MQTT_t) (k : Option String) (w : World MQTT_t)
      (d' : EdgeDriverBase MQTT_t),
      c._serializer = some mqttSerialize → c._deserializer = some mqttDeserialize →
      w.drv.data.publishInterval < ULONG_MOD →
      aj.deserializeJson d'._jsonBufferSize
        (aj.serializeJson w.drv._jsonBufferSize (mqttSerialize w.drv [])) =
          (false, mqttSerialize w.drv []) →
      aj.serializeJson w.drv._jsonBufferSize (mqttSerialize w.drv []) ≠ [] →
      aj.memoryUsage (mqttSerialize w.drv []) ≠ 0 →
      w.fs.canOpenWrite (saveFileName c w.drv k) = true →
      d'._edgeDataType = w.drv._edgeDataType →
      (save aj c k w).1 ≠ 0 ∧
      (restore aj c k { (save aj c k w).2 with drv := d' }).1 ≠ 0 ∧
      (restore aj c k { (save aj c k w).2 with drv := d' }).2.drv.data.server =
        w.drv.data.server ∧
      (restore aj c k { (save aj c k w).2 with drv := d' }).2.drv.data.apikey =
        w.drv.data.apikey ∧
      (restore aj c k { (save aj c k w).2 with drv := d' }).2.drv.data.channelid =
        w.drv.data.channelid ∧
      (restore aj c k { (save aj c k w).2 with drv := d' }).2.drv.data.writekey =
        w.drv.data.writekey ∧
      (restore aj c k { (save aj c k w).2 with drv := d' }).2.drv.data.clientid =
        w.drv.data.clientid ∧
      (restore aj c k { (save aj c k w).2 with drv := d' }).2.drv.data.username =
        w.drv.data.username ∧
      (restore aj c k { (save aj c k w).2 with drv := d' }).2.drv.data.password =
        w.drv.data.password ∧
      (restore aj c k { (save aj c k w).2 with drv := d' }).2.drv.data.hostname =
        w.drv.data.hostname ∧
      (restore aj c k { (save aj c k w).2 with drv := d' }).2.drv.data.publishInterval =
        w.drv.data.publishInterval) := by
  refine ⟨?_, ?_⟩
  · intro σ P aj c ser de proj k w d' hser hde hpair hcodec hout hmem hopen htype
    exact structured_round_trip aj c ser de proj k w d' hser hde hpair hcodec hout hmem
      hopen htype
  · intro aj c k w d' hser hde hpi hcodec hout hmem hopen htype
    have h := structured_round_trip aj c mqttSerialize mqttDeserialize MQTT_t.persisted k w d'
      hser hde (fun e => mqtt_pair w.drv e hpi) hcodec hout hmem hopen htype
    obtain ⟨h1, h2, h3⟩ := h
    simp only [MQTT_t.persisted, Prod.mk.injEq] at h3
    exact ⟨h1, h2, h3⟩

/-- C14 instance: on the library whose document has the fixed capacity, the MQTT settings with
the server name "mq.io" fit the buffer of 256 bytes. They are saved under "/MQTT_t.json", the
settings of the driver are overwritten, and `restore` brings the saved settings back. -/
theorem C14_structured_round_trip_witness :
    demoMqttWorld.drv.data.publishInterval < ULONG_MOD ∧
    demoCodecBounded.deserializeJson demoMqttBlank._jsonBufferSize
      (demoCodecBounded.serializeJson demoMqttWorld.drv._jsonBufferSize
        (mqttSerialize demoMqttWorld.drv [])) = (false, mqttSerialize demoMqttWorld.drv []) ∧
    demoMqttWorld.fs.canOpenWrite (saveFileName mqttCallbacks demoMqttWorld.drv none) = true ∧
    (save demoCodecBounded mqttCallbacks none demoMqttWorld).1 ≠ 0 ∧
    (restore demoCodecBounded mqttCallbacks none
      { (save demoCodecBounded mqttCallbacks none demoMqttWorld).2 with
        drv := demoMqttBlank }).1 ≠ 0 ∧
    (restore demoCodecBounded mqttCallbacks none
      { (save demoCodecBounded mqttCallbacks none demoMqttWorld).2 with
        drv := demoMqttBlank }).2.drv.data.server = "mq.io" ∧
    (restore demoCodecBounded mqttCallbacks none
      { (save demoCodecBounded mqttCallbacks none demoMqttWorld).2 with
        drv := demoMqttBlank }).2.drv.data.publishInterval = 30000 := by
  have hcodec : demoCodecBounded.deserializeJson demoMqttBlank._jsonBufferSize
      (demoCodecBounded.serializeJson demoMqttWorld.drv._jsonBufferSize
        (mqttSerialize demoMqttWorld.drv [])) = (false, mqttSerialize demoMqttWorld.drv []) := by
    set_option maxRecDepth 8000 in decide
  have hout : demoCodecBounded.serializeJson demoMqttWorld.drv._jsonBufferSize
      (mqttSerialize demoMqttWorld.drv []) ≠ [] := by
    set_option maxRecDepth 8000 in decide
  have hmem : demoCodecBounded.memoryUsage (mqttSerialize demoMqttWorld.drv []) ≠ 0 := by
    decide
  have hopen : demoMqttWorld.fs.canOpenWrite
      (saveFileName mqttCallbacks demoMqttWorld.drv none) = true := by decide
  have h := C14_structured_round_trip.2 demoCodecBounded mqttCallbacks none demoMqttWorld
    demoMqttBlank rfl rfl (by decide) hcodec hout hmem hopen rfl
  exact ⟨by decide, hcodec, hopen, h.1, h.2.1, h.2.2.1, h.2.2.2.2.2.2.2.2.2.2⟩

/-! ## Theorems: the registry -/

/-- A call leaves the registry as it is. -/
theorem call_edge {σ α π : Type} (s : Sketch σ α π) (driver : Nat) (m : Method)
    (f : World σ → World σ) : (s.call driver m f).edge = s.edge := rfl

/-- A call changes no driver but the one it is made on. -/
theorem call_heap_other {σ α π : Type} (s : Sketch σ α π) (driver : Nat) (m : Method)
    (f : World σ → World σ) (a : Nat) (h : a ≠ driver) :
    (s.call driver m f).heap a = s.heap a := by
  simp [Sketch.call, h]

/-- The loop over the drivers leaves the registry as it is. -/
theorem callAll_edge {σ α π : Type} (m : Nat → Method) (f : Nat → World σ → World σ)
    (drivers : List Nat) (s : Sketch σ α π) :
    (Sketch.callAll m f drivers s).edge = s.edge := by
  induction drivers generalizing s with
  | nil => rfl
  | cons d ds ih =>
    simp only [Sketch.callAll, List.foldl_cons] at ih ⊢
    rw [ih]
    rfl

/-- The events of a driver are not calls. -/
theorem filter_isCall_events (driver : Nat) (evs : List Event) :
    (evs.map (Entry.event driver)).filter Entry.isCall = [] := by
  rw [List.filter_eq_nil_iff]
  intro e he
  simp only [List.mem_map] at he
  obtain ⟨ev, _, rfl⟩ := he
  simp [Entry.isCall]

/-- The loop over the drivers calls the member function once on each element, in order. -/
theorem callAll_calls {σ α π : Type} (m : Nat → Method) (f : Nat → World σ → World σ)
    (drivers : List Nat) (s : Sketch σ α π) :
    ∃ new, (Sketch.callAll m f drivers s).trace = s.trace ++ new ∧
      new.filter Entry.isCall = drivers.map (fun d => Entry.call d (m d)) := by
  induction drivers generalizing s with
  | nil => exact ⟨[], by simp [Sketch.callAll], rfl⟩
  | cons d ds ih =>
    obtain ⟨new, h1, h2⟩ := ih (s.call d (m d) (f d))
    refine ⟨Entry.call d (m d) ::
      ((f d { drv := s.heap d, fs := s.fs, log := [] }).log.map (Entry.event d) ++ new), ?_, ?_⟩
    · simp only [Sketch.callAll, List.foldl_cons] at h1 ⊢
      rw [h1]
      simp [Sketch.call]
    · simp [List.filter_cons, Entry.isCall, filter_isCall_events, h2]

/-- What `EdgeDriverBase::process` logs: the process callback exactly when the driver fires;
it never touches the store. -/
theorem process_log {σ : Type} (c : Callbacks σ) (now : Nat) (w : World σ) :
    (EdgeDriverBase.process c now w).log =
      w.log ++ (if fires c now w.drv then [Event.cbProcess] else []) ∧
    (EdgeDriverBase.process c now w).fs = w.fs := by
  by_cases hf : fires c now w.drv = true
  · simp only [fires, Bool.and_eq_true, decide_eq_true_eq] at hf
    obtain ⟨⟨hen, hs⟩, hdue⟩ := hf
    obtain ⟨cb, hcb⟩ := Option.isSome_iff_exists.1 hs
    rw [process_fires c cb now w hen hcb hdue]
    simp [fires, hen, hcb, hdue]
  · have hf' : fires c now w.drv = false := by simpa using hf
    have hno : w.drv._enable = false ∨ c._cbProcess = none ∨
        (now + ULONG_MOD - w.drv._tm) % ULONG_MOD ≤ w.drv._interval := by
      by_contra hcon
      push_neg at hcon
      obtain ⟨h1, h2, h3⟩ := hcon
      apply hf
      simp only [fires, Bool.and_eq_true, decide_eq_true_eq]
      refine ⟨⟨by simpa using h1, ?_⟩, h3⟩
      cases hc : c._cbProcess with
      | none => exact absurd hc h2
      | some cb => rfl
    rw [process_noop c now w hno]
    simp [hf']

/-- The loop of `process` calls: what is appended to the trace, the calls it contains, and the
callbacks it contains when no driver is registered twice. -/
theorem callAll_process {σ α π : Type} (cbs : Nat → Callbacks σ) (now : Nat)
    (drivers : List Nat) (s : Sketch σ α π) :
    ∃ new, (Sketch.callAll (fun _ => Method.process)
        (fun driver => EdgeDriverBase.process (cbs driver) now) drivers s).trace =
        s.trace ++ new ∧
      new.filterMap Entry.calledProcess = drivers ∧
      (new.filterMap Entry.firedProcess).Sublist drivers ∧
      (drivers.Nodup → new.filterMap Entry.firedProcess =
        drivers.filter (fun d => fires (cbs d) now (s.heap d))) := by
  induction drivers generalizing s with
  | nil => exact ⟨[], by simp [Sketch.callAll], rfl, by simp, fun _ => rfl⟩
  | cons d ds ih =>
    obtain ⟨new, h1, h2, h3, h4⟩ :=
      ih (s.call d Method.process (EdgeDriverBase.process (cbs d) now))
    have hlog := (process_log (cbs d) now { drv := s.heap d, fs := s.fs, log := [] }).1
    simp only [List.nil_append] at hlog
    refine ⟨Entry.call d Method.process ::
      ((if fires (cbs d) now (s.heap d) then [Entry.event d Event.cbProcess] else []) ++ new),
      ?_, ?_, ?_, ?_⟩
    · simp only [Sketch.callAll, List.foldl_cons] at h1 ⊢
      rw [h1]
      simp only [Sketch.call, hlog]
      by_cases hf : fires (cbs d) now (s.heap d) = true <;> simp [hf]
    · by_cases hf : fires (cbs d) now (s.heap d) = true <;>
        simp [hf, List.filterMap_cons, Entry.calledProcess, h2]
    · by_cases hf : fires (cbs d) now (s.heap d) = true
      · simp only [hf, if_true, List.filterMap_cons, Entry.firedProcess, List.cons_append,
          List.nil_append]
        exact h3.cons₂ d
      · simp only [hf, List.filterMap_cons, Entry.firedProcess, List.nil_append]
        exact h3.cons d
    · intro hnd
      have hd : d ∉ ds := (List.nodup_cons.1 hnd).1
      have hrest := h4 (List.nodup_cons.1 hnd).2
      have hsame : ds.filter (fun a => fires (cbs a) now
          ((s.call d Method.process (EdgeDriverBase.process (cbs d) now)).heap a)) =
          ds.filter (fun a => fires (cbs a) now (s.heap a)) := by
        apply List.filter_congr
        intro a ha
        have hne : a ≠ d := fun h => hd (h ▸ ha)
        rw [call_heap_other _ _ _ _ _ hne]
      rw [hsame] at hrest
      by_cases hf : fires (cbs d) now (s.heap d) = true
      · simp [hf, List.filterMap_cons, Entry.firedProcess, List.filter_cons, hrest]
      · simp [hf, List.filterMap_cons, Entry.firedProcess, List.filter_cons, hrest]

/-- `remove_if` keeps exactly the elements that do not satisfy the predicate. -/
theorem remove_if_eq_filter {β : Type} (p : β → Bool) (l : List β) :
    remove_if p l = l.filter (fun x => !p x) := by
  induction l with
  | nil => rfl
  | cons x xs ih =>
    by_cases hp : p x = true <;> simp [remove_if, hp, ih, List.filter_cons]

/-- C17: `detach(D)` leaves exactly the entries of the driver list whose address differs from
`D`, in their order: no occurrence of `D` remains, every other address occurs as often as
before, even one whose driver has the same content as `D`, and a list without `D` is left
unchanged; the list `[A, B, A]` becomes `[B]`. -/
theorem C17_detach {σ α π : Type} (D : Nat) (s : Sketch σ α π) :
    (Edge.detach D s).edge._drivers = s.edge._drivers.filter (fun x => x != D) ∧
    D ∉ (Edge.detach D s).edge._drivers ∧
    (∀ x, x ≠ D → (Edge.detach D s).edge._drivers.count x = s.edge._drivers.count x) ∧
    (Edge.detach D s).edge._drivers.Sublist s.edge._drivers ∧
    (∀ x, x ≠ D → x ∈ s.edge._drivers → s.heap x = s.heap D →
      x ∈ (Edge.detach D s).edge._drivers) ∧
    (D ∉ s.edge._drivers → (Edge.detach D s).edge._drivers = s.edge._drivers) ∧
    (∀ B, B ≠ D → s.edge._drivers = [D, B, D] → (Edge.detach D s).edge._drivers = [B]) := by
  have hf : (Edge.detach D s).edge._drivers = s.edge._drivers.filter (fun x => x != D) := by
    simp only [Edge.detach, remove_if_eq_filter]
    apply List.filter_congr
    intro x _
    by_cases h : x = D
    · simp [h]
    · have e1 : (D == x) = false := by
        simpa using fun e : D = x => h e.symm
      have e2 : (x != D) = true := by simpa using h
      rw [e1, e2]
      rfl
  refine ⟨hf, ?_, ?_, ?_, ?_, ?_, ?_⟩
  · rw [hf]; simp [List.mem_filter]
  · intro x hx
    rw [hf]
    exact List.count_filter (by simpa using hx)
  · rw [hf]; exact List.filter_sublist _
  · intro x hx hmem _
    rw [hf]
    simp [List.mem_filter, hmem, hx]
  · intro h
    rw [hf, List.filter_eq_self]
    intro x hx
    have : x ≠ D := fun e => h (e ▸ hx)
    simpa using this
  · intro B hB hL
    rw [hf, hL]
    simp [List.filter_cons, hB]

/-- C17 instance: the drivers at 0, 1 and 0 are registered and all three have the same content;
`detach` of the driver at 0 leaves the driver at 1. -/
theorem C17_detach_witness :
    demoSketchABA.edge._drivers = [0, 1, 0] ∧ demoSketchABA.heap 1 = demoSketchABA.heap 0 ∧
    (Edge.detach 0 demoSketchABA).edge._drivers = [1] ∧
    (Edge.detach 2 demoSketchABA).edge._drivers = [0, 1, 0] :=
  have h := C17_detach 0 demoSketchABA
  have h2 := C17_detach 2 demoSketchABA
  have hL : demoSketchABA.edge._drivers = [0, 1, 0] := by decide
  ⟨hL, rfl, h.2.2.2.2.2.2 1 (by decide) hL,
    (h2.2.2.2.2.2.1 (by rw [hL]; decide)).trans hL⟩

/-- C18: `detach(D)` adds nothing to the trace, so it calls no member function and no callback
of any driver and saves nothing; every driver, `D` included, keeps its enable flag, interval,
last tick, persistence flags and EdgeData, and the store, the pending queue and the portal are
as before. -/
theorem C18_detach_frame {σ α π : Type} (D : Nat) (s : Sketch σ α π) :
    (Edge.detach D s).trace = s.trace ∧
    (∀ a, (Edge.detach D s).heap a = s.heap a) ∧
    (Edge.detach D s).fs = s.fs ∧
    (Edge.detach D s).edge._auxQueue = s.edge._auxQueue ∧
    (Edge.detach D s).edge._portal = s.edge._portal :=
  ⟨rfl, fun _ => rfl, rfl, rfl, rfl⟩

/-- C19 (code evaluated at the failing input): the registered driver at address 0 is enabled,
has an end callback and has the auto-save flag set. `detach` removes it from the list and adds
nothing to the trace: the end callback is not called, nothing is saved, and the driver stays
enabled with its EdgeData untouched, whereas `end` on that driver calls the end callback and
saves. -/
theorem C19_detach_does_not_end :
    demoSketchSave.edge._drivers = [0] ∧
    (demoSketchSave.heap 0).isAutoSave = true ∧ (demoCbs 0)._cbEnd.isSome = true ∧
    (Edge.detach 0 demoSketchSave).edge._drivers = [] ∧
    (Edge.detach 0 demoSketchSave).trace = [] ∧
    (Edge.detach 0 demoSketchSave).fs = demoSketchSave.fs ∧
    ((Edge.detach 0 demoSketchSave).heap 0)._enable = true ∧
    ((Edge.detach 0 demoSketchSave).heap 0).data = 0 ∧
    (Edge.end_ demoJson demoCbs demoSketchSave).trace =
      [Entry.call 0 Method.end_, Entry.event 0 Event.cbEnd, Entry.event 0 (Event.save none),
        Entry.event 0 (Event.openFile "/T.json" "w" true), Entry.event 0 Event.serializer] := by
  decide

/-- With function objects that are empty or call a handler, one `process` of the registry calls
`process` once on each entry of the driver list, in order, whatever the state of the drivers
before it; the process callbacks it runs form a sub-sequence of the driver list, and when no
driver is registered twice they are exactly the entries that are enabled, have a process
callback and are due; the driver list, the pending queue and the portal are unchanged. -/
theorem registry_process_spec {σ α π : Type} (cbs : Nat → Callbacks σ) (now : Nat)
    (s : Sketch σ α π) :
    (Edge.process cbs now s).edge._drivers = s.edge._drivers ∧
    (Edge.process cbs now s).edge._auxQueue = s.edge._auxQueue ∧
    (Edge.process cbs now s).edge._portal = s.edge._portal ∧
    ∃ new, (Edge.process cbs now s).trace = s.trace ++ new ∧
      new.filterMap Entry.calledProcess = s.edge._drivers ∧
      (new.filterMap Entry.firedProcess).Sublist s.edge._drivers ∧
      (s.edge._drivers.Nodup → new.filterMap Entry.firedProcess =
        s.edge._drivers.filter (fun d => fires (cbs d) now (s.heap d))) := by
  have he : (Edge.process cbs now s).edge = s.edge := callAll_edge _ _ _ s
  refine ⟨by rw [he], by rw [he], by rw [he], ?_⟩
  exact callAll_process cbs now s.edge._drivers s

/-- Instance: the drivers at 0, 1 and 2 are registered and the one at 1 is disabled. At clock
value 5 `process` is called on all three, and the callbacks of the drivers at 0 and 2 run. -/
theorem registry_process_demo :
    demoSketch3.edge._drivers.Nodup ∧
    ∃ new, (Edge.process demoCbs 5 demoSketch3).trace = demoSketch3.trace ++ new ∧
      new.filterMap Entry.calledProcess = [0, 1, 2] ∧
      new.filterMap Entry.firedProcess = [0, 2] := by
  have hnd : demoSketch3.edge._drivers.Nodup := by decide
  obtain ⟨_, _, _, new, h1, h2, _, h4⟩ := registry_process_spec demoCbs 5 demoSketch3
  exact ⟨hnd, new, h1, h2.trans (by decide), (h4 hnd).trans (by decide)⟩

/-! ## Theorems: `abort` and `end` of the registry -/

/-- The loop over the drivers changes no driver outside the list. -/
theorem callAll_heap_other {σ α π : Type} (m : Nat → Method) (f : Nat → World σ → World σ)
    (drivers : List Nat) (s : Sketch σ α π) (a : Nat) (h : a ∉ drivers) :
    (Sketch.callAll m f drivers s).heap a = s.heap a := by
  induction drivers generalizing s with
  | nil => rfl
  | cons d ds ih =>
    have hd : a ≠ d := fun e => h (e ▸ List.mem_cons_self _ _)
    have hds : a ∉ ds := fun e => h (List.mem_cons_of_mem _ e)
    simp only [Sketch.callAll, List.foldl_cons] at ih ⊢
    rw [ih _ hds]
    exact call_heap_other _ _ _ _ _ hd

/-- When the member function always leaves its driver disabled, every driver of the list is
disabled after the loop. -/
theorem callAll_disables {σ α π : Type} (m : Nat → Method) (f : Nat → World σ → World σ)
    (hf : ∀ d w, (f d w).drv._enable = false) (drivers : List Nat) (s : Sketch σ α π) :
    ∀ a ∈ drivers, ((Sketch.callAll m f drivers s).heap a)._enable = false := by
  induction drivers generalizing s with
  | nil => intro a ha; cases ha
  | cons d ds ih =>
    intro a ha
    by_cases hmem : a ∈ ds
    · simp only [Sketch.callAll, List.foldl_cons] at ih ⊢
      exact ih _ a hmem
    · have had : a = d := by
        rcases List.mem_cons.1 ha with h | h
        · exact h
        · exact absurd h hmem
      subst had
      have := callAll_heap_other m f ds (s.call a (m a) (f a)) a hmem
      simp only [Sketch.callAll, List.foldl_cons] at this ⊢
      rw [this]
      simp [Sketch.call, hf]

/-- What the loop over the drivers appends to the trace: for every way `g` of reading entries
whose result on one call and its events does not depend on the state, the readings are those
of the calls in list order. -/
theorem callAll_new {σ α π : Type} (m : Nat → Method) (f : Nat → World σ → World σ)
    (drivers : List Nat) (s : Sketch σ α π) :
    ∃ new, (Sketch.callAll m f drivers s).trace = s.trace ++ new ∧
      ∀ (β : Type) (g : Entry → Option β) (G : Nat → List β),
        (∀ d (w : World σ), w.log = [] →
          (Entry.call d (m d) :: (f d w).log.map (Entry.event d)).filterMap g = G d) →
        new.filterMap g = drivers.flatMap G := by
  induction drivers generalizing s with
  | nil => exact ⟨[], by simp [Sketch.callAll], fun _ _ _ _ => rfl⟩
  | cons d ds ih =>
    obtain ⟨new, h1, h2⟩ := ih (s.call d (m d) (f d))
    refine ⟨(Entry.call d (m d) ::
      (f d { drv := s.heap d, fs := s.fs, log := [] }).log.map (Entry.event d)) ++ new, ?_, ?_⟩
    · simp only [Sketch.callAll, List.foldl_cons] at h1 ⊢
      rw [h1]
      simp [Sketch.call]
    · intro β g G hG
      rw [List.filterMap_append, h2 β g G hG, hG d _ rfl, List.flatMap_cons]

/-- `end` always leaves its driver disabled. -/
theorem end_disables {σ : Type} (aj : ArduinoJson) (c : Callbacks σ) (w : World σ) :
    (EdgeDriverBase.end_ aj c w).drv._enable = false := by
  simp [EdgeDriverBase.end_, enable]

/-- When every registered driver is disabled, `process` of the registry only records its calls:
no callback runs and drivers, store and registry are unchanged. -/
theorem callAll_process_disabled {σ α π : Type} (cbs : Nat → Callbacks σ) (now : Nat)
    (drivers : List Nat) (s : Sketch σ α π)
    (h : ∀ d ∈ drivers, (s.heap d)._enable = false) :
    Sketch.callAll (fun _ => Method.process)
      (fun driver => EdgeDriverBase.process (cbs driver) now) drivers s =
      { s with trace := s.trace ++ drivers.map (fun d => Entry.call d Method.process) } := by
  induction drivers generalizing s with
  | nil => simp [Sketch.callAll]
  | cons d ds ih =>
    have hd : (s.heap d)._enable = false := h d (List.mem_cons_self _ _)
    have hcall : s.call d Method.process (EdgeDriverBase.process (cbs d) now) =
        { s with trace := s.trace ++ [Entry.call d Method.process] } := by
      have hp := process_noop (cbs d) now { drv := s.heap d, fs := s.fs, log := [] }
        (Or.inl hd)
      simp only [Sketch.call, hp, List.map_nil]
      congr 1
      funext a
      by_cases ha : a = d
      · simp [ha]
      · simp [ha]
    simp only [Sketch.callAll, List.foldl_cons] at ih ⊢
    rw [hcall, ih]
    · simp
    · intro a ha
      exact h a (List.mem_cons_of_mem _ ha)

/-- Any number of `process` calls of the registry on drivers that are all disabled runs no
process callback and changes no driver. -/
theorem ticks_disabled {σ α π : Type} (cbs : Nat → Callbacks σ) (nows : List Nat)
    (s : Sketch σ α π) (h : ∀ d ∈ s.edge._drivers, (s.heap d)._enable = false) :
    ∃ new, (nows.foldl (fun acc t => Edge.process cbs t acc) s).trace = s.trace ++ new ∧
      new.filterMap Entry.firedProcess = [] ∧
      (nows.foldl (fun acc t => Edge.process cbs t acc) s).heap = s.heap ∧
      (nows.foldl (fun acc t => Edge.process cbs t acc) s).edge = s.edge := by
  induction nows generalizing s with
  | nil => exact ⟨[], by simp, rfl, rfl, rfl⟩
  | cons t ts ih =>
    have hstep : Edge.process cbs t s =
        { s with trace := s.trace ++
          s.edge._drivers.map (fun d => Entry.call d Method.process) } :=
      callAll_process_disabled cbs t s.edge._drivers s h
    obtain ⟨new, h1, h2, h3, h4⟩ := ih (Edge.process cbs t s) (by rw [hstep]; exact h)
    refine ⟨s.edge._drivers.map (fun d => Entry.call d Method.process) ++ new, ?_, ?_, ?_, ?_⟩
    · rw [List.foldl_cons, h1, hstep]
      simp
    · rw [List.filterMap_append, h2, List.append_nil, List.filterMap_eq_nil_iff]
      intro e he
      simp only [List.mem_map] at he
      obtain ⟨d, _, rfl⟩ := he
      rfl
    · rw [List.foldl_cons, h3, hstep]
    · rw [List.foldl_cons, h4, hstep]

/-- With function objects that are empty or call a handler, `end` of the registry calls `end`
once on every entry of the driver list, in order, and leaves every registered driver disabled;
after it, `process` of the registry, called any number of times at any clock values, runs no
process callback and changes no driver. -/
theorem end_all_spec {σ α π : Type} (aj : ArduinoJson) (cbs : Nat → Callbacks σ)
    (nows : List Nat) (s : Sketch σ α π) :
    (∃ new, (Edge.end_ aj cbs s).trace = s.trace ++ new ∧
      new.filter Entry.isCall = s.edge._drivers.map (fun d => Entry.call d Method.end_)) ∧
    (∀ d ∈ s.edge._drivers, ((Edge.end_ aj cbs s).heap d)._enable = false) ∧
    (Edge.end_ aj cbs s).edge = s.edge ∧
    (∃ new, (nows.foldl (fun acc t => Edge.process cbs t acc) (Edge.end_ aj cbs s)).trace =
        (Edge.end_ aj cbs s).trace ++ new ∧
      new.filterMap Entry.firedProcess = [] ∧
      (nows.foldl (fun acc t => Edge.process cbs t acc) (Edge.end_ aj cbs s)).heap =
        (Edge.end_ aj cbs s).heap) := by
  have hdis : ∀ d ∈ s.edge._drivers, ((Edge.end_ aj cbs s).heap d)._enable = false :=
    callAll_disables _ _ (fun d w => end_disables aj (cbs d) w) _ s
  have hedge : (Edge.end_ aj cbs s).edge = s.edge := callAll_edge _ _ _ s
  refine ⟨callAll_calls _ _ _ s, hdis, hedge, ?_⟩
  obtain ⟨new, h1, h2, h3, _⟩ := ticks_disabled cbs nows (Edge.end_ aj cbs s)
    (by rw [hedge]; exact hdis)
  exact ⟨new, h1, h2, h3⟩

/-- Instance: after `end` of the registry with the drivers at 0, 1 and 2, three `process` calls
at the clock values 5, 600 and 100000 only record their nine calls. -/
theorem end_all_demo :
    ((Edge.end_ demoJson demoCbs demoSketch3).heap 0)._enable = false ∧
    ((Edge.end_ demoJson demoCbs demoSketch3).heap 2)._enable = false ∧
    ∃ new, ([5, 600, 100000].foldl (fun acc t => Edge.process demoCbs t acc)
        (Edge.end_ demoJson demoCbs demoSketch3)).trace =
        (Edge.end_ demoJson demoCbs demoSketch3).trace ++ new ∧
      new.filterMap Entry.firedProcess = [] := by
  obtain ⟨_, h2, _, new, h4, h5, _⟩ :=
    end_all_spec demoJson demoCbs [5, 600, 100000] demoSketch3
  exact ⟨h2 0 (by decide), h2 2 (by decide), new, h4, h5⟩

/-! ## Theorems: the update period of the MQTT example -/

/-- C29 (code evaluated at the failing input): whatever the other settings, the choices 1 and 2
(30 and 60 seconds) are stored as 30000 and 60000 and mapped back to 1 and 2; the choice 3
(180 seconds) is stored as 180000 and mapped back to 6, which is neither 3 nor one of the three
buttons. -/
theorem C29_period_180_maps_to_button_6 :
    ∀ data : MQTT_t,
      (auxMQTTStart_period 1 data).publishInterval = 30000 ∧
      auxMQTTSetting_period (auxMQTTStart_period 1 data) = 1 ∧
      (auxMQTTStart_period 2 data).publishInterval = 60000 ∧
      auxMQTTSetting_period (auxMQTTStart_period 2 data) = 2 ∧
      (auxMQTTStart_period 3 data).publishInterval = 180000 ∧
      auxMQTTSetting_period (auxMQTTStart_period 3 data) = 6 := by
  intro data
  have hM : ULONG_MOD = 4294967296 := by norm_num [ULONG_MOD]
  have h8 : UINT8_MOD = 256 := by norm_num [UINT8_MOD]
  simp only [auxMQTTStart_period, auxMQTTSetting_period, hM, h8]
  norm_num

/-! ## Theorems: `restore` and `save` of the registry -/

/-- A mount that fails leaves the store as it is. -/
theorem begin_fail (fs : FS) (hm : fs.mounted = false) (hb : fs.beginOk = false) :
    fs.begin = (false, fs) := by
  cases fs
  simp_all [FS.begin]

/-- `EdgeUnified::restore` has the common shape. -/
theorem restore_eq_batch {σ α π : Type} (aj : ArduinoJson) (cbs : Nat → Callbacks σ)
    (autoMount : Bool) (s : Sketch σ α π) :
    Edge.restore aj cbs autoMount s = Edge.batch (fun _ => Method.restore)
      (fun driver w => (EdgeDriverBase.restore aj (cbs driver) none w).2) autoMount s := rfl

/-- `EdgeUnified::save` has the common shape. -/
theorem save_eq_batch {σ α π : Type} (aj : ArduinoJson) (cbs : Nat → Callbacks σ)
    (autoMount : Bool) (s : Sketch σ α π) :
    Edge.save aj cbs autoMount s = Edge.batch (fun _ => Method.save)
      (fun driver w => (EdgeDriverBase.save aj (cbs driver) none w).2) autoMount s := rfl

/-- The batch when the store is not mounted and the mount fails: only the failed mount is
recorded. -/
theorem batch_mount_failed {σ α π : Type} (m : Nat → Method) (f : Nat → World σ → World σ)
    (s : Sketch σ α π) (hm : s.fs.mounted = false) (hb : s.fs.beginOk = false) :
    Edge.batch m f true s = { s with trace := s.trace ++ [Entry.mount false] } := by
  simp [Edge.batch, Edge.autoMountBegin, hm, begin_fail s.fs hm hb]

/-- The loop over the drivers keeps the mount state of the store when the member function
does. -/
theorem callAll_mounted {σ α π : Type} (m : Nat → Method) (f : Nat → World σ → World σ)
    (hf : ∀ d w, (f d w).fs.mounted = w.fs.mounted) (drivers : List Nat) (s : Sketch σ α π) :
    (Sketch.callAll m f drivers s).fs.mounted = s.fs.mounted := by
  induction drivers generalizing s with
  | nil => rfl
  | cons d ds ih =>
    simp only [Sketch.callAll, List.foldl_cons] at ih ⊢
    rw [ih]
    simp [Sketch.call, hf]

/-- The batch in every other case: an optional successful mount, then what the loop over the
drivers appends, then the unmount when `autoMount` is set. -/
theorem batch_runs {σ α π : Type} (m : Nat → Method) (f : Nat → World σ → World σ)
    (autoMount : Bool) (s : Sketch σ α π)
    (h : ¬ (autoMount = true ∧ s.fs.mounted = false ∧ s.fs.beginOk = false)) :
    ∃ new, (Edge.batch m f autoMount s).trace =
        s.trace ++ (if autoMount && !s.fs.mounted then [Entry.mount true] else []) ++ new ++
          (if autoMount then [Entry.unmount] else []) ∧
      (∀ (β : Type) (g : Entry → Option β) (G : Nat → List β),
        (∀ d (w : World σ), w.log = [] →
          (Entry.call d (m d) :: (f d w).log.map (Entry.event d)).filterMap g = G d) →
        new.filterMap g = s.edge._drivers.flatMap G) ∧
      ((∀ d w, (f d w).fs.mounted = w.fs.mounted) →
        (Edge.batch m f autoMount s).fs.mounted = (!autoMount && s.fs.mounted)) := by
  cases autoMount with
  | false =>
    obtain ⟨new, h1, h2⟩ := callAll_new m f s.edge._drivers s
    refine ⟨new, ?_, h2, ?_⟩
    · simp [Edge.batch, Edge.autoMountBegin, Edge.autoMountEnd, h1]
    · intro hf
      simp [Edge.batch, Edge.autoMountBegin, Edge.autoMountEnd, callAll_mounted m f hf]
  | true =>
    by_cases hm : s.fs.mounted = true
    · obtain ⟨new, h1, h2⟩ := callAll_new m f s.edge._drivers s
      refine ⟨new, ?_, h2, ?_⟩
      · simp [Edge.batch, Edge.autoMountBegin, Edge.autoMountEnd, hm, h1]
      · intro _
        simp [Edge.batch, Edge.autoMountBegin, Edge.autoMountEnd, hm, FS.end_]
    · have hm' : s.fs.mounted = false := by simpa using hm
      have hb : s.fs.beginOk = true := by
        by_contra hb
        exact h ⟨rfl, hm', by simpa using hb⟩
      obtain ⟨new, h1, h2⟩ := callAll_new m f s.edge._drivers
        ({ s with fs := (s.fs.begin).2, trace := s.trace ++ [Entry.mount true] } :
          Sketch σ α π)
      have hb1 : (s.fs.begin).1 = true := hb
      refine ⟨new, ?_, h2, ?_⟩
      · simp [Edge.batch, Edge.autoMountBegin, Edge.autoMountEnd, hm', hb1, h1]
      · intro _
        simp [Edge.batch, Edge.autoMountBegin, Edge.autoMountEnd, hm', hb1, FS.end_]

/-- One call and the events of its driver contain no mount and no unmount. -/
theorem call_no_mountOp (d : Nat) (m : Method) (evs : List Event) :
    (Entry.call d m :: evs.map (Entry.event d)).filter Entry.isMountOp = [] := by
  rw [List.filter_eq_nil_iff]
  intro e he
  rcases List.mem_cons.1 he with h | h
  · subst h; simp [Entry.isMountOp]
  · simp only [List.mem_map] at h
    obtain ⟨ev, _, rfl⟩ := h
    simp [Entry.isMountOp]

/-- One call and the events of its driver contain one call. -/
theorem call_one_call (d : Nat) (m : Method) (evs : List Event) :
    (Entry.call d m :: evs.map (Entry.event d)).filter Entry.isCall = [Entry.call d m] := by
  simp [List.filter_cons, Entry.isCall, filter_isCall_events]

/-- The events of transfers name no key of `restore` or `save`. -/
theorem transfer_no_key (d : Nat) (evs : List Event) (h : ∀ ev ∈ evs, ev.isTransfer = true) :
    (evs.map (Entry.event d)).filterMap Entry.restoreKey = [] ∧
    (evs.map (Entry.event d)).filterMap Entry.saveKey = [] := by
  constructor <;>
  · rw [List.filterMap_eq_nil_iff]
    intro e he
    simp only [List.mem_map] at he
    obtain ⟨ev, hev, rfl⟩ := he
    have := h ev hev
    cases ev <;> simp_all [Event.isTransfer, Entry.restoreKey, Entry.saveKey]

/-- A `restore` call of the registry enters `restore` of the driver once, with the default
key. -/
theorem restore_call_key {σ : Type} (aj : ArduinoJson) (c : Callbacks σ) (d : Nat)
    (w : World σ) (hw : w.log = []) :
    (Entry.call d Method.restore ::
      (EdgeDriverBase.restore aj c none w).2.log.map (Entry.event d)).filterMap
        Entry.restoreKey = [(d, none)] := by
  obtain ⟨evs, h1, h2⟩ := restore_log aj c none w
  rw [h1, hw]
  simp [List.filterMap_cons, Entry.restoreKey, (transfer_no_key d evs h2).1]

/-- A `save` call of the registry enters `save` of the driver once, with the default key. -/
theorem save_call_key {σ : Type} (aj : ArduinoJson) (c : Callbacks σ) (d : Nat)
    (w : World σ) (hw : w.log = []) :
    (Entry.call d Method.save ::
      (EdgeDriverBase.save aj c none w).2.log.map (Entry.event d)).filterMap
        Entry.saveKey = [(d, none)] := by
  obtain ⟨evs, h1, h2⟩ := save_log aj c none w
  rw [h1, hw]
  simp [List.filterMap_cons, Entry.saveKey, (transfer_no_key d evs h2).2]

/-- Keeping the entries that satisfy a test, written as a partial reading. -/
theorem filterMap_ite_eq_filter (p : Entry → Bool) (l : List Entry) :
    l.filterMap (fun e => if p e then some e else none) = l.filter p := by
  induction l with
  | nil => rfl
  | cons x xs ih =>
    by_cases hp : p x = true <;> simp [List.filterMap_cons, List.filter_cons, hp, ih]

/-- Flattening singletons gives the mapped list. -/
theorem flatMap_singleton_map {β : Type} (g : Nat → β) (l : List Nat) :
    l.flatMap (fun d => [g d]) = l.map g := by
  induction l with
  | nil => rfl
  | cons x xs ih => simp [List.flatMap_cons, ih]

/-- Flattening empty lists gives the empty list. -/
theorem flatMap_nil_fun {β : Type} (l : List Nat) :
    l.flatMap (fun _ => ([] : List β)) = [] := by
  induction l with
  | nil => rfl
  | cons x xs ih => simp [List.flatMap_cons, ih]

/-- What a batch that runs appends to the trace: the calls are one per driver in list order,
and the keys read by `key`, when each call enters its member function once with the default
key, are one default key per driver in list order. -/
theorem batch_calls {σ α π : Type} (m : Method) (f : Nat → World σ → World σ)
    (key : Entry → Option (Nat × Option String))
    (hkey : ∀ d (w : World σ), w.log = [] →
      (Entry.call d m :: (f d w).log.map (Entry.event d)).filterMap key = [(d, none)])
    (hmount : key (Entry.mount true) = none ∧ key Entry.unmount = none)
    (autoMount : Bool) (s : Sketch σ α π)
    (h : ¬ (autoMount = true ∧ s.fs.mounted = false ∧ s.fs.beginOk = false)) :
    ∃ new, (Edge.batch (fun _ => m) f autoMount s).trace = s.trace ++ new ∧
      new.filter Entry.isCall = s.edge._drivers.map (fun d => Entry.call d m) ∧
      new.filterMap key = s.edge._drivers.map (fun d => (d, (none : Option String))) := by
  obtain ⟨new, h1, h2, _⟩ := batch_runs (fun _ => m) f autoMount s h
  have hc := h2 Entry (fun e => if e.isCall then some e else none)
    (fun d => [Entry.call d m])
    (by
      intro d w _
      rw [filterMap_ite_eq_filter]
      exact call_one_call d m _)
  have hk := h2 _ key (fun d => [(d, none)]) hkey
  rw [flatMap_singleton_map] at hc hk
  refine ⟨(if autoMount && !s.fs.mounted then [Entry.mount true] else []) ++ new ++
    (if autoMount then [Entry.unmount] else []), by rw [h1]; simp, ?_, ?_⟩
  · rw [filterMap_ite_eq_filter] at hc
    rw [List.filter_append, List.filter_append, hc]
    cases autoMount <;> cases s.fs.mounted <;> simp [Entry.isCall]
  · rw [List.filterMap_append, List.filterMap_append, hk]
    cases autoMount <;> cases s.fs.mounted <;> simp [hmount.1, hmount.2]

/-- C26: with `autoMount` set on a store that is not mounted and whose mount fails, `restore`
and `save` of the registry only record the failed mount: no driver is called and drivers,
store and registry are unchanged. In every other case `restore` (`save`) of the driver is
called once on every entry of the driver list, in order, each time with the default key,
whatever the earlier calls returned. -/
theorem C26_restore_save_all {σ α π : Type} (aj : ArduinoJson) (cbs : Nat → Callbacks σ)
    (autoMount : Bool) (s : Sketch σ α π) :
    (autoMount = true → s.fs.mounted = false → s.fs.beginOk = false →
      Edge.restore aj cbs autoMount s = { s with trace := s.trace ++ [Entry.mount false] } ∧
      Edge.save aj cbs autoMount s = { s with trace := s.trace ++ [Entry.mount false] }) ∧
    (¬ (autoMount = true ∧ s.fs.mounted = false ∧ s.fs.beginOk = false) →
      (∃ new, (Edge.restore aj cbs autoMount s).trace = s.trace ++ new ∧
        new.filter Entry.isCall =
          s.edge._drivers.map (fun d => Entry.call d Method.restore) ∧
        new.filterMap Entry.restoreKey =
          s.edge._drivers.map (fun d => (d, (none : Option String)))) ∧
      (∃ new, (Edge.save aj cbs autoMount s).trace = s.trace ++ new ∧
        new.filter Entry.isCall =
          s.edge._drivers.map (fun d => Entry.call d Method.save) ∧
        new.filterMap Entry.saveKey =
          s.edge._drivers.map (fun d => (d, (none : Option String))))) := by
  refine ⟨?_, ?_⟩
  · intro ha hm hb
    subst ha
    rw [restore_eq_batch, save_eq_batch]
    exact ⟨batch_mount_failed _ _ s hm hb, batch_mount_failed _ _ s hm hb⟩
  · intro h
    rw [restore_eq_batch, save_eq_batch]
    exact ⟨batch_calls Method.restore _ Entry.restoreKey
        (fun d w hw => restore_call_key aj (cbs d) d w hw) ⟨rfl, rfl⟩ autoMount s h,
      batch_calls Method.save _ Entry.saveKey
        (fun d w hw => save_call_key aj (cbs d) d w hw) ⟨rfl, rfl⟩ autoMount s h⟩

/-- C26 instance: on the store that cannot be mounted `restore` with `autoMount` records only
the failed mount; on the store that can be mounted it calls `restore` on the drivers at 0 and
1. -/
theorem C26_restore_save_all_witness :
    (demoSketchNoMount.fs.mounted = false ∧ demoSketchNoMount.fs.beginOk = false) ∧
    ¬ ((true : Bool) = true ∧ demoSketchUnmounted.fs.mounted = false ∧
      demoSketchUnmounted.fs.beginOk = false) ∧
    (Edge.restore demoJson demoCbs true demoSketchNoMount).trace = [Entry.mount false] ∧
    ∃ new, (Edge.restore demoJson demoCbs true demoSketchUnmounted).trace =
        demoSketchUnmounted.trace ++ new ∧
      new.filter Entry.isCall =
        [Entry.call 0 Method.restore, Entry.call 1 Method.restore] := by
  have h1 := (C26_restore_save_all demoJson demoCbs true demoSketchNoMount).1 rfl rfl rfl
  obtain ⟨⟨new, h2, h3, _⟩, _⟩ :=
    (C26_restore_save_all demoJson demoCbs true demoSketchUnmounted).2 (by decide)
  refine ⟨⟨rfl, rfl⟩, by decide, ?_, new, h2, h3.trans (by decide)⟩
  rw [h1.1]
  decide

/-- `restore` of a driver keeps the mount state of the store. -/
theorem restore_mounted {σ : Type} (aj : ArduinoJson) (c : Callbacks σ) (w : World σ) :
    (EdgeDriverBase.restore aj c none w).2.fs.mounted = w.fs.mounted := by
  rw [restore_fs]

/-- `save` of a driver keeps the mount state of the store. -/
theorem save_mounted {σ : Type} (aj : ArduinoJson) (c : Callbacks σ) (w : World σ) :
    (EdgeDriverBase.save aj c none w).2.fs.mounted = w.fs.mounted := by
  by_cases hopen : w.fs.canOpenWrite (saveFileName c w.drv none) = true
  · cases hs : c._serializer <;> simp [EdgeDriverBase.save, hopen, hs, FS.put]
  · simp [EdgeDriverBase.save, hopen]

/-- The mounts and unmounts of a batch: with `autoMount` set and a store that is mounted or can
be mounted, the unmount is the last entry and the only unmount, and the store is left
unmounted; without `autoMount` there is neither mount nor unmount and the mount state is
kept. -/
theorem batch_mountOps {σ α π : Type} (m : Nat → Method) (f : Nat → World σ → World σ)
    (hf : ∀ d w, (f d w).fs.mounted = w.fs.mounted) (s : Sketch σ α π) :
    ((s.fs.mounted = true ∨ s.fs.beginOk = true) →
      (∃ body, (Edge.batch m f true s).trace = s.trace ++ body ++ [Entry.unmount] ∧
        Entry.unmount ∉ body) ∧
      (Edge.batch m f true s).fs.mounted = false) ∧
    (∃ new, (Edge.batch m f false s).trace = s.trace ++ new ∧
      new.filter Entry.isMountOp = []) ∧
    (Edge.batch m f false s).fs.mounted = s.fs.mounted := by
  have hnone : ∀ (am : Bool) (h : ¬ (am = true ∧ s.fs.mounted = false ∧ s.fs.beginOk = false)),
      ∃ new, (Edge.batch m f am s).trace =
        s.trace ++ (if am && !s.fs.mounted then [Entry.mount true] else []) ++ new ++
          (if am then [Entry.unmount] else []) ∧
        new.filter Entry.isMountOp = [] ∧
        (Edge.batch m f am s).fs.mounted = (!am && s.fs.mounted) := by
    intro am h
    obtain ⟨new, h1, h2, h3⟩ := batch_runs m f am s h
    refine ⟨new, h1, ?_, h3 hf⟩
    have := h2 Entry (fun e => if e.isMountOp then some e else none) (fun _ => [])
      (by
        intro d w _
        rw [filterMap_ite_eq_filter]
        exact call_no_mountOp d (m d) _)
    rw [filterMap_ite_eq_filter, flatMap_nil_fun] at this
    exact this
  refine ⟨?_, ?_, ?_⟩
  · intro hok
    obtain ⟨new, h1, h2, h3⟩ := hnone true (by
      rintro ⟨_, hm, hb⟩
      rcases hok with h | h
      · rw [hm] at h; cases h
      · rw [hb] at h; cases h)
    refine ⟨⟨(if true && !s.fs.mounted then [Entry.mount true] else []) ++ new, ?_, ?_⟩, ?_⟩
    · rw [h1]; simp
    · intro hmem
      rcases List.mem_append.1 hmem with h | h
      · cases s.fs.mounted <;> simp at h
      · have : Entry.unmount ∈ new.filter Entry.isMountOp :=
          List.mem_filter.2 ⟨h, rfl⟩
        rw [h2] at this
        cases this
    · simpa using h3
  · obtain ⟨new, h1, h2, _⟩ := hnone false (by simp)
    exact ⟨new, by simpa using h1, h2⟩
  · obtain ⟨_, _, _, h3⟩ := hnone false (by simp)
    simpa using h3

/-- C27 (counterexample): the store is not mounted and cannot be mounted. `restore` and `save`
of the registry with `autoMount` set record the failed mount and return: no unmount is
performed. -/
theorem C27_counterexample_failed_mount_no_unmount :
    demoSketchNoMount.fs.mounted = false ∧ demoSketchNoMount.fs.beginOk = false ∧
    (Edge.restore demoJson demoCbs true demoSketchNoMount).trace = [Entry.mount false] ∧
    (Edge.save demoJson demoCbs true demoSketchNoMount).trace = [Entry.mount false] ∧
    Entry.unmount ∉ (Edge.restore demoJson demoCbs true demoSketchNoMount).trace ∧
    Entry.unmount ∉ (Edge.save demoJson demoCbs true demoSketchNoMount).trace := by
  decide

/-- C27 (amended): with `autoMount` set and a store that is mounted or whose mount succeeds,
`restore` and `save` of the registry end with the unmount, their only one, and leave the store
unmounted; on the early return taken when the mount fails they record the failed mount only
and leave the store as it was, unmounted; without `autoMount` they perform neither mount nor
unmount and keep the mount state of the store. -/
theorem C27_scoped_mount {σ α π : Type} (aj : ArduinoJson) (cbs : Nat → Callbacks σ)
    (s : Sketch σ α π) :
    ((s.fs.mounted = true ∨ s.fs.beginOk = true) →
      ((∃ body, (Edge.restore aj cbs true s).trace = s.trace ++ body ++ [Entry.unmount] ∧
          Entry.unmount ∉ body) ∧
        (Edge.restore aj cbs true s).fs.mounted = false) ∧
      ((∃ body, (Edge.save aj cbs true s).trace = s.trace ++ body ++ [Entry.unmount] ∧
          Entry.unmount ∉ body) ∧
        (Edge.save aj cbs true s).fs.mounted = false)) ∧
    (s.fs.mounted = false → s.fs.beginOk = false →
      (Edge.restore aj cbs true s).trace = s.trace ++ [Entry.mount false] ∧
      (Edge.restore aj cbs true s).fs = s.fs ∧
      (Edge.save aj cbs true s).trace = s.trace ++ [Entry.mount false] ∧
      (Edge.save aj cbs true s).fs = s.fs) ∧
    ((∃ new, (Edge.restore aj cbs false s).trace = s.trace ++ new ∧
        new.filter Entry.isMountOp = []) ∧
      (Edge.restore aj cbs false s).fs.mounted = s.fs.mounted) ∧
    ((∃ new, (Edge.save aj cbs false s).trace = s.trace ++ new ∧
        new.filter Entry.isMountOp = []) ∧
      (Edge.save aj cbs false s).fs.mounted = s.fs.mounted) := by
  have hr := batch_mountOps (fun _ => Method.restore)
    (fun driver w => (EdgeDriverBase.restore aj (cbs driver) none w).2)
    (fun d w => restore_mounted aj (cbs d) w) s
  have hs := batch_mountOps (fun _ => Method.save)
    (fun driver w => (EdgeDriverBase.save aj (cbs driver) none w).2)
    (fun d w => save_mounted aj (cbs d) w) s
  simp only [← restore_eq_batch] at hr
  simp only [← save_eq_batch] at hs
  refine ⟨fun hok => ⟨hr.1 hok, hs.1 hok⟩, ?_, ⟨hr.2.1, hr.2.2⟩, ⟨hs.2.1, hs.2.2⟩⟩
  intro hm hb
  have h1 := batch_mount_failed (fun _ => Method.restore)
    (fun driver w => (EdgeDriverBase.restore aj (cbs driver) none w).2) s hm hb
  have h2 := batch_mount_failed (fun _ => Method.save)
    (fun driver w => (EdgeDriverBase.save aj (cbs driver) none w).2) s hm hb
  rw [← restore_eq_batch] at h1
  rw [← save_eq_batch] at h2
  rw [h1, h2]
  exact ⟨rfl, rfl, rfl, rfl⟩

/-- C27 instance: on the store that is not mounted but can be mounted, `save` with `autoMount`
mounts, saves both drivers, unmounts last and leaves the store unmounted. -/
theorem C27_scoped_mount_witness :
    (demoSketchUnmounted.fs.mounted = true ∨ demoSketchUnmounted.fs.beginOk = true) ∧
    (∃ body, (Edge.save demoJson demoCbs true demoSketchUnmounted).trace =
      demoSketchUnmounted.trace ++ body ++ [Entry.unmount] ∧ Entry.unmount ∉ body) ∧
    (Edge.save demoJson demoCbs true demoSketchUnmounted).fs.mounted = false :=
  have hok : demoSketchUnmounted.fs.mounted = true ∨ demoSketchUnmounted.fs.beginOk = true :=
    Or.inr rfl
  have h := (C27_scoped_mount demoJson demoCbs demoSketchUnmounted).1 hok
  ⟨hok, h.2.1, h.2.2⟩

/-! ## Theorems: pages, the pending queue and the portal -/

/-- For every in-memory source the prefix scan of `join` stays inside the source and its
terminator. It ends with `diff` 0 exactly when the source has at least five characters and the
first five, mapped to lower case, are "file:"; in that case the scan has consumed exactly those
five characters and the name opened on the file system is the rest of the source. -/
theorem protocolScan_spec (json : String) :
    ∃ diff jsonIn, protocolScan json ED_AUXJSONPROTOCOL_FILE.data 0 0 = some (diff, jsonIn) ∧
      jsonIn ≤ json.data.length + 1 ∧
      (diff = 0 ↔ 5 ≤ json.data.length ∧
        (json.data.take 5).map (fun c => tolower (c.toNat : Int)) =
          ED_AUXJSONPROTOCOL_FILE.data.map (fun p => (p.toNat : Int))) ∧
      (diff = 0 → jsonIn = 5 ∧ jsonFileName json = some (String.mk (json.data.drop 5))) ∧
      (diff ≠ 0 → jsonFileName json = none) := by
  obtain ⟨l⟩ := json
  have hp : ED_AUXJSONPROTOCOL_FILE.data = ['f', 'i', 'l', 'e', ':'] := by decide
  have hcodes : (['f', 'i', 'l', 'e', ':'] : List Char).map (fun p => (p.toNat : Int)) =
      [102, 105, 108, 101, 58] := by decide
  rw [hp, hcodes]
  have h0 : tolower 0 = 0 := by simp [tolower]
  cases hscan : protocolScan ⟨l⟩ ['f', 'i', 'l', 'e', ':'] 0 0 with
  | none =>
    exfalso
    rcases l with _ | ⟨a, _ | ⟨b, _ | ⟨c, _ | ⟨d, _ | ⟨e, rest⟩⟩⟩⟩⟩ <;>
      simp [protocolScan, charAt, h0] at hscan <;> (try split_ifs at hscan)
  | some r =>
    obtain ⟨diff, jsonIn⟩ := r
    refine ⟨diff, jsonIn, rfl, ?_⟩
    have hname : jsonFileName ⟨l⟩ =
        if diff = 0 then some (String.mk (l.drop jsonIn)) else none := by
      simp [jsonFileName, hp, hscan]
    rw [hname]
    rcases l with _ | ⟨a, _ | ⟨b, _ | ⟨c, _ | ⟨d, _ | ⟨e, rest⟩⟩⟩⟩⟩ <;>
      simp [protocolScan, charAt, h0] at hscan <;> (try split_ifs at hscan) <;>
      (try obtain ⟨rfl, rfl⟩ := hscan) <;> simp_all <;> omega

/-- Joining the pages of a list one after the other puts them behind the pages of the
host. -/
theorem foldl_join_pages (l : List AutoConnectAux) (host : AutoConnect) :
    (l.foldl AutoConnect.join host).pages = host.pages ++ l := by
  induction l generalizing host with
  | nil => simp
  | cons a as ih => simp [List.foldl_cons, ih, AutoConnect.join]

/-- One round of `join` for a page with a source that loads and a handler, while no host is
bound and a page object can be allocated: the page is appended to the queue. -/
theorem joinPage_queues {σ : Type} (load : String → Option String) (p : Program σ)
    (page : EdgeAux) (text uri : String) (handler n : Nat)
    (hnone : p.sketch.edge._portal = none)
    (htext : Edge.jsonInput p.sketch.fs page = some text) (hload : load text = some uri)
    (hh : page.auxHandler = some handler) (hfree : p.auxFree = n + 1) :
    Edge.joinPage load p page =
      { p with
        sketch := { p.sketch with
          edge := { p.sketch.edge with
            _auxQueue := p.sketch.edge._auxQueue ++
              [{ uri := uri, text := text, handler := some handler }] } }
        auxFree := n } := by
  simp [Edge.joinPage, htext, hfree, hload, hh, hnone]

/-- The input source of a page with an in-memory source, in terms of the name `join` opens. -/
theorem jsonInput_json (fs : FS) (json : String) (json_p : Option String)
    (auxHandler : Option Nat) :
    Edge.jsonInput fs { json := some json, json_p := json_p, auxHandler := auxHandler } =
      match jsonFileName json with
      | some name =>
        match fs.openRead name with
        | some content => if content.length = 0 then none else some (textOfBytes content)
        | none => none
      | none => some json := by
  simp [Edge.jsonInput]

/-- C28: for every in-memory source the prefix scan of `join` stays inside the source and its
terminator, and it ends with `diff` 0 exactly when the source has at least five characters and
the first five, mapped to lower case, are "file:". In that case `join` opens on the file system
the rest of the source after those five characters and nothing else: the page is skipped when
that open fails or the file is empty, and otherwise it is loaded from the content of that file;
a handler given, no host bound and a page object free, it is queued with that content as its
text. In the other case no file is opened and the page is loaded from the source itself. -/
theorem C28_file_protocol {σ : Type} (json : String) (json_p : Option String)
    (auxHandler : Option Nat) (load : String → Option String) (p : Program σ) :
    ∃ diff jsonIn, protocolScan json ED_AUXJSONPROTOCOL_FILE.data 0 0 = some (diff, jsonIn) ∧
      jsonIn ≤ json.data.length + 1 ∧
      (diff = 0 ↔ 5 ≤ json.data.length ∧
        (json.data.take 5).map (fun c => tolower (c.toNat : Int)) =
          ED_AUXJSONPROTOCOL_FILE.data.map (fun p => (p.toNat : Int))) ∧
      (diff = 0 → jsonIn = 5 ∧ jsonFileName json = some (String.mk (json.data.drop 5))) ∧
      (diff ≠ 0 → jsonFileName json = none) ∧
      (diff = 0 →
        Edge.jsonInput p.sketch.fs
            { json := some json, json_p := json_p, auxHandler := auxHandler } =
          (match p.sketch.fs.openRead (String.mk (json.data.drop 5)) with
            | some content => if content.length = 0 then none else some (textOfBytes content)
            | none => none) ∧
        ((p.sketch.fs.openRead (String.mk (json.data.drop 5)) = none ∨
            p.sketch.fs.openRead (String.mk (json.data.drop 5)) = some []) →
          Edge.joinPage load p
            { json := some json, json_p := json_p, auxHandler := auxHandler } = p) ∧
        (∀ content uri handler n,
          p.sketch.fs.openRead (String.mk (json.data.drop 5)) = some content →
          content ≠ [] → load (textOfBytes content) = some uri →
          auxHandler = some handler → p.sketch.edge._portal = none → p.auxFree = n + 1 →
          Edge.joinPage load p
              { json := some json, json_p := json_p, auxHandler := auxHandler } =
            { p with
              sketch := { p.sketch with
                edge := { p.sketch.edge with
                  _auxQueue := p.sketch.edge._auxQueue ++
                    [{ uri := uri, text := textOfBytes content, handler := some handler }] } }
              auxFree := n })) ∧
      (diff ≠ 0 →
        Edge.jsonInput p.sketch.fs
            { json := some json, json_p := json_p, auxHandler := auxHandler } = some json ∧
        (∀ uri handler n, load json = some uri →
          auxHandler = some handler → p.sketch.edge._portal = none → p.auxFree = n + 1 →
          Edge.joinPage load p
              { json := some json, json_p := json_p, auxHandler := auxHandler } =
            { p with
              sketch := { p.sketch with
                edge := { p.sketch.edge with
                  _auxQueue := p.sketch.edge._auxQueue ++
                    [{ uri := uri, text := json, handler := some handler }] } }
              auxFree := n })) := by
  obtain ⟨diff, jsonIn, h1, h2, h3, h4, h5⟩ := protocolScan_spec json
  refine ⟨diff, jsonIn, h1, h2, h3, h4, h5, ?_, ?_⟩
  · intro hd
    have hname := (h4 hd).2
    have hin := jsonInput_json p.sketch.fs json json_p auxHandler
    rw [hname] at hin
    dsimp only at hin
    refine ⟨hin, ?_, ?_⟩
    · intro hopen
      have hnone : Edge.jsonInput p.sketch.fs
          { json := some json, json_p := json_p, auxHandler := auxHandler } = none := by
        rw [hin]
        rcases hopen with hopen | hopen <;> simp [hopen]
      simp [Edge.joinPage, hnone]
    · intro content uri handler n hopen hne hload hh hnone hfree
      have htext : Edge.jsonInput p.sketch.fs
          { json := some json, json_p := json_p, auxHandler := auxHandler } =
          some (textOfBytes content) := by
        rw [hin, hopen]
        have : content.length ≠ 0 := by
          intro h0
          exact hne (List.length_eq_zero.1 h0)
        simp [this]
      exact joinPage_queues load p _ (textOfBytes content) uri handler n hnone htext hload hh
        hfree
  · intro hd
    have hname := h5 hd
    have hin := jsonInput_json p.sketch.fs json json_p auxHandler
    rw [hname] at hin
    dsimp only at hin
    refine ⟨hin, ?_⟩
    intro uri handler n hload hh hnone hfree
    exact joinPage_queues load p _ json uri handler n hnone hin hload hh hfree

/-- C28 instance: "FILE:/page.json" makes `join` open "/page.json", and the page is queued
with the text of that file; "File:/none.json" and "file:/empty.json" name a missing and an
empty file, and the page is skipped; "files", "fil" and a description are no file references,
and the description is queued as it is. -/
theorem C28_file_protocol_witness :
    jsonFileName "FILE:/page.json" = some "/page.json" ∧
    (Edge.joinPage demoLoad demoPageProgram
      { json := some "FILE:/page.json", json_p := none,
        auxHandler := some 1 }).sketch.edge._auxQueue =
      [{ uri := "/f", text := "\x7b/f", handler := some 1 }] ∧
    (Edge.joinPage demoLoad demoPageProgram
      { json := some "File:/none.json", json_p := none,
        auxHandler := some 1 }).sketch.edge._auxQueue = [] ∧
    (Edge.joinPage demoLoad demoPageProgram
      { json := some "file:/empty.json", json_p := none,
        auxHandler := some 1 }).sketch.edge._auxQueue = [] ∧
    jsonFileName "fil" = none ∧ jsonFileName "files" = none ∧
    (Edge.joinPage demoLoad demoPageProgram
      { json := some "\x7b/a", json_p := none,
        auxHandler := some 1 }).sketch.edge._auxQueue =
      [{ uri := "/a", text := "\x7b/a", handler := some 1 }] := by
  obtain ⟨diff, jsonIn, _, _, hiff, hname, _, hfile, _⟩ :=
    C28_file_protocol "FILE:/page.json" none (some 1) demoLoad demoPageProgram
  have hd : diff = 0 := hiff.2 (by decide)
  have hq := (hfile hd).2.2 [123, 47, 102] "/f" 1 7 (by decide) (by decide) (by decide) rfl
    rfl rfl
  refine ⟨(hname hd).2.trans (by decide), ?_, by decide, by decide, by decide, by decide,
    by decide⟩
  rw [hq]
  decide

/-- What `portal` does: the host bound before stays, otherwise the given host is bound; the
queue is delivered to the bound host in order and left empty; no other host changes. -/
theorem portal_spec {σ : Type} (portal : Nat) (p : Program σ) :
    (Edge.portal portal p).sketch.edge._portal =
      some (p.sketch.edge._portal.getD portal) ∧
    (Edge.portal portal p).sketch.edge._auxQueue = [] ∧
    ((Edge.portal portal p).hosts (p.sketch.edge._portal.getD portal)).pages =
      (p.hosts (p.sketch.edge._portal.getD portal)).pages ++ p.sketch.edge._auxQueue ∧
    (∀ a, a ≠ p.sketch.edge._portal.getD portal → (Edge.portal portal p).hosts a = p.hosts a) ∧
    (Edge.portal portal p).sketch.edge._drivers = p.sketch.edge._drivers := by
  cases hp : p.sketch.edge._portal with
  | none =>
    cases hq : p.sketch.edge._auxQueue with
    | nil => simp [Edge.portal, hp, hq]
    | cons x xs =>
      refine ⟨?_, ?_, ?_, ?_, ?_⟩
      · simp [Edge.portal, hp, hq]
      · simp [Edge.portal, hp, hq]
      · simp [Edge.portal, hp, hq, foldl_join_pages, AutoConnect.join]
      · intro a ha
        have ha' : a ≠ portal := by simpa using ha
        simp [Edge.portal, hp, hq, ha']
      · simp [Edge.portal, hp, hq]
  | some h =>
    cases hq : p.sketch.edge._auxQueue with
    | nil => simp [Edge.portal, hp, hq]
    | cons x xs =>
      refine ⟨?_, ?_, ?_, ?_, ?_⟩
      · simp [Edge.portal, hp, hq]
      · simp [Edge.portal, hp, hq]
      · simp [Edge.portal, hp, hq, foldl_join_pages, AutoConnect.join]
      · intro a ha
        have ha' : a ≠ h := by simpa using ha
        simp [Edge.portal, hp, hq, ha']
      · simp [Edge.portal, hp, hq]

/-- Pages with a source that loads and a handler, joined while no host is bound and page
objects can be allocated, are appended to the queue in order; nothing else changes but the
number of free page objects. -/
theorem join_queues {σ : Type} (load : String → Option String) (pages : List EdgeAux)
    (p : Program σ) (hnone : p.sketch.edge._portal = none)
    (hpages : ∀ page ∈ pages, page.auxHandler.isSome = true ∧
      ((Edge.jsonInput p.sketch.fs page).bind load).isSome = true)
    (hfree : pages.length ≤ p.auxFree) :
    ∃ auxes : List AutoConnectAux,
      auxes.map (fun a => a.handler) = pages.map (fun page => page.auxHandler) ∧
      auxes.map (fun a => some a.text) = pages.map (Edge.jsonInput p.sketch.fs) ∧
      auxes.map (fun a => some a.uri) =
        pages.map (fun page => (Edge.jsonInput p.sketch.fs page).bind load) ∧
      Edge.join load pages p =
        { p with
          sketch := { p.sketch with
            edge := { p.sketch.edge with _auxQueue := p.sketch.edge._auxQueue ++ auxes } }
          auxFree := p.auxFree - pages.length } := by
  induction pages generalizing p with
  | nil => exact ⟨[], rfl, rfl, rfl, by simp [Edge.join]⟩
  | cons page rest ih =>
    obtain ⟨hh, hl⟩ := hpages page (List.mem_cons_self _ _)
    obtain ⟨handler, hh⟩ := Option.isSome_iff_exists.1 hh
    obtain ⟨uri, hl⟩ := Option.isSome_iff_exists.1 hl
    cases htext : Edge.jsonInput p.sketch.fs page with
    | none => simp [htext] at hl
    | some text =>
      have hload : load text = some uri := by simpa [htext] using hl
      obtain ⟨n, hn⟩ : ∃ n, p.auxFree = n + 1 := by
        simp only [List.length_cons] at hfree
        exact ⟨p.auxFree - 1, by omega⟩
      have hstep := joinPage_queues load p page text uri handler n hnone htext hload hh hn
      obtain ⟨auxes, a1, a2, a3, a4⟩ := ih (Edge.joinPage load p page)
        (by rw [hstep]; exact hnone)
        (by
          intro pg hpg
          rw [hstep]
          exact hpages pg (List.mem_cons_of_mem _ hpg))
        (by
          rw [hstep]
          simp only [List.length_cons] at hfree
          show rest.length ≤ n
          omega)
      refine ⟨{ uri := uri, text := text, handler := some handler } :: auxes, ?_, ?_, ?_, ?_⟩
      · simp [a1, hh]
      · rw [hstep] at a2
        simp [a2, htext]
      · rw [hstep] at a3
        simp [a3, htext, hload]
      · simp only [Edge.join, List.foldl_cons] at a4 ⊢
        rw [a4, hstep]
        simp only [List.length_cons, List.append_assoc, List.singleton_append]
        congr 1
        omega

/-- C23: pages that each have a source that loads and a handler, joined while no host is bound
and page objects can be allocated, are appended to the pending queue in join order and no host
receives anything; a following `portal(host)` binds the host, joins to it exactly the queued
pages, each once and in that order, leaves the queue empty and changes no other host. -/
theorem C23_join_then_portal {σ : Type} (load : String → Option String)
    (pages : List EdgeAux) (host : Nat) (p : Program σ)
    (hnone : p.sketch.edge._portal = none)
    (hpages : ∀ page ∈ pages, page.auxHandler.isSome = true ∧
      ((Edge.jsonInput p.sketch.fs page).bind load).isSome = true)
    (hfree : pages.length ≤ p.auxFree) :
    ∃ auxes : List AutoConnectAux,
      auxes.map (fun a => a.handler) = pages.map (fun page => page.auxHandler) ∧
      auxes.map (fun a => some a.text) = pages.map (Edge.jsonInput p.sketch.fs) ∧
      auxes.map (fun a => some a.uri) =
        pages.map (fun page => (Edge.jsonInput p.sketch.fs page).bind load) ∧
      (Edge.join load pages p).sketch.edge._auxQueue = p.sketch.edge._auxQueue ++ auxes ∧
      (Edge.join load pages p).hosts = p.hosts ∧
      (Edge.join load pages p).sketch.edge._portal = none ∧
      (Edge.portal host (Edge.join load pages p)).sketch.edge._portal = some host ∧
      (Edge.portal host (Edge.join load pages p)).sketch.edge._auxQueue = [] ∧
      ((Edge.portal host (Edge.join load pages p)).hosts host).pages =
        (p.hosts host).pages ++ (p.sketch.edge._auxQueue ++ auxes) ∧
      (∀ a, a ≠ host → (Edge.portal host (Edge.join load pages p)).hosts a = p.hosts a) := by
  obtain ⟨auxes, a1, a2, a3, a4⟩ := join_queues load pages p hnone hpages hfree
  have hq : (Edge.join load pages p).sketch.edge._auxQueue =
      p.sketch.edge._auxQueue ++ auxes := by rw [a4]
  have hh : (Edge.join load pages p).hosts = p.hosts := by rw [a4]
  have hp : (Edge.join load pages p).sketch.edge._portal = none := by rw [a4]; exact hnone
  obtain ⟨b1, b2, b3, b4, _⟩ := portal_spec host (Edge.join load pages p)
  rw [hp] at b1 b3 b4
  simp only [Option.getD_none] at b1 b3 b4
  refine ⟨auxes, a1, a2, a3, hq, hh, hp, b1, b2, ?_, ?_⟩
  · rw [b3, hh, hq]
  · intro a ha
    rw [b4 a ha, hh]

/-- C23 instance: two pages are joined to the program without host; both are queued in join
order, and `portal(1)` joins them to the host at 1 in that order and empties the queue. -/
theorem C23_join_then_portal_witness :
    demoProgram.sketch.edge._portal = none ∧
    (∀ page ∈ demoPages, page.auxHandler.isSome = true ∧
      ((Edge.jsonInput demoProgram.sketch.fs page).bind demoLoad).isSome = true) ∧
    demoPages.length ≤ demoProgram.auxFree ∧
    (Edge.join demoLoad demoPages demoProgram).sketch.edge._auxQueue =
      [{ uri := "/a", text := "\x7b/a", handler := some 1 },
       { uri := "/b", text := "\x7b/b", handler := some 2 }] ∧
    (Edge.portal 1 (Edge.join demoLoad demoPages demoProgram)).sketch.edge._auxQueue = [] ∧
    ((Edge.portal 1 (Edge.join demoLoad demoPages demoProgram)).hosts 1).pages =
      [{ uri := "/a", text := "\x7b/a", handler := some 1 },
       { uri := "/b", text := "\x7b/b", handler := some 2 }] := by
  obtain ⟨auxes, _, _, _, h4, _, _, _, h8, h9, _⟩ :=
    C23_join_then_portal demoLoad demoPages 1 demoProgram rfl (by decide) (by decide)
  have hq : (Edge.join demoLoad demoPages demoProgram).sketch.edge._auxQueue =
      [{ uri := "/a", text := "\x7b/a", handler := some 1 },
       { uri := "/b", text := "\x7b/b", handler := some 2 }] := by decide
  refine ⟨rfl, by decide, by decide, hq, h8, ?_⟩
  rw [h9, ← h4, hq]
  rfl

/-- C24 (code evaluated at the failing input): a page with a source that loads and no handler.
Joined while no host is bound it is not appended to the queue, and joined while the host at 1
is bound it is not joined to the host; in both cases the page object that was allocated is
neither kept nor freed. The same source with a handler is queued and joined. -/
theorem C24_join_without_handler_drops_page :
    Edge.jsonInput demoProgram.sketch.fs demoPageNoHandler = some "\x7b/c" ∧
    demoLoad "\x7b/c" = some "/c" ∧
    (Edge.join demoLoad [demoPageNoHandler] demoProgram).sketch.edge._auxQueue = [] ∧
    (Edge.join demoLoad [demoPageNoHandler] demoProgram).auxFree = 7 ∧
    ((Edge.join demoLoad [demoPageNoHandler] (Edge.portal 1 demoProgram)).hosts 1).pages = [] ∧
    (Edge.join demoLoad [demoPageNoHandler] (Edge.portal 1 demoProgram)).auxFree = 7 ∧
    (Edge.join demoLoad [{ demoPageNoHandler with auxHandler := some 3 }]
      demoProgram).sketch.edge._auxQueue =
      [{ uri := "/c", text := "\x7b/c", handler := some 3 }] ∧
    ((Edge.join demoLoad [{ demoPageNoHandler with auxHandler := some 3 }]
      (Edge.portal 1 demoProgram)).hosts 1).pages =
      [{ uri := "/c", text := "\x7b/c", handler := some 3 }] := by
  decide

/-! ## Theorems: the portal is bound once -/

/-- `attach` of a list keeps the host of the registry. -/
theorem attach_many_portal {σ α π : Type} (aj : ArduinoJson) (cbs : Nat → Callbacks σ)
    (now : Nat) (drivers : List Nat) (s : Sketch σ α π) :
    (Edge.attach_many aj cbs now drivers s).edge._portal = s.edge._portal := by
  induction drivers generalizing s with
  | nil => rfl
  | cons d ds ih =>
    simp only [Edge.attach_many, List.foldl_cons] at ih ⊢
    rw [ih]
    rfl

/-- A batch keeps the registry. -/
theorem batch_edge {σ α π : Type} (m : Nat → Method) (f : Nat → World σ → World σ)
    (autoMount : Bool) (s : Sketch σ α π) : (Edge.batch m f autoMount s).edge = s.edge := by
  cases autoMount with
  | false => simp [Edge.batch, Edge.autoMountBegin, Edge.autoMountEnd, callAll_edge]
  | true =>
    by_cases hm : s.fs.mounted = true
    · simp [Edge.batch, Edge.autoMountBegin, Edge.autoMountEnd, hm, callAll_edge]
    · have hm' : s.fs.mounted = false := by simpa using hm
      by_cases hb : (s.fs.begin).1 = true
      · simp [Edge.batch, Edge.autoMountBegin, Edge.autoMountEnd, hm', hb, callAll_edge]
      · have hb' : (s.fs.begin).1 = false := by simpa using hb
        simp [Edge.batch, Edge.autoMountBegin, hm', hb']

/-- One round of `join` keeps the host of the registry. -/
theorem joinPage_portal {σ : Type} (load : String → Option String) (p : Program σ)
    (page : EdgeAux) :
    (Edge.joinPage load p page).sketch.edge._portal = p.sketch.edge._portal := by
  unfold Edge.joinPage
  split
  · rfl
  · split
    · rfl
    · split
      · split
        · split
          · split <;> rfl
          · rfl
        · rfl
      · rfl

/-- `join` keeps the host of the registry. -/
theorem join_portal {σ : Type} (load : String → Option String) (pages : List EdgeAux)
    (p : Program σ) :
    (Edge.join load pages p).sketch.edge._portal = p.sketch.edge._portal := by
  induction pages generalizing p with
  | nil => rfl
  | cons page rest ih =>
    simp only [Edge.join, List.foldl_cons] at ih ⊢
    rw [ih, joinPage_portal]

/-- Once a host is bound, no member function of the registry replaces it. -/
theorem step_portal {σ : Type} (aj : ArduinoJson) (load : String → Option String)
    (cbs : Nat → Callbacks σ) (p : Program σ) (op : Op) (host : Nat)
    (h : p.sketch.edge._portal = some host) :
    (Edge.step aj load cbs p op).sketch.edge._portal = some host := by
  have hport : ∀ portal, (Edge.portal portal p).sketch.edge._portal = some host := by
    intro portal
    rw [(portal_spec portal p).1, h]
    rfl
  cases op with
  | abort error =>
    show (Edge.abort cbs error p.sketch).edge._portal = some host
    rw [show (Edge.abort cbs error p.sketch).edge = p.sketch.edge from callAll_edge _ _ _ _]
    exact h
  | attach driver interval now => exact h
  | attach_many drivers now =>
    show (Edge.attach_many aj cbs now drivers p.sketch).edge._portal = some host
    rw [attach_many_portal]
    exact h
  | detach driver => exact h
  | end_ =>
    show (Edge.end_ aj cbs p.sketch).edge._portal = some host
    rw [show (Edge.end_ aj cbs p.sketch).edge = p.sketch.edge from callAll_edge _ _ _ _]
    exact h
  | join pages =>
    show (Edge.join load pages p).sketch.edge._portal = some host
    rw [join_portal]
    exact h
  | portal portal => exact hport portal
  | process_portal portal now =>
    show (Edge.process cbs now (Edge.portal portal p).sketch).edge._portal = some host
    rw [show (Edge.process cbs now (Edge.portal portal p).sketch).edge =
      (Edge.portal portal p).sketch.edge from callAll_edge _ _ _ _]
    exact hport portal
  | process now =>
    show (Edge.process cbs now p.sketch).edge._portal = some host
    rw [show (Edge.process cbs now p.sketch).edge = p.sketch.edge from callAll_edge _ _ _ _]
    exact h
  | release uri =>
    show (Edge.release uri p).2.sketch.edge._portal = some host
    simp [Edge.release, h]
  | restore autoMount =>
    show (Edge.restore aj cbs autoMount p.sketch).edge._portal = some host
    rw [restore_eq_batch, batch_edge]
    exact h
  | save autoMount =>
    show (Edge.save aj cbs autoMount p.sketch).edge._portal = some host
    rw [save_eq_batch, batch_edge]
    exact h
  | server => exact h

/-- C25: the first `portal(h1)`, called while no host is bound, binds `h1`; after that, in the
state reached by any sequence of calls of member functions of the registry, the bound host
is `h1`; a later `portal(h2)` leaves `h1` bound, joins the pages then pending to `h1`, empties
the queue and, when `h2` differs from `h1`, leaves `h2` as it is. -/
theorem C25_portal_bound_once {σ : Type} (aj : ArduinoJson) (load : String → Option String)
    (cbs : Nat → Callbacks σ) (p : Program σ) (h1 h2 : Nat) (ops : List Op)
    (hnone : p.sketch.edge._portal = none) :
    (Edge.portal h1 p).sketch.edge._portal = some h1 ∧
    (ops.foldl (Edge.step aj load cbs) (Edge.portal h1 p)).sketch.edge._portal = some h1 ∧
    (Edge.portal h2 (ops.foldl (Edge.step aj load cbs)
      (Edge.portal h1 p))).sketch.edge._portal = some h1 ∧
    ((Edge.portal h2 (ops.foldl (Edge.step aj load cbs) (Edge.portal h1 p))).hosts h1).pages =
      ((ops.foldl (Edge.step aj load cbs) (Edge.portal h1 p)).hosts h1).pages ++
        (ops.foldl (Edge.step aj load cbs) (Edge.portal h1 p)).sketch.edge._auxQueue ∧
    (Edge.portal h2 (ops.foldl (Edge.step aj load cbs)
      (Edge.portal h1 p))).sketch.edge._auxQueue = [] ∧
    (h2 ≠ h1 → (Edge.portal h2 (ops.foldl (Edge.step aj load cbs) (Edge.portal h1 p))).hosts h2 =
      (ops.foldl (Edge.step aj load cbs) (Edge.portal h1 p)).hosts h2) := by
  have hfirst : (Edge.portal h1 p).sketch.edge._portal = some h1 := by
    rw [(portal_spec h1 p).1, hnone]
    rfl
  have hinv : ∀ (l : List Op) (q : Program σ), q.sketch.edge._portal = some h1 →
      (l.foldl (Edge.step aj load cbs) q).sketch.edge._portal = some h1 := by
    intro l
    induction l with
    | nil => intro q hq; exact hq
    | cons op rest ih =>
      intro q hq
      rw [List.foldl_cons]
      exact ih _ (step_portal aj load cbs q op h1 hq)
  have hlater := hinv ops _ hfirst
  obtain ⟨b1, b2, b3, b4, _⟩ :=
    portal_spec h2 (ops.foldl (Edge.step aj load cbs) (Edge.portal h1 p))
  rw [hlater] at b1 b3 b4
  simp only [Option.getD_some] at b1 b3 b4
  exact ⟨hfirst, hlater, b1, b3, b2, fun hne => b4 h2 hne⟩

/-- C25 instance: the host at 1 is bound first; after a join, a tick and a `portal(2)` the
bound host is still the one at 1, the page joined in between is on the host at 1 and the host
at 2 has no page. -/
theorem C25_portal_bound_once_witness :
    demoProgram.sketch.edge._portal = none ∧
    (Edge.portal 2 ([Op.join demoPages, Op.process 5].foldl
      (Edge.step demoJson demoLoad demoCbs) (Edge.portal 1 demoProgram))).sketch.edge._portal =
      some 1 ∧
    ((Edge.portal 2 ([Op.join demoPages, Op.process 5].foldl
      (Edge.step demoJson demoLoad demoCbs) (Edge.portal 1 demoProgram))).hosts 2).pages = [] := by
  have h := C25_portal_bound_once demoJson demoLoad demoCbs demoProgram 1 2
    [Op.join demoPages, Op.process 5] rfl
  refine ⟨rfl, h.2.2.1, ?_⟩
  rw [h.2.2.2.2.2 (by decide)]
  decide

/-! ## Theorems: drivers built by `bind` -/

/-- On members that are empty or hold a handler, `start` returns, with the state that
`EdgeDriverBase.start` gives for the function objects `c`. -/
theorem start_ofCallbacks {σ : Type} (aj : ArduinoJson) (c : Callbacks σ) (now : Nat)
    (interval : Int) (w : World σ) :
    EdgeDriver.start aj c (Members.ofCallbacks c) now interval w =
      Outcome.returned (EdgeDriverBase.start aj c now interval w) := by
  cases h : c._cbStart <;>
    simp [EdgeDriver.start, EdgeDriverBase.start, Members.ofCallbacks, Target.isSet,
      Target.call, h]

/-- On members that are empty or hold a handler, `process` returns, with the state that
`EdgeDriverBase.process` gives for the function objects `c`. -/
theorem process_ofCallbacks {σ : Type} (c : Callbacks σ) (now : Nat) (w : World σ) :
    EdgeDriver.process (Members.ofCallbacks c) now w =
      Outcome.returned (EdgeDriverBase.process c now w) := by
  cases h : c._cbProcess <;> by_cases he : w.drv._enable = true <;>
    by_cases hd : (w.drv._elapse now).1 = true <;>
    simp [EdgeDriver.process, EdgeDriverBase.process, Members.ofCallbacks, Target.isSet,
      Target.call, h, he, hd]

/-- On members that are empty or hold a handler, `end` returns, with the state that
`EdgeDriverBase.end_` gives for the function objects `c`. -/
theorem end_ofCallbacks {σ : Type} (aj : ArduinoJson) (c : Callbacks σ) (w : World σ) :
    EdgeDriver.end_ aj c (Members.ofCallbacks c) w =
      Outcome.returned (EdgeDriverBase.end_ aj c w) := by
  cases h : c._cbEnd <;>
    simp [EdgeDriver.end_, EdgeDriverBase.end_, Members.ofCallbacks, Target.isSet,
      Target.call, h]

/-- A loop over member functions that all return is the loop `Sketch.callAll`. -/
theorem callAllThrowing_returned {σ α π : Type} (m : Nat → Method)
    (f : Nat → World σ → World σ) (g : Nat → World σ → Outcome (World σ))
    (hg : ∀ d w, g d w = Outcome.returned (f d w)) (drivers : List Nat) (s : Sketch σ α π) :
    Sketch.callAllThrowing m g drivers s = Outcome.returned (Sketch.callAll m f drivers s) := by
  induction drivers generalizing s with
  | nil => rfl
  | cons d ds ih =>
    have hcall : s.callThrowing d (m d) (g d) = Outcome.returned (s.call d (m d) (f d)) := by
      simp [Sketch.callThrowing, Sketch.call, hg, Outcome.state]
    simp only [Sketch.callAllThrowing, hcall, ih, Sketch.callAll, List.foldl_cons]

/-- On members that are empty or hold a handler, `end` and `process` of the registry return,
with the states that `Edge.end_` and `Edge.process` give for the function objects `cbs`. -/
theorem registry_ofCallbacks {σ α π : Type} (aj : ArduinoJson) (cbs : Nat → Callbacks σ)
    (now : Nat) (s : Sketch σ α π) :
    Edge.end_bound aj cbs (fun d => Members.ofCallbacks (cbs d)) s =
      Outcome.returned (Edge.end_ aj cbs s) ∧
    Edge.process_bound (fun d => Members.ofCallbacks (cbs d)) now s =
      Outcome.returned (Edge.process cbs now s) :=
  ⟨callAllThrowing_returned _ _ _ (fun d w => end_ofCallbacks aj (cbs d) w) _ s,
    callAllThrowing_returned _ _ _ (fun d w => process_ofCallbacks (cbs d) now w) _ s⟩

/-- Whatever the state of the driver, `start` throws when `bind` received an empty start
handler, `end` throws, with the state unchanged, when it received an empty end handler, and
`process` throws on an enabled driver past its interval when it received an empty process
handler. -/
theorem empty_handler_throws {σ : Type} (aj : ArduinoJson) (c : Callbacks σ) (m : Members σ)
    (now : Nat) (interval : Int) (w : World σ) :
    (m._cbStart = Target.bind none → (EdgeDriver.start aj c m now interval w).throws = true) ∧
    (m._cbEnd = Target.bind none →
      EdgeDriver.end_ aj c m w = Outcome.bad_function_call w) ∧
    (m._cbProcess = Target.bind none → w.drv._enable = true →
      (now + ULONG_MOD - w.drv._tm) % ULONG_MOD > w.drv._interval →
      (EdgeDriver.process m now w).throws = true) := by
  refine ⟨?_, ?_, ?_⟩
  · intro h
    simp [EdgeDriver.start, h, Target.isSet, Target.call, Outcome.throws]
  · intro h
    simp [EdgeDriver.end_, h, Target.isSet, Target.call]
  · intro h hen hdue
    have h1 : (w.drv._elapse now).1 = true := (elapse_fst_iff now w.drv).2 hdue
    simp [EdgeDriver.process, h, hen, h1, Target.isSet, Target.call, Outcome.throws]

/-- C6 (code evaluated at the failing input): a driver built with `nullptr` as start handler,
with auto-restore set and a stored document holding 7. `start()` enables the driver and
restores the EdgeData, and then `std::bad_function_call` is thrown out of it: `_cbStart` holds
`std::bind` of the empty handler, so the test `if (_cbStart)` does not skip the call. On a
driver on which `bind` was never called `start()` returns without calling anything, and with a
start handler it returns after calling it. -/
theorem C6_start_without_start_handler_throws :
    demoMembersNoStart._cbStart.isSet = true ∧
    (EdgeDriver.start demoJson demoCallbacks demoMembersNoStart 42 (-1)
      demoWorldRestore).throws = true ∧
    (EdgeDriver.start demoJson demoCallbacks demoMembersNoStart 42 (-1)
      demoWorldRestore).state.log =
      [Event.restore none, Event.openFile "/T.json" "r" true, Event.deserializer] ∧
    (EdgeDriver.start demoJson demoCallbacks demoMembersNoStart 42 (-1)
      demoWorldRestore).state.drv._enable = true ∧
    (EdgeDriver.start demoJson demoCallbacks demoMembersNoStart 42 (-1)
      demoWorldRestore).state.drv.data = 7 ∧
    (EdgeDriver.start demoJson demoCallbacks EdgeDriver.unbound 42 (-1)
      demoWorldRestore).throws = false ∧
    (EdgeDriver.start demoJson demoCallbacks EdgeDriver.unbound 42 (-1)
      demoWorldRestore).state.log =
      [Event.restore none, Event.openFile "/T.json" "r" true, Event.deserializer] ∧
    (EdgeDriver.start demoJson demoCallbacks demoMembersAll 42 (-1)
      demoWorldRestore).throws = false ∧
    (EdgeDriver.start demoJson demoCallbacks demoMembersAll 42 (-1)
      demoWorldRestore).state.log =
      [Event.restore none, Event.openFile "/T.json" "r" true, Event.deserializer,
        Event.cbStart] := by
  decide

/-- C7 (code evaluated at the failing input): an enabled driver with auto-save set, built with
`nullptr` as end handler. `std::bad_function_call` is thrown out of `end()` at the call of
`_cbEnd`, before `save()` and before the driver is disabled: nothing is logged, the store is
as before and the driver is still enabled. With an end handler, and on a driver on which
`bind` was never called, `end()` returns, saves and disables the driver. -/
theorem C7_end_without_end_handler_throws :
    demoWorldSave.drv._enable = true ∧ demoWorldSave.drv.isAutoSave = true ∧
    demoMembersNoEnd._cbEnd.isSet = true ∧
    (EdgeDriver.end_ demoJson demoCallbacks demoMembersNoEnd demoWorldSave).throws = true ∧
    (EdgeDriver.end_ demoJson demoCallbacks demoMembersNoEnd demoWorldSave).state.log = [] ∧
    (EdgeDriver.end_ demoJson demoCallbacks demoMembersNoEnd demoWorldSave).state.fs =
      demoWorldSave.fs ∧
    (EdgeDriver.end_ demoJson demoCallbacks demoMembersNoEnd
      demoWorldSave).state.drv._enable = true ∧
    (EdgeDriver.end_ demoJson demoCallbacks demoMembersAll demoWorldSave).throws = false ∧
    (EdgeDriver.end_ demoJson demoCallbacks demoMembersAll demoWorldSave).state.log =
      [Event.cbEnd, Event.save none, Event.openFile "/T.json" "w" true, Event.serializer] ∧
    (EdgeDriver.end_ demoJson demoCallbacks demoMembersAll
      demoWorldSave).state.drv._enable = false ∧
    (EdgeDriver.end_ demoJson demoCallbacks EdgeDriver.unbound demoWorldSave).throws = false ∧
    (EdgeDriver.end_ demoJson demoCallbacks EdgeDriver.unbound demoWorldSave).state.log =
      [Event.save none, Event.openFile "/T.json" "w" true, Event.serializer] ∧
    (EdgeDriver.end_ demoJson demoCallbacks EdgeDriver.unbound
      demoWorldSave).state.drv._enable = false := by
  decide

/-- C20 (code evaluated at the failing inputs). First input: the drivers at 0 and 1 are
registered, enabled and past their interval at clock 1; the driver at 0 was built with
`nullptr` as process handler. The tick calls `process` on the driver at 0, where
`std::bad_function_call` is thrown, and `process` is not called on the driver at 1, whose
process callback does not run; with a process handler at 0 both callbacks run. Second input:
the registered driver has interval 500 and last tick 0; the tick at clock 500 calls `process`
on it and the process callback does not run, while the tick at 501 runs it. -/
theorem C20_tick_stopped_by_driver_without_handler :
    (demoSketchPair.heap 0)._enable = true ∧ (demoSketchPair.heap 1)._enable = true ∧
    (Edge.process_bound demoPairNoProcess 1 demoSketchPair).throws = true ∧
    (Edge.process_bound demoPairNoProcess 1 demoSketchPair).state.trace =
      [Entry.call 0 Method.process] ∧
    ((Edge.process_bound demoPairNoProcess 1 demoSketchPair).state.heap 1).data = 0 ∧
    (Edge.process_bound (fun _ => demoMembersAll) 1 demoSketchPair).throws = false ∧
    (Edge.process_bound (fun _ => demoMembersAll) 1 demoSketchPair).state.trace =
      [Entry.call 0 Method.process, Entry.event 0 Event.cbProcess,
        Entry.call 1 Method.process, Entry.event 1 Event.cbProcess] ∧
    (demoSketch500.heap 0)._enable = true ∧ (demoSketch500.heap 0)._interval = 500 ∧
    (demoSketch500.heap 0)._tm = 0 ∧
    (Edge.process demoCbs 500 demoSketch500).trace = [Entry.call 0 Method.process] ∧
    (Edge.process demoCbs 501 demoSketch500).trace =
      [Entry.call 0 Method.process, Entry.event 0 Event.cbProcess] := by
  decide

/-- C22 (code evaluated at the failing input): the drivers at 0 and 1 are registered and
enabled; the driver at 0 was built with `nullptr` as end handler. `end` of the registry calls
`end` on the driver at 0, where `std::bad_function_call` is thrown: `end` is not called on the
driver at 1 and both drivers stay enabled, so that a following tick at clock 1 runs the
process callbacks of both. With an end handler at 0 both drivers are ended and disabled and
the tick runs no process callback. -/
theorem C22_end_all_stopped_by_driver_without_handler :
    (Edge.end_bound demoJson demoCbs demoPairNoEnd demoSketchPair).throws = true ∧
    (Edge.end_bound demoJson demoCbs demoPairNoEnd demoSketchPair).state.trace =
      [Entry.call 0 Method.end_] ∧
    ((Edge.end_bound demoJson demoCbs demoPairNoEnd demoSketchPair).state.heap 0)._enable =
      true ∧
    ((Edge.end_bound demoJson demoCbs demoPairNoEnd demoSketchPair).state.heap 1)._enable =
      true ∧
    ((Edge.process_bound demoPairNoEnd 1
      (Edge.end_bound demoJson demoCbs demoPairNoEnd demoSketchPair).state).state.trace.filterMap
        Entry.firedProcess) = [0, 1] ∧
    (Edge.end_bound demoJson demoCbs (fun _ => demoMembersAll) demoSketchPair).throws = false ∧
    (Edge.end_bound demoJson demoCbs (fun _ => demoMembersAll) demoSketchPair).state.trace =
      [Entry.call 0 Method.end_, Entry.event 0 Event.cbEnd,
        Entry.call 1 Method.end_, Entry.event 1 Event.cbEnd] ∧
    ((Edge.end_bound demoJson demoCbs (fun _ => demoMembersAll)
      demoSketchPair).state.heap 0)._enable = false ∧
    ((Edge.end_bound demoJson demoCbs (fun _ => demoMembersAll)
      demoSketchPair).state.heap 1)._enable = false ∧
    ((Edge.process_bound (fun _ => demoMembersAll) 1
      (Edge.end_bound demoJson demoCbs (fun _ => demoMembersAll)
        demoSketchPair).state).state.trace.filterMap Entry.firedProcess) = [] := by
  decide

end EdgeUnified
